import Mathlib

/-!
# Crypto-Tracker: portfolio, valuation, alert and wallet handlers

A shallow embedding of the route handlers of `server/routes/portfoilio.js`,
`server/routes/alerts.js` and `server/routes/payments.js`.

Numbers.  A JavaScript number is embedded as `JsNum`: a finite value, given by an exact
rational, or one of `Infinity`, `-Infinity`, `NaN`.  The two zeros are identified, a zero
divisor counting as `+0`.  The handlers are embedded twice.  In the first embedding an
operator returns the exact result; what the handlers can observe of a number otherwise
(division by zero, `NaN` comparisons, `x || 0`) is kept.  It carries the properties of
validation, branching and state, and those stated in the handler's own expressions.  In the
second embedding, the namespace `Binary64`, every operation is followed by the rounding to
the nearest double, a numeral can overflow to `Infinity`, and a save that the store refuses
is answered with 500.  It carries the properties that compare what the handler computes
with another expression.

State.  A handler reads the user document, mutates it in memory and saves it.  It is
embedded as a function from the stored state and the request to an `Outcome`: the HTTP
status and the state after the request.
-/

namespace CryptoTracker

/-! ## JavaScript numbers -/

/-- A JavaScript number: a finite value, `Infinity`, `-Infinity` or `NaN`. -/
inductive JsNum where
  | fin (q : ℚ)
  | posInf
  | negInf
  | nan
deriving DecidableEq

namespace JsNum

/-- Unary minus. -/
def neg : JsNum → JsNum
  | fin q => fin (-q)
  | posInf => negInf
  | negInf => posInf
  | nan => nan

/-- The operator `+` on numbers. -/
def add : JsNum → JsNum → JsNum
  | fin a, fin b => fin (a + b)
  | fin _, posInf => posInf
  | fin _, negInf => negInf
  | posInf, fin _ => posInf
  | posInf, posInf => posInf
  | posInf, negInf => nan
  | negInf, fin _ => negInf
  | negInf, negInf => negInf
  | negInf, posInf => nan
  | nan, _ => nan
  | _, nan => nan

/-- The operator `-`. -/
def sub (a b : JsNum) : JsNum := add a (neg b)

/-- An infinity multiplied by the finite value `q`; `positive` is the sign of the infinity. -/
def infTimes (q : ℚ) (positive : Bool) : JsNum :=
  if q = 0 then nan
  else if 0 < q then (if positive then posInf else negInf)
  else (if positive then negInf else posInf)

/-- The operator `*`. -/
def mul : JsNum → JsNum → JsNum
  | fin a, fin b => fin (a * b)
  | fin a, posInf => infTimes a true
  | fin a, negInf => infTimes a false
  | posInf, fin b => infTimes b true
  | negInf, fin b => infTimes b false
  | posInf, posInf => posInf
  | posInf, negInf => negInf
  | negInf, posInf => negInf
  | negInf, negInf => posInf
  | nan, _ => nan
  | _, nan => nan

/-- The operator `/`: a finite value over zero is an infinity, `0 / 0` is `NaN`. -/
def div : JsNum → JsNum → JsNum
  | fin a, fin b =>
      if b = 0 then (if a = 0 then nan else if 0 < a then posInf else negInf)
      else fin (a / b)
  | fin _, posInf => fin 0
  | fin _, negInf => fin 0
  | posInf, fin b => if 0 ≤ b then posInf else negInf
  | negInf, fin b => if 0 ≤ b then negInf else posInf
  | posInf, posInf => nan
  | posInf, negInf => nan
  | negInf, posInf => nan
  | negInf, negInf => nan
  | nan, _ => nan
  | _, nan => nan

instance : Add JsNum := ⟨add⟩
instance : Sub JsNum := ⟨sub⟩
instance : Mul JsNum := ⟨mul⟩
instance : Div JsNum := ⟨div⟩
instance : Zero JsNum := ⟨fin 0⟩

/-- The comparison `a < b`; every comparison with `NaN` is false. -/
def lt : JsNum → JsNum → Bool
  | fin a, fin b => decide (a < b)
  | fin _, posInf => true
  | fin _, negInf => false
  | posInf, _ => false
  | negInf, fin _ => true
  | negInf, posInf => true
  | negInf, negInf => false
  | nan, _ => false
  | _, nan => false

/-- The comparison `a === b` on numbers: `NaN` is equal to nothing, itself included. -/
def strictEq : JsNum → JsNum → Bool
  | nan, _ => false
  | _, nan => false
  | a, b => decide (a = b)

/-- The comparison `a <= b`; every comparison with `NaN` is false. -/
def le : JsNum → JsNum → Bool
  | fin a, fin b => decide (a ≤ b)
  | fin _, posInf => true
  | fin _, negInf => false
  | posInf, posInf => true
  | posInf, fin _ => false
  | posInf, negInf => false
  | negInf, fin _ => true
  | negInf, posInf => true
  | negInf, negInf => true
  | nan, _ => false
  | _, nan => false

/-- The call `Math.round(x)`: the nearest integer, a tie going up. -/
def round : JsNum → JsNum
  | fin q => fin (⌊q + 1 / 2⌋ : ℤ)
  | x => x

/-- The call `Number.isFinite(x)`. -/
def isFinite : JsNum → Bool
  | fin _ => true
  | _ => false

/-- The value is a finite number that is at least zero. -/
def isNonNeg : JsNum → Bool
  | fin q => decide (0 ≤ q)
  | _ => false

end JsNum

/-! ## Request bodies and validators -/

/-- A numeric field of a JSON request body: absent, present but rejected by `isNumeric()`,
or a decimal numeral. -/
inductive BodyValue where
  | missing
  | invalid
  | num (q : ℚ)
deriving DecidableEq

/-- The validator chain `isNumeric().isFloat({ min })`. -/
def isFloatMin (min : ℚ) : BodyValue → Bool
  | BodyValue.num q => decide (min ≤ q)
  | _ => false

/-- The validator chain `optional().isNumeric().isFloat({ min })`. -/
def optionalFloatMin (min : ℚ) : BodyValue → Bool
  | BodyValue.missing => true
  | v => isFloatMin min v

/-- The call `parseFloat(v)`; it is `NaN` where the field holds no numeral. -/
def parseFloat : BodyValue → JsNum
  | BodyValue.num q => JsNum.fin q
  | _ => JsNum.nan

/-- The validator `notEmpty()` on a string field (an absent field reads as the empty string). -/
def notEmpty (s : String) : Bool := decide (s ≠ "")

/-- What a handler leaves behind: the HTTP status and the stored state after the request. -/
structure Outcome (σ : Type) where
  status : Nat
  state : σ

/-! ## Position ledger (`routes/portfoilio.js`) -/

/-- One element of `user.portfolio`. -/
structure Position where
  coinId : String
  symbol : String
  name : String
  amount : JsNum
  buyPrice : JsNum
deriving DecidableEq

/-- The stored array `user.portfolio`. -/
abbrev Portfolio := List Position

/-- Body of `POST /api/portfolio`. -/
structure AddRequest where
  coinId : String
  symbol : String
  name : String
  amount : BodyValue
  buyPrice : BodyValue

/-- The validators of `POST /api/portfolio`. -/
def validAdd (req : AddRequest) : Bool :=
  notEmpty req.coinId && notEmpty req.symbol && notEmpty req.name &&
    isFloatMin 0 req.amount && isFloatMin 0 req.buyPrice

/-- The call `user.portfolio.find(item => item.coinId === coinId)`. -/
def findCoin (pf : Portfolio) (coinId : String) : Option Position :=
  pf.find? (fun item => decide (item.coinId = coinId))

/-- In-place update of the element that `find` returned: the first one with this `coinId`. -/
def mutateCoin (coinId : String) (f : Position → Position) : Portfolio → Portfolio
  | [] => []
  | item :: rest =>
      if item.coinId = coinId then f item :: rest else item :: mutateCoin coinId f rest

/-- The two assignments of the `existingCoin` branch, in their order: the amount is increased
first, and the new cost reads the increased amount. -/
def increaseCoin (amount buyPrice : JsNum) (existingCoin : Position) : Position :=
  let withAmount : Position := { existingCoin with amount := existingCoin.amount + amount }
  { withAmount with
    buyPrice :=
      ((withAmount.buyPrice * (withAmount.amount - amount)) + (buyPrice * amount))
        / withAmount.amount }

/-- Handler of `POST /api/portfolio`. -/
def postPortfolio (pf : Portfolio) (req : AddRequest) : Outcome Portfolio :=
  if validAdd req then
    match findCoin pf req.coinId with
    | some _ =>
        ⟨200, mutateCoin req.coinId
          (increaseCoin (parseFloat req.amount) (parseFloat req.buyPrice)) pf⟩
    | none =>
        ⟨200, pf ++ [{ coinId := req.coinId, symbol := req.symbol, name := req.name,
                       amount := parseFloat req.amount, buyPrice := parseFloat req.buyPrice }]⟩
  else ⟨400, pf⟩

/-- Body and path parameter of `PUT /api/portfolio/:coinId`. -/
structure EditRequest where
  coinId : String
  amount : BodyValue
  buyPrice : BodyValue

/-- The validators of `PUT /api/portfolio/:coinId`. -/
def validEdit (req : EditRequest) : Bool :=
  optionalFloatMin 0 req.amount && optionalFloatMin 0 req.buyPrice

/-- The two guarded assignments `if (x !== undefined) coin.x = parseFloat(x)`. -/
def overwriteCoin (amount buyPrice : BodyValue) (coin : Position) : Position :=
  let withAmount : Position :=
    if amount = BodyValue.missing then coin else { coin with amount := parseFloat amount }
  if buyPrice = BodyValue.missing then withAmount
  else { withAmount with buyPrice := parseFloat buyPrice }

/-- Handler of `PUT /api/portfolio/:coinId`. -/
def putPortfolio (pf : Portfolio) (req : EditRequest) : Outcome Portfolio :=
  if validEdit req then
    match findCoin pf req.coinId with
    | none => ⟨404, pf⟩
    | some _ => ⟨200, mutateCoin req.coinId (overwriteCoin req.amount req.buyPrice) pf⟩
  else ⟨400, pf⟩

/-- Handler of `DELETE /api/portfolio/:coinId`. -/
def deletePortfolio (pf : Portfolio) (coinId : String) : Outcome Portfolio :=
  ⟨200, pf.filter (fun item => decide (item.coinId ≠ coinId))⟩

/-- A request to the position ledger. -/
inductive PortfolioRequest where
  | post (req : AddRequest)
  | put (req : EditRequest)
  | delete (coinId : String)

/-- One request handled by its route. -/
def stepPortfolio (pf : Portfolio) : PortfolioRequest → Outcome Portfolio
  | PortfolioRequest.post req => postPortfolio pf req
  | PortfolioRequest.put req => putPortfolio pf req
  | PortfolioRequest.delete coinId => deletePortfolio pf coinId

/-- The stored portfolio after a sequence of requests, handled one after the other. -/
def runPortfolio (pf : Portfolio) (reqs : List PortfolioRequest) : Portfolio :=
  reqs.foldl (fun stored req => (stepPortfolio stored req).state) pf

/-- Every request of the sequence is answered with status 200. -/
def allAccepted : Portfolio → List PortfolioRequest → Bool
  | _, [] => true
  | pf, req :: rest =>
      decide ((stepPortfolio pf req).status = 200) && allAccepted (stepPortfolio pf req).state rest

/-- The body of an addition of `quantity` units at `unitCost` each. -/
def addition (coinId symbol name : String) (purchase : ℚ × ℚ) : AddRequest :=
  { coinId := coinId, symbol := symbol, name := name,
    amount := BodyValue.num purchase.1, buyPrice := BodyValue.num purchase.2 }

/-! ## Valuation (`GET /api/portfolio`) -/

/-- The body of the price response for the user's currency: `response.data[coinId]?.[currency]`
and `response.data[coinId]?.[currency + '_24h_change']`, `none` where the lookup is undefined. -/
structure PriceData where
  price : String → Option ℚ
  change24h : String → Option ℚ

/-- The expression `x || 0` on a looked-up number. -/
def orZero : Option ℚ → JsNum
  | some q => if q = 0 then JsNum.fin 0 else JsNum.fin q
  | none => JsNum.fin 0

/-- One element of the `portfolio` array of the response. -/
structure PricedPosition extends Position where
  currentPrice : JsNum
  priceChange24h : JsNum
  totalValue : JsNum
  profitLoss : JsNum
  profitLossPercentage : JsNum
deriving DecidableEq

/-- The callback of `user.portfolio.map(item => ...)`. -/
def pricePosition (data : PriceData) (item : Position) : PricedPosition :=
  let currentPrice := orZero (data.price item.coinId)
  let priceChange24h := orZero (data.change24h item.coinId)
  { toPosition := item,
    currentPrice := currentPrice,
    priceChange24h := priceChange24h,
    totalValue := item.amount * currentPrice,
    profitLoss := (currentPrice - item.buyPrice) * item.amount,
    profitLossPercentage := ((currentPrice - item.buyPrice) / item.buyPrice) * JsNum.fin 100 }

/-- The `summary` object of the response. -/
structure Summary where
  totalValue : JsNum
  totalProfitLoss : JsNum
  totalProfitLossPercentage : JsNum
deriving DecidableEq

/-- The body of the response of `GET /api/portfolio`. -/
structure PortfolioResponse where
  portfolio : List PricedPosition
  summary : Summary
deriving DecidableEq

/-- The query parameter `user.portfolio.map(item => item.coinId).join(',')`. -/
def coinIds (pf : Portfolio) : String :=
  String.intercalate "," (pf.map (fun item => item.coinId))

/-- The summary computed from the priced positions by the two `reduce` calls. -/
def summarize (priced : List PricedPosition) : Summary :=
  let totalValue := priced.foldl (fun sum item => sum + item.totalValue) (JsNum.fin 0)
  let totalProfitLoss := priced.foldl (fun sum item => sum + item.profitLoss) (JsNum.fin 0)
  { totalValue := totalValue,
    totalProfitLoss := totalProfitLoss,
    totalProfitLossPercentage :=
      if JsNum.lt (JsNum.fin 0) totalValue then
        (totalProfitLoss / (totalValue - totalProfitLoss)) * JsNum.fin 100
      else JsNum.fin 0 }

/-- Handler of `GET /api/portfolio`, given the price response. -/
def getPortfolio (pf : Portfolio) (data : PriceData) : PortfolioResponse :=
  if coinIds pf ≠ "" then
    let portfolioWithPrices := pf.map (pricePosition data)
    { portfolio := portfolioWithPrices, summary := summarize portfolioWithPrices }
  else
    { portfolio := [],
      summary := { totalValue := JsNum.fin 0, totalProfitLoss := JsNum.fin 0,
                   totalProfitLossPercentage := JsNum.fin 0 } }

/-! ## Wallet ledger (`routes/payments.js`) -/

/-- The stored object `user.wallet`. -/
structure Wallet where
  balance : JsNum
  currency : String
deriving DecidableEq

/-- Body of `POST /api/payments/verify`. -/
structure VerifyRequest where
  orderId : String
  paymentId : String
  signature : String
  amount : BodyValue

/-- The validators of `POST /api/payments/verify`. -/
def validVerify (req : VerifyRequest) : Bool :=
  notEmpty req.orderId && notEmpty req.paymentId && notEmpty req.signature &&
    isFloatMin 1 req.amount

/-- The signature the handler expects. `hmacSha256Hex key message` stands for
`crypto.createHmac('sha256', key).update(message).digest('hex')`, and `secret` for
`process.env.RAZORPAY_KEY_SECRET`. -/
def expectedSignature (hmacSha256Hex : String → String → String) (secret : String)
    (req : VerifyRequest) : String :=
  hmacSha256Hex secret (req.orderId ++ "|" ++ req.paymentId)

/-- Handler of `POST /api/payments/verify`. -/
def postVerify (hmacSha256Hex : String → String → String) (secret : String)
    (w : Wallet) (req : VerifyRequest) : Outcome Wallet :=
  if validVerify req then
    if req.signature ≠ expectedSignature hmacSha256Hex secret req then ⟨400, w⟩
    else ⟨200, { w with balance := w.balance + parseFloat req.amount }⟩
  else ⟨400, w⟩

/-- Body of `POST /api/payments/withdraw`. -/
structure WithdrawRequest where
  amount : BodyValue

/-- The validators of `POST /api/payments/withdraw`. -/
def validWithdraw (req : WithdrawRequest) : Bool := isFloatMin 1 req.amount

/-- Handler of `POST /api/payments/withdraw`. -/
def postWithdraw (w : Wallet) (req : WithdrawRequest) : Outcome Wallet :=
  if validWithdraw req then
    if JsNum.lt w.balance (parseFloat req.amount) then ⟨400, w⟩
    else ⟨200, { w with balance := w.balance - parseFloat req.amount }⟩
  else ⟨400, w⟩

/-- A request to the wallet ledger. -/
inductive WalletRequest where
  | verify (req : VerifyRequest)
  | withdraw (req : WithdrawRequest)

/-- One wallet request handled by its route. -/
def stepWallet (hmacSha256Hex : String → String → String) (secret : String) (w : Wallet) :
    WalletRequest → Outcome Wallet
  | WalletRequest.verify req => postVerify hmacSha256Hex secret w req
  | WalletRequest.withdraw req => postWithdraw w req

/-- The stored wallet after a sequence of requests, handled one after the other. -/
def runWallet (hmacSha256Hex : String → String → String) (secret : String) (w : Wallet)
    (reqs : List WalletRequest) : Wallet :=
  reqs.foldl (fun stored req => (stepWallet hmacSha256Hex secret stored req).state) w

/-! ## Alert registry (`routes/alerts.js`) -/

/-- One element of `user.alerts`. `id` is `alert._id.toString()`. -/
structure Alert where
  id : String
  coinId : String
  symbol : String
  targetPrice : JsNum
  condition : String
  isActive : Bool
  createdAt : Nat
deriving DecidableEq

/-- Modelled from the spec: the alert subdocument schema of `models/User` is not among the
sources. The element that `user.alerts.push({ coinId, symbol, targetPrice, condition })` stores
gets the fields it is given and the schema's defaults, which the spec states as
`isActive = true` and `createdAt = now`; `newId` is the `_id` the store assigns. -/
def newAlert (newId : String) (now : Nat) (coinId symbol : String) (targetPrice : JsNum)
    (condition : String) : Alert :=
  { id := newId, coinId := coinId, symbol := symbol, targetPrice := targetPrice,
    condition := condition, isActive := true, createdAt := now }

/-- Body of `POST /api/alerts`. -/
structure AlertRequest where
  coinId : String
  symbol : String
  targetPrice : BodyValue
  condition : String

/-- The validator `isIn(['above', 'below'])` (an absent field reads as the empty string). -/
def isCondition (s : String) : Bool := decide (s = "above") || decide (s = "below")

/-- The validators of `POST /api/alerts`. -/
def validAlert (req : AlertRequest) : Bool :=
  notEmpty req.coinId && notEmpty req.symbol && isFloatMin 0 req.targetPrice &&
    isCondition req.condition

/-- The callback of the duplicate search of `POST /api/alerts`. -/
def sameActiveAlert (coinId : String) (targetPrice : JsNum) (condition : String)
    (alert : Alert) : Bool :=
  decide (alert.coinId = coinId) && JsNum.strictEq alert.targetPrice targetPrice &&
    decide (alert.condition = condition) && alert.isActive

/-- Handler of `POST /api/alerts`. -/
def postAlert (newId : String) (now : Nat) (alerts : List Alert) (req : AlertRequest) :
    Outcome (List Alert) :=
  if validAlert req then
    match alerts.find?
      (sameActiveAlert req.coinId (parseFloat req.targetPrice) req.condition) with
    | some _ => ⟨400, alerts⟩
    | none =>
        ⟨200, alerts ++ [newAlert newId now req.coinId req.symbol (parseFloat req.targetPrice)
                          req.condition]⟩
  else ⟨400, alerts⟩

/-- A boolean field of a JSON request body: absent, present but rejected by `isBoolean()`, or
a boolean (also in the spellings `isBoolean()` accepts and the store casts). -/
inductive BodyBool where
  | missing
  | invalid
  | bool (b : Bool)
deriving DecidableEq

/-- Body and path parameter of `PUT /api/alerts/:alertId`; `condition` is `none` where the
field is undefined. -/
structure AlertEdit where
  alertId : String
  targetPrice : BodyValue
  condition : Option String
  isActive : BodyBool

/-- The validator chain `optional().isIn(['above', 'below'])`. -/
def optionalCondition : Option String → Bool
  | none => true
  | some s => isCondition s

/-- The validator chain `optional().isBoolean()`. -/
def optionalBoolean : BodyBool → Bool
  | BodyBool.invalid => false
  | _ => true

/-- The validators of `PUT /api/alerts/:alertId`. -/
def validAlertEdit (req : AlertEdit) : Bool :=
  optionalFloatMin 0 req.targetPrice && optionalCondition req.condition &&
    optionalBoolean req.isActive

/-- The call `user.alerts.id(alertId)`. -/
def findAlert (alerts : List Alert) (alertId : String) : Option Alert :=
  alerts.find? (fun alert => decide (alert.id = alertId))

/-- In-place update of the element that `id(alertId)` returned: the first one with this id. -/
def mutateAlert (alertId : String) (f : Alert → Alert) : List Alert → List Alert
  | [] => []
  | alert :: rest =>
      if alert.id = alertId then f alert :: rest else alert :: mutateAlert alertId f rest

/-- The three guarded assignments `if (x !== undefined) alert.x = ...` (a value that
`isBoolean()` rejects never reaches them). -/
def overwriteAlert (targetPrice : BodyValue) (condition : Option String) (isActive : BodyBool)
    (alert : Alert) : Alert :=
  let withPrice : Alert :=
    if targetPrice = BodyValue.missing then alert
    else { alert with targetPrice := parseFloat targetPrice }
  let withCondition : Alert :=
    match condition with
    | none => withPrice
    | some c => { withPrice with condition := c }
  match isActive with
  | BodyBool.bool b => { withCondition with isActive := b }
  | _ => withCondition

/-- Handler of `PUT /api/alerts/:alertId`. -/
def putAlert (alerts : List Alert) (req : AlertEdit) : Outcome (List Alert) :=
  if validAlertEdit req then
    match findAlert alerts req.alertId with
    | none => ⟨404, alerts⟩
    | some _ =>
        ⟨200, mutateAlert req.alertId
          (overwriteAlert req.targetPrice req.condition req.isActive) alerts⟩
  else ⟨400, alerts⟩

/-- Handler of `DELETE /api/alerts/:alertId`. -/
def deleteAlert (alerts : List Alert) (alertId : String) : Outcome (List Alert) :=
  ⟨200, alerts.filter (fun alert => decide (alert.id ≠ alertId))⟩

/-! ## Payment orders (`POST /api/payments/create-order`) -/

/-- Body of `POST /api/payments/create-order`; `currency` is `none` where the field is
undefined. -/
structure OrderRequest where
  amount : BodyValue
  currency : Option String

/-- The validator chain `optional().isIn(['INR', 'USD'])`. -/
def optionalCurrency : Option String → Bool
  | none => true
  | some c => decide (c = "INR") || decide (c = "USD")

/-- The validators of `POST /api/payments/create-order`. -/
def validOrder (req : OrderRequest) : Bool :=
  isFloatMin 1 req.amount && optionalCurrency req.currency

/-- The `order` object of the response. -/
structure Order where
  id : String
  amount : JsNum
  currency : String
  receipt : String
  status : String
  created_at : Nat
deriving DecidableEq

/-- Handler of `POST /api/payments/create-order`: the status and, on success, the order.
`now` stands for `Date.now()` and `userId` for `req.user._id`. -/
def createOrder (now : Nat) (userId : String) (req : OrderRequest) : Nat × Option Order :=
  if validOrder req then
    (200, some
      { id := "order_" ++ toString now,
        amount := JsNum.round (parseFloat req.amount * JsNum.fin 100),
        currency := req.currency.getD "INR",
        receipt := "receipt_" ++ userId ++ "_" ++ toString now,
        status := "created",
        created_at := now })
  else (400, none)

/-! ## Alert evaluation -/

/-- Modelled from the spec: no function that evaluates an alert is among the sources. The
spec's `evaluate(alert, currentPrice)` returns `currentPrice >= targetPrice` when the
condition is ABOVE and `currentPrice <= targetPrice` when it is BELOW; the stored conditions
are the strings `'above'` and `'below'`. -/
def evaluate (alert : Alert) (currentPrice : JsNum) : Bool :=
  if alert.condition = "above" then JsNum.le alert.targetPrice currentPrice
  else if alert.condition = "below" then JsNum.le currentPrice alert.targetPrice
  else false

/-- Two alerts are for the same coin, target price and condition. -/
def sameTarget (a b : Alert) : Prop :=
  a.coinId = b.coinId ∧ a.targetPrice = b.targetPrice ∧ a.condition = b.condition

/-- No two active alerts of the list are for the same coin, target price and condition. -/
def activeUnique (alerts : List Alert) : Prop :=
  alerts.Pairwise (fun a b => ¬ (a.isActive = true ∧ b.isActive = true ∧ sameTarget a b))

/-! ## The user document -/

/-- The parts of the user document that the handlers write. -/
structure User where
  portfolio : Portfolio
  alerts : List Alert
  wallet : Wallet

/-- A request to one of the handlers that write the user document. -/
inductive MutatingRequest where
  | addPosition (req : AddRequest)
  | editPosition (req : EditRequest)
  | createAlert (req : AlertRequest)
  | editAlert (req : AlertEdit)
  | verify (req : VerifyRequest)
  | withdraw (req : WithdrawRequest)

/-- The request passes the validators of its route (`validationResult(req).isEmpty()`). -/
def passesValidation : MutatingRequest → Bool
  | MutatingRequest.addPosition req => validAdd req
  | MutatingRequest.editPosition req => validEdit req
  | MutatingRequest.createAlert req => validAlert req
  | MutatingRequest.editAlert req => validAlertEdit req
  | MutatingRequest.verify req => validVerify req
  | MutatingRequest.withdraw req => validWithdraw req

/-- One request handled by its route: the handler loads the user document, works on one of
its parts and saves the document. -/
def handleRequest (hmacSha256Hex : String → String → String) (secret : String)
    (newId : String) (now : Nat) (user : User) : MutatingRequest → Outcome User
  | MutatingRequest.addPosition req =>
      ⟨(postPortfolio user.portfolio req).status,
        { user with portfolio := (postPortfolio user.portfolio req).state }⟩
  | MutatingRequest.editPosition req =>
      ⟨(putPortfolio user.portfolio req).status,
        { user with portfolio := (putPortfolio user.portfolio req).state }⟩
  | MutatingRequest.createAlert req =>
      ⟨(postAlert newId now user.alerts req).status,
        { user with alerts := (postAlert newId now user.alerts req).state }⟩
  | MutatingRequest.editAlert req =>
      ⟨(putAlert user.alerts req).status,
        { user with alerts := (putAlert user.alerts req).state }⟩
  | MutatingRequest.verify req =>
      ⟨(postVerify hmacSha256Hex secret user.wallet req).status,
        { user with wallet := (postVerify hmacSha256Hex secret user.wallet req).state }⟩
  | MutatingRequest.withdraw req =>
      ⟨(postWithdraw user.wallet req).status,
        { user with wallet := (postWithdraw user.wallet req).state }⟩

/-! ## IEEE 754 binary64 arithmetic

The definitions above compute with exact values, which is all that is needed where a result
is stated in the handler's own expressions. Where a result depends on how the handler's
arithmetic rounds, the handlers are embedded a second time in the namespace `Binary64`: every
finite value is the exact value of a double, and every operation is the exact operation
followed by `toDouble`, the rounding to the nearest double with ties going to the even
significand (the basic operations of IEEE 754 are correctly rounded, and `parseFloat` reads a
decimal numeral as the nearest double). Overflow gives an infinity; the two zeros stay
identified. -/

/-- The integer nearest to `x`; a tie goes to the even one. -/
def roundHalfEven (x : ℚ) : ℤ :=
  if x - ⌊x⌋ < 1 / 2 then ⌊x⌋
  else if 1 / 2 < x - ⌊x⌋ then ⌊x⌋ + 1
  else if ⌊x⌋ % 2 = 0 then ⌊x⌋ else ⌊x⌋ + 1

/-- The binary exponent of the last place of the doubles around `q`: 52 below the exponent of
`q`, and -1074 throughout the subnormal range. -/
def ulpExponent (q : ℚ) : ℤ := max (Int.log 2 |q|) (-1022) - 52

/-- The double nearest to the exact value `q`. -/
def toDouble (q : ℚ) : JsNum :=
  let v : ℚ := (roundHalfEven (q / 2 ^ ulpExponent q) : ℚ) * 2 ^ ulpExponent q
  if 2 ^ (1024 : ℤ) ≤ v then JsNum.posInf
  else if v ≤ -(2 ^ (1024 : ℤ)) then JsNum.negInf
  else JsNum.fin v

/-- The rounding of the exact result of an operation to a double. -/
def JsNum.rnd : JsNum → JsNum
  | JsNum.fin q => toDouble q
  | x => x

/-- The call `Number.isNaN(x)`. -/
def JsNum.isNaN : JsNum → Bool
  | JsNum.nan => true
  | _ => false

namespace Binary64

/-- The call `parseFloat(v)` on a field that carries a decimal numeral: the double nearest to
the numeral, and an infinity for a numeral beyond the range of the doubles. (Such a numeral
passes `isNumeric()` and `isFloat` when it is sent as a string of digits.) -/
def parseFloat (v : BodyValue) : JsNum := JsNum.rnd (CryptoTracker.parseFloat v)

/-- The two assignments of the `existingCoin` branch of `POST /api/portfolio`, every operation
rounded. -/
def increaseCoin (amount buyPrice : JsNum) (existingCoin : Position) : Position :=
  let withAmount : Position :=
    { existingCoin with amount := JsNum.rnd (existingCoin.amount + amount) }
  { withAmount with
    buyPrice :=
      JsNum.rnd
        (JsNum.rnd (JsNum.rnd (withAmount.buyPrice * JsNum.rnd (withAmount.amount - amount))
            + JsNum.rnd (buyPrice * amount))
          / withAmount.amount) }

/-- The store's check of the portfolio on `user.save()`. The schema (`models/User`) is not
among the sources; the two fields are taken to be of the store's type `Number`, whose cast
refuses `NaN` and takes every other number, `Infinity` included. -/
def storeAccepts (pf : Portfolio) : Bool :=
  pf.all (fun item => !item.amount.isNaN && !item.buyPrice.isNaN)

/-- The call `await user.save()` inside `try`/`catch`: the updated portfolio is stored and the
answer is 200, or the save is refused, the stored portfolio stays and the answer is 500. -/
def save (stored updated : Portfolio) : Outcome Portfolio :=
  if storeAccepts updated then ⟨200, updated⟩ else ⟨500, stored⟩

/-- Handler of `POST /api/portfolio`. -/
def postPortfolio (pf : Portfolio) (req : AddRequest) : Outcome Portfolio :=
  if validAdd req then
    match findCoin pf req.coinId with
    | some _ =>
        save pf (mutateCoin req.coinId
          (increaseCoin (parseFloat req.amount) (parseFloat req.buyPrice)) pf)
    | none =>
        save pf (pf ++ [{ coinId := req.coinId, symbol := req.symbol, name := req.name,
                          amount := parseFloat req.amount,
                          buyPrice := parseFloat req.buyPrice }])
  else ⟨400, pf⟩

/-- The stored portfolio after the additions `(quantity, unitCost)` for one coin, in order. -/
def runAdditions (coinId symbol name : String) (pf : Portfolio) (purchases : List (ℚ × ℚ)) :
    Portfolio :=
  purchases.foldl (fun stored purchase =>
    (postPortfolio stored (addition coinId symbol name purchase)).state) pf

/-- The callback of `user.portfolio.map(item => ...)` of `GET /api/portfolio`; the prices of
the response are decimal numerals, read as doubles. -/
def pricePosition (data : PriceData) (item : Position) : PricedPosition :=
  let currentPrice := JsNum.rnd (orZero (data.price item.coinId))
  let priceChange24h := JsNum.rnd (orZero (data.change24h item.coinId))
  { toPosition := item,
    currentPrice := currentPrice,
    priceChange24h := priceChange24h,
    totalValue := JsNum.rnd (item.amount * currentPrice),
    profitLoss := JsNum.rnd (JsNum.rnd (currentPrice - item.buyPrice) * item.amount),
    profitLossPercentage :=
      JsNum.rnd (JsNum.rnd (JsNum.rnd (currentPrice - item.buyPrice) / item.buyPrice)
        * JsNum.fin 100) }

/-- The summary computed from the priced positions by the two `reduce` calls. -/
def summarize (priced : List PricedPosition) : Summary :=
  let totalValue :=
    priced.foldl (fun sum item => JsNum.rnd (sum + item.totalValue)) (JsNum.fin 0)
  let totalProfitLoss :=
    priced.foldl (fun sum item => JsNum.rnd (sum + item.profitLoss)) (JsNum.fin 0)
  { totalValue := totalValue,
    totalProfitLoss := totalProfitLoss,
    totalProfitLossPercentage :=
      if JsNum.lt (JsNum.fin 0) totalValue then
        JsNum.rnd (JsNum.rnd (totalProfitLoss / JsNum.rnd (totalValue - totalProfitLoss))
          * JsNum.fin 100)
      else JsNum.fin 0 }

/-- Handler of `GET /api/portfolio`, given the price response. -/
def getPortfolio (pf : Portfolio) (data : PriceData) : PortfolioResponse :=
  if coinIds pf ≠ "" then
    let portfolioWithPrices := pf.map (pricePosition data)
    { portfolio := portfolioWithPrices, summary := summarize portfolioWithPrices }
  else
    { portfolio := [],
      summary := { totalValue := JsNum.fin 0, totalProfitLoss := JsNum.fin 0,
                   totalProfitLossPercentage := JsNum.fin 0 } }

/-- The store's check of the wallet on `user.save()`: the balance is a `Number` field as
well. -/
def walletAccepts (w : Wallet) : Bool := !w.balance.isNaN

/-- Handler of `POST /api/payments/verify`; a refused save is answered with 500 and leaves the
stored wallet as it was. -/
def postVerify (hmacSha256Hex : String → String → String) (secret : String)
    (w : Wallet) (req : VerifyRequest) : Outcome Wallet :=
  if validVerify req then
    if req.signature ≠ expectedSignature hmacSha256Hex secret req then ⟨400, w⟩
    else
      let updated : Wallet :=
        { w with balance := JsNum.rnd (w.balance + parseFloat req.amount) }
      if walletAccepts updated then ⟨200, updated⟩ else ⟨500, w⟩
  else ⟨400, w⟩

/-- The wallet after the same verification request has been handled `n` times in a row. -/
def replayVerify (hmacSha256Hex : String → String → String) (secret : String)
    (req : VerifyRequest) : Nat → Wallet → Wallet
  | 0, w => w
  | n + 1, w =>
      replayVerify hmacSha256Hex secret req n (postVerify hmacSha256Hex secret w req).state

/-- Handler of `POST /api/payments/create-order`: the status and, on success, the order;
`Math.round` acts on the rounded product. -/
def createOrder (now : Nat) (userId : String) (req : OrderRequest) : Nat × Option Order :=
  if validOrder req then
    (200, some
      { id := "order_" ++ toString now,
        amount := JsNum.round (JsNum.rnd (parseFloat req.amount * JsNum.fin 100)),
        currency := req.currency.getD "INR",
        receipt := "receipt_" ++ userId ++ "_" ++ toString now,
        status := "created",
        created_at := now })
  else (400, none)

/-- No operation of one increase is rounded: the position holds `held` units at `cost`, and
`quantity` units at `unitCost` are added. -/
def exactIncrease (held cost quantity unitCost : ℚ) : Prop :=
  toDouble (held + quantity) = JsNum.fin (held + quantity) ∧
  toDouble held = JsNum.fin held ∧
  toDouble (cost * held) = JsNum.fin (cost * held) ∧
  toDouble (unitCost * quantity) = JsNum.fin (unitCost * quantity) ∧
  toDouble (cost * held + unitCost * quantity)
    = JsNum.fin (cost * held + unitCost * quantity) ∧
  toDouble ((cost * held + unitCost * quantity) / (held + quantity))
    = JsNum.fin ((cost * held + unitCost * quantity) / (held + quantity))

/-- No operation is rounded while the additions are made, one after the other, to a position
that holds `held` units at `cost`. -/
def exactAdditions : ℚ → ℚ → List (ℚ × ℚ) → Prop
  | _, _, [] => True
  | held, cost, purchase :: rest =>
      toDouble purchase.1 = JsNum.fin purchase.1 ∧
      toDouble purchase.2 = JsNum.fin purchase.2 ∧
      exactIncrease held cost purchase.1 purchase.2 ∧
      exactAdditions (held + purchase.1)
        ((cost * held + purchase.2 * purchase.1) / (held + purchase.1)) rest

/-- No operation is rounded while the additions are made to a portfolio that does not hold
the coin: the first one is stored as it is, the others increase it. -/
def exactRun : List (ℚ × ℚ) → Prop
  | [] => True
  | purchase :: rest =>
      toDouble purchase.1 = JsNum.fin purchase.1 ∧
      toDouble purchase.2 = JsNum.fin purchase.2 ∧
      exactAdditions purchase.1 purchase.2 rest

/-- No operation of the valuation of the positions is rounded, the running totals being
`totalValue` and `totalProfitLoss` so far: each position holds a number of units at a cost that
is a number, and its products, its difference, the two running sums and, at the end, the
denominator of the summary are exact. -/
def exactValuation (data : PriceData) : ℚ → ℚ → Portfolio → Prop
  | totalValue, totalProfitLoss, [] =>
      toDouble (totalValue - totalProfitLoss) = JsNum.fin (totalValue - totalProfitLoss)
  | totalValue, totalProfitLoss, item :: rest =>
      ∃ a b p : ℚ, item.amount = JsNum.fin a ∧ item.buyPrice = JsNum.fin b ∧
        JsNum.rnd (orZero (data.price item.coinId)) = JsNum.fin p ∧
        toDouble (a * p) = JsNum.fin (a * p) ∧
        toDouble (p - b) = JsNum.fin (p - b) ∧
        toDouble ((p - b) * a) = JsNum.fin ((p - b) * a) ∧
        toDouble (totalValue + a * p) = JsNum.fin (totalValue + a * p) ∧
        toDouble (totalProfitLoss + (p - b) * a)
          = JsNum.fin (totalProfitLoss + (p - b) * a) ∧
        exactValuation data (totalValue + a * p) (totalProfitLoss + (p - b) * a) rest

/-- No operation of the valuation of a single position of `a` units bought at `b` and priced
at `p` is rounded, the percentage of the position and the denominator of the summary
included. -/
def exactPercentage (a b p : ℚ) : Prop :=
  toDouble p = JsNum.fin p ∧
  toDouble (a * p) = JsNum.fin (a * p) ∧
  toDouble (p - b) = JsNum.fin (p - b) ∧
  toDouble ((p - b) * a) = JsNum.fin ((p - b) * a) ∧
  toDouble ((p - b) / b) = JsNum.fin ((p - b) / b) ∧
  toDouble ((p - b) / b * 100) = JsNum.fin ((p - b) / b * 100) ∧
  toDouble (a * p - (p - b) * a) = JsNum.fin (a * p - (p - b) * a)

end Binary64

/-! ## Arithmetic of `JsNum` -/

theorem JsNum.add_def (a b : JsNum) : a + b = JsNum.add a b := rfl

theorem JsNum.sub_def (a b : JsNum) : a - b = JsNum.add a (JsNum.neg b) := rfl

theorem JsNum.mul_def (a b : JsNum) : a * b = JsNum.mul a b := rfl

theorem JsNum.div_def (a b : JsNum) : a / b = JsNum.div a b := rfl

@[simp] theorem JsNum.fin_add_fin (a b : ℚ) : JsNum.fin a + JsNum.fin b = JsNum.fin (a + b) := rfl

@[simp] theorem JsNum.fin_sub_fin (a b : ℚ) : JsNum.fin a - JsNum.fin b = JsNum.fin (a - b) := by
  simp [JsNum.sub_def, JsNum.add, JsNum.neg, sub_eq_add_neg]

@[simp] theorem JsNum.fin_mul_fin (a b : ℚ) : JsNum.fin a * JsNum.fin b = JsNum.fin (a * b) := rfl

theorem JsNum.fin_div_fin (a b : ℚ) (hb : b ≠ 0) :
    JsNum.fin a / JsNum.fin b = JsNum.fin (a / b) := by
  simp [JsNum.div_def, JsNum.div, hb]

theorem JsNum.zero_def : (0 : JsNum) = JsNum.fin 0 := rfl

theorem JsNum.plus_zero (a : JsNum) : a + JsNum.fin 0 = a := by
  cases a <;> simp [JsNum.add_def, JsNum.add]

theorem JsNum.plus_assoc (a b c : JsNum) : a + b + c = a + (b + c) := by
  cases a <;> cases b <;> cases c <;> simp [JsNum.add_def, JsNum.add, add_assoc]

/-- The loop of `reduce((sum, item) => sum + f(item), start)` adds the sum of the `f(item)`
to `start`. -/
theorem JsNum.foldl_add_eq_sum {α : Type} (f : α → JsNum) (l : List α) :
    ∀ start : JsNum, l.foldl (fun sum item => sum + f item) start = start + (l.map f).sum := by
  induction l with
  | nil => intro start; simp [JsNum.zero_def, JsNum.plus_zero]
  | cons x rest ih =>
      intro start
      simp only [List.foldl_cons, List.map_cons, List.sum_cons, ih, JsNum.plus_assoc]

theorem JsNum.zero_plus (a : JsNum) : JsNum.fin 0 + a = a := by
  cases a <;> simp [JsNum.add_def, JsNum.add]

theorem orZero_some (p : ℚ) : orZero (some p) = JsNum.fin p := by
  by_cases h : p = 0 <;> simp [orZero, h]

/-- The summary of the response is always the summary of the priced positions it lists. -/
theorem getPortfolio_summary_eq (pf : Portfolio) (data : PriceData) :
    (getPortfolio pf data).summary = summarize (getPortfolio pf data).portfolio := by
  by_cases h : coinIds pf = ""
  · simp [getPortfolio, h, summarize, JsNum.lt]
  · simp [getPortfolio, h]

theorem summarize_totalValue (priced : List PricedPosition) :
    (summarize priced).totalValue = (priced.map (fun item => item.totalValue)).sum := by
  simp only [summarize]
  rw [JsNum.foldl_add_eq_sum (fun item : PricedPosition => item.totalValue), JsNum.zero_plus]

theorem summarize_totalProfitLoss (priced : List PricedPosition) :
    (summarize priced).totalProfitLoss = (priced.map (fun item => item.profitLoss)).sum := by
  simp only [summarize]
  rw [JsNum.foldl_add_eq_sum (fun item : PricedPosition => item.profitLoss), JsNum.zero_plus]

theorem summarize_percentage (priced : List PricedPosition) :
    (summarize priced).totalProfitLossPercentage
      = if JsNum.lt (JsNum.fin 0) (summarize priced).totalValue then
          ((summarize priced).totalProfitLoss
            / ((summarize priced).totalValue - (summarize priced).totalProfitLoss))
            * JsNum.fin 100
        else JsNum.fin 0 := rfl

/-- A request that passes `isNumeric().isFloat({ min })` carries a numeral of at least `min`. -/
theorem isFloatMin_eq_true {min : ℚ} {v : BodyValue} (h : isFloatMin min v = true) :
    ∃ q : ℚ, v = BodyValue.num q ∧ min ≤ q := by
  cases v with
  | missing => simp [isFloatMin] at h
  | invalid => simp [isFloatMin] at h
  | num q => exact ⟨q, rfl, by simpa [isFloatMin] using h⟩

theorem orZero_of_no_price (price : Option ℚ) (h : price = none ∨ price = some 0) :
    orZero price = JsNum.fin 0 := by
  rcases h with h | h <;> simp [h, orZero]

/-- With a cost of 0 the percentage of a position is never a number: it is `NaN` at the
price 0 and an infinity with the sign of the price otherwise. -/
theorem pricePosition_zero_cost (data : PriceData) (item : Position) (p : ℚ)
    (hprice : data.price item.coinId = some p) (hcost : item.buyPrice = JsNum.fin 0) :
    (pricePosition data item).profitLossPercentage
      = if p = 0 then JsNum.nan else if 0 < p then JsNum.posInf else JsNum.negInf := by
  by_cases h0 : p = 0
  · simp [pricePosition, hprice, orZero_some, hcost, h0, JsNum.div_def, JsNum.div,
      JsNum.mul_def, JsNum.mul]
  · by_cases hp : 0 < p <;>
      simp [pricePosition, hprice, orZero_some, hcost, h0, hp, JsNum.div_def, JsNum.div,
        JsNum.mul_def, JsNum.mul, JsNum.infTimes]

/-- A `POST /api/alerts` with a negative target price fails validation. -/
theorem postAlert_rejects_negative (newId : String) (now : Nat) (alerts : List Alert)
    (req : AlertRequest) (q : ℚ) (hq : req.targetPrice = BodyValue.num q) (hneg : q < 0) :
    postAlert newId now alerts req = ⟨400, alerts⟩ := by
  have h : ¬ (0 ≤ q) := not_le.mpr hneg
  simp [postAlert, validAlert, isFloatMin, hq, h]

/-! ## Lists of positions -/

theorem findCoin_nil (coinId : String) : findCoin [] coinId = none := rfl

theorem findCoin_cons (item : Position) (rest : Portfolio) (coinId : String) :
    findCoin (item :: rest) coinId
      = if item.coinId = coinId then some item else findCoin rest coinId := by
  by_cases h : item.coinId = coinId <;> simp [findCoin, List.find?, h]

/-- What `find` returns carries the `coinId` that was asked for. -/
theorem findCoin_coinId {pf : Portfolio} {coinId : String} {e : Position}
    (h : findCoin pf coinId = some e) : e.coinId = coinId := by
  induction pf with
  | nil => simp [findCoin_nil] at h
  | cons item rest ih =>
      rw [findCoin_cons] at h
      by_cases hc : item.coinId = coinId
      · simp [hc] at h
        rw [← h]; exact hc
      · simp [hc] at h
        exact ih h

/-- After the in-place update, `find` returns the updated element, provided the update keeps
the `coinId`. -/
theorem findCoin_mutateCoin {pf : Portfolio} {coinId : String} {e : Position}
    (f : Position → Position) (hf : ∀ x, (f x).coinId = x.coinId)
    (h : findCoin pf coinId = some e) :
    findCoin (mutateCoin coinId f pf) coinId = some (f e) := by
  induction pf with
  | nil => simp [findCoin_nil] at h
  | cons item rest ih =>
      rw [findCoin_cons] at h
      by_cases hc : item.coinId = coinId
      · simp [hc] at h
        subst h
        simp [mutateCoin, hc, findCoin_cons, hf]
      · simp [hc] at h
        simp [mutateCoin, hc, findCoin_cons, ih h]

theorem validAdd_of_fields (req : AddRequest) (quantity unitCost : ℚ)
    (hid : req.coinId ≠ "") (hsym : req.symbol ≠ "") (hname : req.name ≠ "")
    (hq : req.amount = BodyValue.num quantity) (hc : req.buyPrice = BodyValue.num unitCost)
    (hpos : 0 ≤ quantity) (hcost : 0 ≤ unitCost) : validAdd req = true := by
  simp [validAdd, notEmpty, isFloatMin, hid, hsym, hname, hq, hc, hpos, hcost]

theorem findCoin_append_last {pf : Portfolio} {coinId : String} (e : Position)
    (habsent : findCoin pf coinId = none) (he : e.coinId = coinId) :
    findCoin (pf ++ [e]) coinId = some e := by
  induction pf with
  | nil => simp [findCoin_cons, he]
  | cons item rest ih =>
      rw [findCoin_cons] at habsent
      by_cases hc : item.coinId = coinId
      · simp [hc] at habsent
      · simp [hc] at habsent
        simp [findCoin_cons, hc, ih habsent]

theorem mutateCoin_append_last {pf : Portfolio} {coinId : String} (f : Position → Position)
    (e : Position) (habsent : findCoin pf coinId = none) (he : e.coinId = coinId) :
    mutateCoin coinId f (pf ++ [e]) = pf ++ [f e] := by
  induction pf with
  | nil => simp [mutateCoin, he]
  | cons item rest ih =>
      rw [findCoin_cons] at habsent
      by_cases hc : item.coinId = coinId
      · simp [hc] at habsent
      · simp [hc] at habsent
        simp [mutateCoin, hc, ih habsent]

/-- An accepted `POST` for a coin that is not held pushes the new position. -/
theorem postPortfolio_of_absent (pf : Portfolio) (req : AddRequest)
    (hv : validAdd req = true) (habsent : findCoin pf req.coinId = none) :
    postPortfolio pf req
      = ⟨200, pf ++ [{ coinId := req.coinId, symbol := req.symbol, name := req.name,
                       amount := parseFloat req.amount,
                       buyPrice := parseFloat req.buyPrice }]⟩ := by
  simp [postPortfolio, hv, habsent]

/-- An accepted `POST` for a coin that is held updates the position `find` returns. -/
theorem postPortfolio_of_held (pf : Portfolio) (req : AddRequest) (e : Position)
    (hv : validAdd req = true) (hfind : findCoin pf req.coinId = some e) :
    postPortfolio pf req
      = ⟨200, mutateCoin req.coinId
          (increaseCoin (parseFloat req.amount) (parseFloat req.buyPrice)) pf⟩ := by
  simp [postPortfolio, hv, hfind]

theorem validAdd_addition (coinId symbol name : String) (purchase : ℚ × ℚ)
    (hid : coinId ≠ "") (hsym : symbol ≠ "") (hname : name ≠ "")
    (hq : 0 ≤ purchase.1) (hc : 0 ≤ purchase.2) :
    validAdd (addition coinId symbol name purchase) = true :=
  validAdd_of_fields _ purchase.1 purchase.2 hid hsym hname rfl rfl hq hc

theorem findCoin_eq_none_iff (pf : Portfolio) (coinId : String) :
    findCoin pf coinId = none ↔ ∀ item ∈ pf, item.coinId ≠ coinId := by
  induction pf with
  | nil => simp [findCoin_nil]
  | cons item rest ih =>
      rw [findCoin_cons]
      by_cases hc : item.coinId = coinId
      · simp [hc]
      · simp [hc, ih]

theorem increaseCoin_coinId (amount buyPrice : JsNum) (e : Position) :
    (increaseCoin amount buyPrice e).coinId = e.coinId := rfl

theorem overwriteCoin_coinId (amount buyPrice : BodyValue) (e : Position) :
    (overwriteCoin amount buyPrice e).coinId = e.coinId := by
  unfold overwriteCoin
  split_ifs <;> rfl

/-- The in-place update keeps the sequence of `coinId`s. -/
theorem map_coinId_mutateCoin (coinId : String) (f : Position → Position)
    (hf : ∀ x, (f x).coinId = x.coinId) (pf : Portfolio) :
    (mutateCoin coinId f pf).map (fun item => item.coinId)
      = pf.map (fun item => item.coinId) := by
  induction pf with
  | nil => rfl
  | cons item rest ih =>
      by_cases hc : item.coinId = coinId
      · simp [mutateCoin, hc, hf]
      · simp [mutateCoin, hc, ih]

/-- One request keeps the `coinId`s of the portfolio distinct. -/
theorem stepPortfolio_nodup (pf : Portfolio) (req : PortfolioRequest)
    (h : (pf.map (fun item => item.coinId)).Nodup) :
    ((stepPortfolio pf req).state.map (fun item => item.coinId)).Nodup := by
  cases req with
  | post r =>
      simp only [stepPortfolio, postPortfolio]
      by_cases hv : validAdd r = true
      · cases hfind : findCoin pf r.coinId with
        | none =>
            have hnot : r.coinId ∉ pf.map (fun item => item.coinId) := by
              intro hmem
              obtain ⟨item, hitem, hid⟩ := List.mem_map.mp hmem
              exact (findCoin_eq_none_iff pf r.coinId).mp hfind item hitem hid
            simp only [hv, if_true, List.map_append, List.map_cons, List.map_nil]
            rw [List.nodup_append]
            refine ⟨h, List.nodup_singleton _, ?_⟩
            intro a ha hb
            rw [List.mem_singleton.mp hb] at ha
            exact hnot ha
        | some e =>
            simp only [hv, if_true]
            rw [map_coinId_mutateCoin _ _ (increaseCoin_coinId _ _)]
            exact h
      · simp only [hv]
        exact h
  | put r =>
      simp only [stepPortfolio, putPortfolio]
      by_cases hv : validEdit r = true
      · cases hfind : findCoin pf r.coinId with
        | none => simp only [hv, if_true]; exact h
        | some e =>
            simp only [hv, if_true]
            rw [map_coinId_mutateCoin _ _ (overwriteCoin_coinId _ _)]
            exact h
      · simp only [hv]
        exact h
  | delete coinId =>
      simp only [stepPortfolio, deletePortfolio]
      exact h.sublist ((List.filter_sublist pf).map _)

theorem runPortfolio_nodup (reqs : List PortfolioRequest) (pf : Portfolio)
    (h : (pf.map (fun item => item.coinId)).Nodup) :
    ((runPortfolio pf reqs).map (fun item => item.coinId)).Nodup := by
  induction reqs generalizing pf with
  | nil => simpa [runPortfolio] using h
  | cons req rest ih =>
      have hrec := ih _ (stepPortfolio_nodup pf req h)
      simpa [runPortfolio] using hrec

/-- In a portfolio with distinct `coinId`s at most one position carries a given `coinId`. -/
theorem filter_coinId_length_le_one (pf : Portfolio) (coinId : String)
    (h : (pf.map (fun item => item.coinId)).Nodup) :
    (pf.filter (fun item => decide (item.coinId = coinId))).length ≤ 1 := by
  induction pf with
  | nil => simp
  | cons x rest ih =>
      rw [List.map_cons, List.nodup_cons] at h
      by_cases hc : x.coinId = coinId
      · have hnone : rest.filter (fun item => decide (item.coinId = coinId)) = [] := by
          rw [List.filter_eq_nil_iff]
          intro item hitem
          simp only [decide_eq_true_eq]
          intro hid
          exact h.1 (List.mem_map.mpr ⟨item, hitem, by rw [hid, hc]⟩)
        simp [List.filter_cons, hc, hnone]
      · simp only [List.filter_cons, hc, decide_False]
        exact ih h.2

/-- A `POST` with a negative amount or a negative price fails validation. -/
theorem postPortfolio_rejects_negative (pf : Portfolio) (req : AddRequest)
    (quantity unitCost : ℚ)
    (hq : req.amount = BodyValue.num quantity) (hc : req.buyPrice = BodyValue.num unitCost)
    (hneg : quantity < 0 ∨ unitCost < 0) : postPortfolio pf req = ⟨400, pf⟩ := by
  have hv : validAdd req = false := by
    rcases hneg with h | h
    · have h' : ¬ (0 ≤ quantity) := not_le.mpr h
      simp [validAdd, isFloatMin, hq, hc, h']
    · have h' : ¬ (0 ≤ unitCost) := not_le.mpr h
      simp [validAdd, isFloatMin, hq, hc, h']
  simp [postPortfolio, hv]

/-- The position `find` returns is the first one with the `coinId`. -/
theorem findCoin_split (coinId : String) (before : Portfolio) (e : Position)
    (after : Portfolio) (hbefore : ∀ item ∈ before, item.coinId ≠ coinId)
    (he : e.coinId = coinId) : findCoin (before ++ e :: after) coinId = some e := by
  induction before with
  | nil => simp [findCoin_cons, he]
  | cons x rest ih =>
      have hx : x.coinId ≠ coinId := hbefore x (List.mem_cons_self _ _)
      have hrest : ∀ item ∈ rest, item.coinId ≠ coinId :=
        fun item hm => hbefore item (List.mem_cons_of_mem _ hm)
      simp [findCoin_cons, hx, ih hrest]

/-- The in-place update touches the first position with the `coinId` and nothing else. -/
theorem mutateCoin_split (coinId : String) (f : Position → Position) (before : Portfolio)
    (e : Position) (after : Portfolio) (hbefore : ∀ item ∈ before, item.coinId ≠ coinId)
    (he : e.coinId = coinId) :
    mutateCoin coinId f (before ++ e :: after) = before ++ f e :: after := by
  induction before with
  | nil => simp [mutateCoin, he]
  | cons x rest ih =>
      have hx : x.coinId ≠ coinId := hbefore x (List.mem_cons_self _ _)
      have hrest : ∀ item ∈ rest, item.coinId ≠ coinId :=
        fun item hm => hbefore item (List.mem_cons_of_mem _ hm)
      simp [mutateCoin, hx, ih hrest]

/-- A portfolio that holds the coin splits at the first position with the `coinId`. -/
theorem exists_split_of_mem_coinId (coinId : String) (pf : Portfolio)
    (h : ∃ item ∈ pf, item.coinId = coinId) :
    ∃ before e after, pf = before ++ e :: after ∧
      (∀ item ∈ before, item.coinId ≠ coinId) ∧ e.coinId = coinId := by
  induction pf with
  | nil => obtain ⟨item, hmem, _⟩ := h; simp at hmem
  | cons x rest ih =>
      by_cases hx : x.coinId = coinId
      · exact ⟨[], x, rest, rfl, by simp, hx⟩
      · obtain ⟨item, hmem, hitem⟩ := h
        have hin : item ∈ rest := by
          rcases List.mem_cons.mp hmem with rfl | hin
          · exact absurd hitem hx
          · exact hin
        obtain ⟨before, e, after, hsplit, hbefore, he⟩ := ih ⟨item, hin, hitem⟩
        refine ⟨x :: before, e, after, by rw [hsplit]; rfl, ?_, he⟩
        intro y hy
        rcases List.mem_cons.mp hy with rfl | hy
        · exact hx
        · exact hbefore y hy

/-! ## The coin ids of a portfolio -/

theorem coinIds_singleton (item : Position) : coinIds [item] = item.coinId := by
  simp [coinIds, String.intercalate, String.intercalate.go]

/-! ## Lists of alerts -/

theorem JsNum.strictEq_fin_iff (x : JsNum) (q : ℚ) :
    JsNum.strictEq x (JsNum.fin q) = true ↔ x = JsNum.fin q := by
  cases x <;> simp [JsNum.strictEq]

/-- The duplicate search matches the active alerts with the same coin, target and condition. -/
theorem sameActiveAlert_iff (coinId : String) (q : ℚ) (condition : String) (alert : Alert) :
    sameActiveAlert coinId (JsNum.fin q) condition alert = true
      ↔ alert.coinId = coinId ∧ alert.targetPrice = JsNum.fin q ∧
          alert.condition = condition ∧ alert.isActive = true := by
  simp [sameActiveAlert, JsNum.strictEq_fin_iff, and_assoc]

theorem findAlert_cons (alert : Alert) (rest : List Alert) (alertId : String) :
    findAlert (alert :: rest) alertId
      = if alert.id = alertId then some alert else findAlert rest alertId := by
  by_cases h : alert.id = alertId <;> simp [findAlert, List.find?, h]

theorem findAlert_eq_none_iff (alerts : List Alert) (alertId : String) :
    findAlert alerts alertId = none ↔ ∀ alert ∈ alerts, alert.id ≠ alertId := by
  induction alerts with
  | nil => simp [findAlert]
  | cons x rest ih =>
      rw [findAlert_cons]
      by_cases hx : x.id = alertId
      · simp [hx]
      · simp [hx, ih]

/-- The alert `id(alertId)` returns is the first one with the id. -/
theorem findAlert_split (alertId : String) (before : List Alert) (e : Alert)
    (after : List Alert) (hbefore : ∀ alert ∈ before, alert.id ≠ alertId)
    (he : e.id = alertId) : findAlert (before ++ e :: after) alertId = some e := by
  induction before with
  | nil => simp [findAlert_cons, he]
  | cons x rest ih =>
      have hx : x.id ≠ alertId := hbefore x (List.mem_cons_self _ _)
      have hrest : ∀ alert ∈ rest, alert.id ≠ alertId :=
        fun alert hm => hbefore alert (List.mem_cons_of_mem _ hm)
      simp [findAlert_cons, hx, ih hrest]

/-- The in-place update touches the first alert with the id and nothing else. -/
theorem mutateAlert_split (alertId : String) (f : Alert → Alert) (before : List Alert)
    (e : Alert) (after : List Alert) (hbefore : ∀ alert ∈ before, alert.id ≠ alertId)
    (he : e.id = alertId) :
    mutateAlert alertId f (before ++ e :: after) = before ++ f e :: after := by
  induction before with
  | nil => simp [mutateAlert, he]
  | cons x rest ih =>
      have hx : x.id ≠ alertId := hbefore x (List.mem_cons_self _ _)
      have hrest : ∀ alert ∈ rest, alert.id ≠ alertId :=
        fun alert hm => hbefore alert (List.mem_cons_of_mem _ hm)
      simp [mutateAlert, hx, ih hrest]

/-- An alert list that holds the id splits at the first alert with the id. -/
theorem exists_split_of_mem_alertId (alertId : String) (alerts : List Alert)
    (h : ∃ alert ∈ alerts, alert.id = alertId) :
    ∃ before e after, alerts = before ++ e :: after ∧
      (∀ alert ∈ before, alert.id ≠ alertId) ∧ e.id = alertId := by
  induction alerts with
  | nil => obtain ⟨alert, hmem, _⟩ := h; simp at hmem
  | cons x rest ih =>
      by_cases hx : x.id = alertId
      · exact ⟨[], x, rest, rfl, by simp, hx⟩
      · obtain ⟨alert, hmem, halert⟩ := h
        have hin : alert ∈ rest := by
          rcases List.mem_cons.mp hmem with rfl | hin
          · exact absurd halert hx
          · exact hin
        obtain ⟨before, e, after, hsplit, hbefore, he⟩ := ih ⟨alert, hin, halert⟩
        refine ⟨x :: before, e, after, by rw [hsplit]; rfl, ?_, he⟩
        intro y hy
        rcases List.mem_cons.mp hy with rfl | hy
        · exact hx
        · exact hbefore y hy

/-- The guarded assignments keep the fields they do not name. -/
theorem overwriteAlert_frame (targetPrice : BodyValue) (condition : Option String)
    (isActive : BodyBool) (alert : Alert) :
    (overwriteAlert targetPrice condition isActive alert).id = alert.id ∧
    (overwriteAlert targetPrice condition isActive alert).coinId = alert.coinId ∧
    (overwriteAlert targetPrice condition isActive alert).symbol = alert.symbol ∧
    (overwriteAlert targetPrice condition isActive alert).createdAt = alert.createdAt := by
  by_cases hp : targetPrice = BodyValue.missing <;> cases condition <;> cases isActive <;>
    simp [overwriteAlert, hp]

theorem overwriteAlert_targetPrice (targetPrice : BodyValue) (condition : Option String)
    (isActive : BodyBool) (alert : Alert) :
    (overwriteAlert targetPrice condition isActive alert).targetPrice
      = if targetPrice = BodyValue.missing then alert.targetPrice
        else parseFloat targetPrice := by
  by_cases hp : targetPrice = BodyValue.missing <;> cases condition <;> cases isActive <;>
    simp [overwriteAlert, hp]

theorem overwriteAlert_condition (targetPrice : BodyValue) (condition : Option String)
    (isActive : BodyBool) (alert : Alert) :
    (overwriteAlert targetPrice condition isActive alert).condition
      = condition.getD alert.condition := by
  by_cases hp : targetPrice = BodyValue.missing <;> cases condition <;> cases isActive <;>
    simp [overwriteAlert, hp]

theorem overwriteAlert_isActive (targetPrice : BodyValue) (condition : Option String)
    (b : Bool) (alert : Alert) :
    (overwriteAlert targetPrice condition (BodyBool.bool b) alert).isActive = b ∧
    (overwriteAlert targetPrice condition BodyBool.missing alert).isActive
      = alert.isActive := by
  by_cases hp : targetPrice = BodyValue.missing <;> cases condition <;>
    simp [overwriteAlert, hp]

/-! ## Wallet steps -/

/-- A withdrawal keeps a finite balance that is at least zero that way. -/
theorem postWithdraw_isNonNeg (w : Wallet) (req : WithdrawRequest)
    (h : JsNum.isNonNeg w.balance = true) :
    JsNum.isNonNeg (postWithdraw w req).state.balance = true := by
  unfold postWithdraw
  by_cases hv : validWithdraw req = true
  · obtain ⟨q, hq, _⟩ := isFloatMin_eq_true hv
    cases hb : w.balance with
    | fin b =>
        rw [hb] at h
        have hb0 : 0 ≤ b := by simpa [JsNum.isNonNeg] using h
        by_cases hlt : b < q
        · simp [hv, hq, parseFloat, hb, JsNum.lt, hlt, JsNum.isNonNeg, hb0]
        · have hle : q ≤ b := not_lt.mp hlt
          simp [hv, hq, parseFloat, hb, JsNum.lt, hlt, JsNum.isNonNeg, hle]
    | posInf => rw [hb] at h; simp [JsNum.isNonNeg] at h
    | negInf => rw [hb] at h; simp [JsNum.isNonNeg] at h
    | nan => rw [hb] at h; simp [JsNum.isNonNeg] at h
  · simp [hv, h]

/-- A top-up keeps a finite balance that is at least zero that way. -/
theorem postVerify_isNonNeg (hmacSha256Hex : String → String → String) (secret : String)
    (w : Wallet) (req : VerifyRequest) (h : JsNum.isNonNeg w.balance = true) :
    JsNum.isNonNeg (postVerify hmacSha256Hex secret w req).state.balance = true := by
  unfold postVerify
  by_cases hv : validVerify req = true
  · have hamount : isFloatMin 1 req.amount = true := by
      simp only [validVerify, Bool.and_eq_true] at hv
      exact hv.2
    obtain ⟨q, hq, hq1⟩ := isFloatMin_eq_true hamount
    by_cases hsig : req.signature = expectedSignature hmacSha256Hex secret req
    · cases hb : w.balance with
      | fin b =>
          rw [hb] at h
          have hb0 : 0 ≤ b := by simpa [JsNum.isNonNeg] using h
          have hsum : 0 ≤ b + q := by linarith
          simp [hv, ← hsig, hq, parseFloat, hb, JsNum.isNonNeg, hsum]
      | posInf => rw [hb] at h; simp [JsNum.isNonNeg] at h
      | negInf => rw [hb] at h; simp [JsNum.isNonNeg] at h
      | nan => rw [hb] at h; simp [JsNum.isNonNeg] at h
    · simp [hv, hsig, h]
  · simp [hv, h]

/-- The decision of `POST /api/payments/verify` is a matter of the validators and of the
signature, whatever the wallet holds. -/
theorem postVerify_status (hmacSha256Hex : String → String → String) (secret : String)
    (w : Wallet) (req : VerifyRequest) :
    (postVerify hmacSha256Hex secret w req).status
      = if validVerify req = true ∧
          req.signature = hmacSha256Hex secret (req.orderId ++ "|" ++ req.paymentId)
        then 200 else 400 := by
  by_cases hv : validVerify req = true
  · by_cases hsig : req.signature = hmacSha256Hex secret (req.orderId ++ "|" ++ req.paymentId)
    · simp [postVerify, hv, expectedSignature, ← hsig]
    · simp [postVerify, hv, expectedSignature, hsig]
  · simp [postVerify, hv]

/-- An accepted verification credits the amount of the request. -/
theorem postVerify_accepted (hmacSha256Hex : String → String → String) (secret : String)
    (w : Wallet) (req : VerifyRequest)
    (h : (postVerify hmacSha256Hex secret w req).status = 200) :
    postVerify hmacSha256Hex secret w req
      = ⟨200, ⟨w.balance + parseFloat req.amount, w.currency⟩⟩ := by
  rw [postVerify_status] at h
  by_cases hc : validVerify req = true ∧
      req.signature = hmacSha256Hex secret (req.orderId ++ "|" ++ req.paymentId)
  · simp [postVerify, hc.1, expectedSignature, ← hc.2]
  · simp [hc] at h

/-- Two alerts that the duplicate search of `POST /api/alerts` tells apart. -/
theorem activeUnique_append (alerts : List Alert) (added : Alert)
    (h : activeUnique alerts)
    (hnew : ∀ alert ∈ alerts,
      ¬ (alert.isActive = true ∧ added.isActive = true ∧ sameTarget alert added)) :
    activeUnique (alerts ++ [added]) := by
  unfold activeUnique at h ⊢
  rw [List.pairwise_append]
  refine ⟨h, List.pairwise_singleton _ _, ?_⟩
  intro a ha b hb
  rw [List.mem_singleton.mp hb]
  exact hnew a ha

/-! ## Rounding to doubles -/

theorem roundHalfEven_of_near (x : ℚ) (n : ℤ) (h1 : (n : ℚ) - 1 / 2 < x)
    (h2 : x < n + 1 / 2) : roundHalfEven x = n := by
  unfold roundHalfEven
  by_cases hx : (n : ℚ) ≤ x
  · have hfloor : ⌊x⌋ = n := by
      rw [Int.floor_eq_iff]
      exact ⟨hx, by linarith⟩
    rw [hfloor, if_pos (by linarith)]
  · have hfloor : ⌊x⌋ = n - 1 := by
      rw [Int.floor_eq_iff]
      push_cast
      constructor <;> linarith
    have hx' : x < n := not_le.mp hx
    rw [hfloor]
    push_cast
    rw [if_neg (by linarith), if_pos (by linarith)]
    ring

/-- A tie between two integers goes to the even one. -/
theorem roundHalfEven_of_tie (x : ℚ) (n : ℤ) (h : x = n + 1 / 2) :
    roundHalfEven x = if n % 2 = 0 then n else n + 1 := by
  have hfloor : ⌊x⌋ = n := by
    rw [Int.floor_eq_iff]
    constructor <;> linarith
  unfold roundHalfEven
  rw [hfloor, if_neg (by linarith), if_neg (by linarith)]

theorem ulpExponent_of_pos (q : ℚ) (k : ℤ) (hlo : (2 : ℚ) ^ k ≤ q) (hhi : q < 2 ^ (k + 1))
    (hk : -1022 ≤ k) : ulpExponent q = k - 52 := by
  have hpos : 0 < q := lt_of_lt_of_le (by positivity) hlo
  have hlog : Int.log 2 |q| = k := by
    rw [abs_of_pos hpos]
    apply le_antisymm
    · have hlt := (Int.lt_zpow_iff_log_lt (b := 2) (by norm_num) hpos (x := k + 1)).mp
        (by exact_mod_cast hhi)
      omega
    · exact (Int.zpow_le_iff_le_log (b := 2) (by norm_num) hpos).mp (by exact_mod_cast hlo)
  unfold ulpExponent
  rw [hlog, max_eq_left hk]

/-- The double nearest to a positive value `q` of the binade `2 ^ k ≤ q < 2 ^ (k + 1)`, given
the integer `n` that `q / 2 ^ (k - 52)` rounds to. -/
theorem toDouble_of_pos (q v : ℚ) (k n : ℤ) (hlo : (2 : ℚ) ^ k ≤ q) (hhi : q < 2 ^ (k + 1))
    (hk : -1022 ≤ k) (hn : roundHalfEven (q / 2 ^ (k - 52)) = n)
    (hv : v = n * 2 ^ (k - 52)) (hnonneg : 0 ≤ v) (hfin : v < 2 ^ (1024 : ℤ)) :
    toDouble q = JsNum.fin v := by
  unfold toDouble
  rw [ulpExponent_of_pos q k hlo hhi hk, hn, ← hv]
  have hneg : ¬ v ≤ -(2 ^ (1024 : ℤ)) := by
    have hpow : (0 : ℚ) < 2 ^ (1024 : ℤ) := by positivity
    intro h
    linarith
  simp only [not_le.mpr hfin, hneg, if_false]

/-- A positive value whose nearest double would be `2 ^ 1024` or more overflows. -/
theorem toDouble_of_huge (q : ℚ) (k n : ℤ) (hlo : (2 : ℚ) ^ k ≤ q) (hhi : q < 2 ^ (k + 1))
    (hk : -1022 ≤ k) (hn : roundHalfEven (q / 2 ^ (k - 52)) = n)
    (hv : (2 : ℚ) ^ (1024 : ℤ) ≤ n * 2 ^ (k - 52)) : toDouble q = JsNum.posInf := by
  unfold toDouble
  rw [ulpExponent_of_pos q k hlo hhi hk, hn]
  simp only [hv, if_true]

theorem toDouble_zero : toDouble 0 = JsNum.fin 0 := by
  have hround : roundHalfEven 0 = 0 := roundHalfEven_of_near 0 0 (by norm_num) (by norm_num)
  unfold toDouble
  simp only [zero_div, hround, Int.cast_zero, zero_mul]
  have h1 : ¬ ((2 : ℚ) ^ (1024 : ℤ) ≤ 0) := not_le.mpr (by positivity)
  have h2 : ¬ ((0 : ℚ) ≤ -(2 ^ (1024 : ℤ))) := by
    have hpow : (0 : ℚ) < 2 ^ (1024 : ℤ) := by positivity
    intro h
    linarith
  simp only [h1, h2, if_false]

theorem JsNum.rnd_fin (q : ℚ) : JsNum.rnd (JsNum.fin q) = toDouble q := rfl

/-- One increase of a held position, operation by operation: the new amount `a2`, the old
amount `d` recovered by subtraction, the two products `p1` and `p2`, their sum `s` and the
quotient `b2`. -/
theorem Binary64.increaseCoin_steps (e : Position) (a b q c a2 d p1 p2 s b2 : ℚ)
    (ha : e.amount = JsNum.fin a) (hb : e.buyPrice = JsNum.fin b)
    (h1 : toDouble (a + q) = JsNum.fin a2) (h2 : toDouble (a2 - q) = JsNum.fin d)
    (h3 : toDouble (b * d) = JsNum.fin p1) (h4 : toDouble (c * q) = JsNum.fin p2)
    (h5 : toDouble (p1 + p2) = JsNum.fin s) (hne : a2 ≠ 0)
    (h6 : toDouble (s / a2) = JsNum.fin b2) :
    Binary64.increaseCoin (JsNum.fin q) (JsNum.fin c) e
      = { e with amount := JsNum.fin a2, buyPrice := JsNum.fin b2 } := by
  simp only [Binary64.increaseCoin, ha, hb, JsNum.fin_add_fin, JsNum.rnd_fin, h1,
    JsNum.fin_sub_fin, h2, JsNum.fin_mul_fin, h3, h4, h5, JsNum.fin_div_fin _ _ hne, h6]

/-- The rounded integer is the floor or the integer after it. -/
theorem roundHalfEven_bounds (x : ℚ) :
    ⌊x⌋ ≤ roundHalfEven x ∧ roundHalfEven x ≤ ⌊x⌋ + 1 := by
  unfold roundHalfEven
  split_ifs <;> constructor <;> omega

/-- The rounded integer is at most one half away. -/
theorem roundHalfEven_abs (x : ℚ) : |(roundHalfEven x : ℚ) - x| ≤ 1 / 2 := by
  have hlow := Int.floor_le x
  have hhigh := Int.lt_floor_add_one x
  unfold roundHalfEven
  rw [abs_le]
  split_ifs with h1 h2 h3
  · constructor <;> linarith
  · push_cast
    constructor <;> linarith
  · have h4 : x - ⌊x⌋ = 1 / 2 := le_antisymm (not_lt.mp h2) (not_lt.mp h1)
    constructor <;> linarith
  · have h4 : x - ⌊x⌋ = 1 / 2 := le_antisymm (not_lt.mp h2) (not_lt.mp h1)
    push_cast
    constructor <;> linarith

/-- An integer that is at most `x` is at most the rounded integer. -/
theorem roundHalfEven_ge (x : ℚ) (z : ℤ) (h : (z : ℚ) ≤ x) : z ≤ roundHalfEven x :=
  le_trans (Int.le_floor.mpr h) (roundHalfEven_bounds x).1

theorem toDouble_isNaN (q : ℚ) : (toDouble q).isNaN = false := by
  unfold toDouble
  dsimp only
  split_ifs <;> rfl

/-- The binade of a value that is at least 1. -/
theorem ulpExponent_of_one_le (q : ℚ) (h : 1 ≤ q) :
    0 ≤ Int.log 2 |q| ∧ (2 : ℚ) ^ Int.log 2 |q| ≤ q ∧ q < 2 ^ (Int.log 2 |q| + 1) ∧
      ulpExponent q = Int.log 2 |q| - 52 := by
  have hpos : 0 < q := by linarith
  rw [abs_of_pos hpos]
  have hlog : 0 ≤ Int.log 2 q :=
    (Int.zpow_le_iff_le_log (b := 2) (by norm_num) hpos).mp (by simpa using h)
  have hlo : (2 : ℚ) ^ Int.log 2 q ≤ q := by
    exact_mod_cast Int.zpow_log_le_self (b := 2) (by norm_num) hpos
  have hhi : q < 2 ^ (Int.log 2 q + 1) := by
    exact_mod_cast Int.lt_zpow_succ_log_self (b := 2) (by norm_num) q
  refine ⟨hlog, hlo, hhi, ?_⟩
  rw [ulpExponent_of_pos q _ hlo hhi (by omega)]

/-- A value between 1 and `2 ^ 1000` rounds to a double at a relative distance of at most
`2 ^ -53`. -/
theorem toDouble_near (q : ℚ) (h1 : 1 ≤ q) (h2 : q ≤ 2 ^ (1000 : ℤ)) :
    ∃ v : ℚ, toDouble q = JsNum.fin v ∧ |v - q| ≤ q / 2 ^ (53 : ℤ) := by
  obtain ⟨hk, hlo, hhi, hulp⟩ := ulpExponent_of_one_le q h1
  have hpow : (0 : ℚ) < 2 ^ (Int.log 2 |q| - 52) := by positivity
  have hround := roundHalfEven_abs (q / 2 ^ (Int.log 2 |q| - 52))
  have hsplit : (2 : ℚ) ^ Int.log 2 |q|
      = 2 ^ (Int.log 2 |q| - 52) * 2 ^ (52 : ℤ) := by
    rw [← zpow_add₀ (by norm_num : (2 : ℚ) ≠ 0)]
    congr 1
    ring
  have hdist : |(roundHalfEven (q / 2 ^ (Int.log 2 |q| - 52)) : ℚ)
      * 2 ^ (Int.log 2 |q| - 52) - q| ≤ q / 2 ^ (53 : ℤ) := by
    have heq : (roundHalfEven (q / 2 ^ (Int.log 2 |q| - 52)) : ℚ)
        * 2 ^ (Int.log 2 |q| - 52) - q
        = ((roundHalfEven (q / 2 ^ (Int.log 2 |q| - 52)) : ℚ)
            - q / 2 ^ (Int.log 2 |q| - 52)) * 2 ^ (Int.log 2 |q| - 52) := by
      field_simp
    rw [heq, abs_mul, abs_of_pos hpow]
    have hstep : |(roundHalfEven (q / 2 ^ (Int.log 2 |q| - 52)) : ℚ)
        - q / 2 ^ (Int.log 2 |q| - 52)| * 2 ^ (Int.log 2 |q| - 52)
        ≤ 1 / 2 * 2 ^ (Int.log 2 |q| - 52) :=
      mul_le_mul_of_nonneg_right hround hpow.le
    have hle : (1 : ℚ) / 2 * 2 ^ (Int.log 2 |q| - 52) ≤ q / 2 ^ (53 : ℤ) := by
      rw [le_div_iff₀ (by positivity)]
      have h53 : (2 : ℚ) ^ (53 : ℤ) = 2 * 2 ^ (52 : ℤ) := by norm_num
      rw [h53]
      calc (1 : ℚ) / 2 * 2 ^ (Int.log 2 |q| - 52) * (2 * 2 ^ (52 : ℤ))
          = 2 ^ (Int.log 2 |q| - 52) * 2 ^ (52 : ℤ) := by ring
        _ = 2 ^ Int.log 2 |q| := hsplit.symm
        _ ≤ q := hlo
    exact le_trans hstep hle
  refine ⟨(roundHalfEven (q / 2 ^ (Int.log 2 |q| - 52)) : ℚ) * 2 ^ (Int.log 2 |q| - 52),
    ?_, hdist⟩
  rw [abs_le] at hdist
  have hsmall : q / 2 ^ (53 : ℤ) ≤ q := by
    rw [div_le_iff₀ (by positivity)]
    have : (1 : ℚ) ≤ 2 ^ (53 : ℤ) := by norm_num
    nlinarith
  have hbig : (2 : ℚ) ^ (1000 : ℤ) + 2 ^ (1000 : ℤ) < 2 ^ (1024 : ℤ) := by norm_num
  unfold toDouble
  rw [hulp]
  have hA : ¬ ((2 : ℚ) ^ (1024 : ℤ)
      ≤ (roundHalfEven (q / 2 ^ (Int.log 2 |q| - 52)) : ℚ) * 2 ^ (Int.log 2 |q| - 52)) := by
    intro hc
    linarith [hdist.2]
  have hB : ¬ ((roundHalfEven (q / 2 ^ (Int.log 2 |q| - 52)) : ℚ) * 2 ^ (Int.log 2 |q| - 52)
      ≤ -(2 ^ (1024 : ℤ))) := by
    intro hc
    have hp : (0 : ℚ) < 2 ^ (1024 : ℤ) := by positivity
    linarith [hdist.1]
  simp only [hA, hB, if_false]

/-- Rounding keeps a value above a whole number of at most `2 ^ 52` that it is above: the
double nearest to `q ≥ m` is at least `m`, or the value overflows. -/
theorem toDouble_ge_nat (m : ℕ) (q : ℚ) (hm1 : 1 ≤ m) (hm : (m : ℚ) ≤ 2 ^ (52 : ℤ))
    (h : (m : ℚ) ≤ q) :
    toDouble q = JsNum.posInf ∨ ∃ v : ℚ, toDouble q = JsNum.fin v ∧ (m : ℚ) ≤ v := by
  have hq1 : (1 : ℚ) ≤ q := le_trans (by exact_mod_cast hm1) h
  obtain ⟨hk, hlo, hhi, hulp⟩ := ulpExponent_of_one_le q hq1
  have hpow : (0 : ℚ) < 2 ^ (Int.log 2 |q| - 52) := by positivity
  have hkey : (m : ℚ) ≤ (roundHalfEven (q / 2 ^ (Int.log 2 |q| - 52)) : ℚ)
      * 2 ^ (Int.log 2 |q| - 52) := by
    by_cases hcase : Int.log 2 |q| ≤ 52
    · obtain ⟨j, hj⟩ : ∃ j : ℕ, (j : ℤ) = 52 - Int.log 2 |q| := ⟨(52 - Int.log 2 |q|).toNat, by
        rw [Int.toNat_of_nonneg]; omega⟩
      have hexp : Int.log 2 |q| - 52 = -(j : ℤ) := by omega
      rw [hexp, zpow_neg, zpow_natCast] at hpow ⊢
      have hz : (((m * 2 ^ j : ℕ) : ℤ) : ℚ) ≤ q / (2 ^ j)⁻¹ := by
        rw [div_inv_eq_mul]
        push_cast
        exact mul_le_mul_of_nonneg_right h (by positivity)
      have hr := roundHalfEven_ge _ _ hz
      have hr2 : (((m * 2 ^ j : ℕ) : ℤ) : ℚ) ≤ (roundHalfEven (q / (2 ^ j)⁻¹) : ℚ) := by
        exact_mod_cast hr
      have h2j : (0 : ℚ) < 2 ^ j := by positivity
      calc (m : ℚ) = (((m * 2 ^ j : ℕ) : ℤ) : ℚ) * (2 ^ j)⁻¹ := by
            push_cast
            field_simp
        _ ≤ (roundHalfEven (q / (2 ^ j)⁻¹) : ℚ) * (2 ^ j)⁻¹ :=
            mul_le_mul_of_nonneg_right hr2 (by positivity)
    · have hcase2 : 52 < Int.log 2 |q| := not_le.mp hcase
      have hsplit : (2 : ℚ) ^ Int.log 2 |q|
          = 2 ^ (52 : ℤ) * 2 ^ (Int.log 2 |q| - 52) := by
        rw [← zpow_add₀ (by norm_num : (2 : ℚ) ≠ 0)]
        congr 1
        ring
      have h52 : ((4503599627370496 : ℤ) : ℚ) = 2 ^ (52 : ℤ) := by norm_num
      have hz : ((4503599627370496 : ℤ) : ℚ) ≤ q / 2 ^ (Int.log 2 |q| - 52) := by
        rw [le_div_iff₀ hpow, h52, ← hsplit]
        exact hlo
      have hr := roundHalfEven_ge _ _ hz
      have hr2 : (2 : ℚ) ^ (52 : ℤ)
          ≤ (roundHalfEven (q / 2 ^ (Int.log 2 |q| - 52)) : ℚ) := by
        rw [← h52]
        exact_mod_cast hr
      have hone : (1 : ℚ) ≤ 2 ^ (Int.log 2 |q| - 52) :=
        one_le_zpow₀ (by norm_num) (by omega)
      calc (m : ℚ) ≤ 2 ^ (52 : ℤ) := hm
        _ ≤ (roundHalfEven (q / 2 ^ (Int.log 2 |q| - 52)) : ℚ) := hr2
        _ = (roundHalfEven (q / 2 ^ (Int.log 2 |q| - 52)) : ℚ) * 1 := (mul_one _).symm
        _ ≤ (roundHalfEven (q / 2 ^ (Int.log 2 |q| - 52)) : ℚ)
              * 2 ^ (Int.log 2 |q| - 52) :=
            mul_le_mul_of_nonneg_left hone (le_trans (by positivity) hr2)
  unfold toDouble
  rw [hulp]
  by_cases hA : (2 : ℚ) ^ (1024 : ℤ)
      ≤ (roundHalfEven (q / 2 ^ (Int.log 2 |q| - 52)) : ℚ) * 2 ^ (Int.log 2 |q| - 52)
  · left
    simp only [hA, if_true]
  · right
    have hB : ¬ ((roundHalfEven (q / 2 ^ (Int.log 2 |q| - 52)) : ℚ)
        * 2 ^ (Int.log 2 |q| - 52) ≤ -(2 ^ (1024 : ℤ))) := by
      intro hc
      have hp : (0 : ℚ) < 2 ^ (1024 : ℤ) := by positivity
      have hm0 : (0 : ℚ) ≤ m := by positivity
      linarith
    exact ⟨_, by simp only [hA, hB, if_false], hkey⟩

/-- Rounding to the nearest integer with ties to even commutes with the sign. -/
theorem roundHalfEven_neg (x : ℚ) : roundHalfEven (-x) = -roundHalfEven x := by
  have hlow := Int.floor_le x
  have hhigh := Int.lt_floor_add_one x
  by_cases htie : x - ⌊x⌋ = 1 / 2
  · have hx : x = ⌊x⌋ + 1 / 2 := by linarith
    have hneg : -x = ((-⌊x⌋ - 1 : ℤ) : ℚ) + 1 / 2 := by
      push_cast
      linarith
    rw [roundHalfEven_of_tie (-x) (-⌊x⌋ - 1) hneg, roundHalfEven_of_tie x ⌊x⌋ hx]
    split_ifs <;> omega
  · by_cases hlt : x - ⌊x⌋ < 1 / 2
    · have hround : roundHalfEven x = ⌊x⌋ :=
        roundHalfEven_of_near x ⌊x⌋ (by linarith) (by linarith)
      rw [hround]
      apply roundHalfEven_of_near
      · push_cast
        linarith
      · push_cast
        linarith
    · have hgt : 1 / 2 < x - ⌊x⌋ := lt_of_le_of_ne (not_lt.mp hlt) (Ne.symm htie)
      have hround : roundHalfEven x = ⌊x⌋ + 1 :=
        roundHalfEven_of_near x (⌊x⌋ + 1) (by push_cast; linarith) (by push_cast; linarith)
      rw [hround]
      apply roundHalfEven_of_near
      · push_cast
        linarith
      · push_cast
        linarith

/-- The double nearest to `-q` is the negative of the double nearest to `q`. -/
theorem toDouble_neg (q : ℚ) : toDouble (-q) = JsNum.neg (toDouble q) := by
  have hulp : ulpExponent (-q) = ulpExponent q := by
    unfold ulpExponent
    rw [abs_neg]
  have hpow : (0 : ℚ) < 2 ^ (1024 : ℤ) := by positivity
  unfold toDouble
  simp only [hulp, neg_div, roundHalfEven_neg, Int.cast_neg, neg_mul]
  by_cases h1 : (2 : ℚ) ^ (1024 : ℤ)
      ≤ (roundHalfEven (q / 2 ^ ulpExponent q) : ℚ) * 2 ^ ulpExponent q
  · have h2 : ¬ ((2 : ℚ) ^ (1024 : ℤ)
        ≤ -((roundHalfEven (q / 2 ^ ulpExponent q) : ℚ) * 2 ^ ulpExponent q)) := by
      intro hc
      linarith
    have h3 : -((roundHalfEven (q / 2 ^ ulpExponent q) : ℚ) * 2 ^ ulpExponent q)
        ≤ -(2 ^ (1024 : ℤ)) := by linarith
    simp only [h1, h2, h3, if_true, if_false, JsNum.neg]
  · by_cases h4 : (roundHalfEven (q / 2 ^ ulpExponent q) : ℚ) * 2 ^ ulpExponent q
        ≤ -(2 ^ (1024 : ℤ))
    · have h5 : (2 : ℚ) ^ (1024 : ℤ)
          ≤ -((roundHalfEven (q / 2 ^ ulpExponent q) : ℚ) * 2 ^ ulpExponent q) := by
        linarith
      simp only [h1, h4, h5, if_true, if_false, JsNum.neg]
    · have h6 : ¬ ((2 : ℚ) ^ (1024 : ℤ)
          ≤ -((roundHalfEven (q / 2 ^ ulpExponent q) : ℚ) * 2 ^ ulpExponent q)) := by
        intro hc
        apply h4
        linarith
      have h7 : ¬ (-((roundHalfEven (q / 2 ^ ulpExponent q) : ℚ) * 2 ^ ulpExponent q)
          ≤ -(2 ^ (1024 : ℤ))) := by
        intro hc
        apply h1
        linarith
      simp only [h1, h4, h6, h7, if_false, JsNum.neg]

/-! ## The position ledger in doubles -/

theorem Binary64.parseFloat_num (q v : ℚ) (h : toDouble q = JsNum.fin v) :
    Binary64.parseFloat (BodyValue.num q) = JsNum.fin v := by
  simp [Binary64.parseFloat, CryptoTracker.parseFloat, JsNum.rnd_fin, h]

theorem Binary64.increaseCoin_keeps_coinId (amount buyPrice : JsNum) (e : Position) :
    (Binary64.increaseCoin amount buyPrice e).coinId = e.coinId := rfl

/-- An accepted `POST` for a coin that is held updates the position `find` returns and saves. -/
theorem Binary64.postPortfolio_saves_held (pf : Portfolio) (req : AddRequest) (e : Position)
    (hv : validAdd req = true) (hfind : findCoin pf req.coinId = some e) :
    Binary64.postPortfolio pf req
      = Binary64.save pf (mutateCoin req.coinId
          (Binary64.increaseCoin (Binary64.parseFloat req.amount)
            (Binary64.parseFloat req.buyPrice)) pf) := by
  simp [Binary64.postPortfolio, hv, hfind]

/-- An accepted `POST` for a coin that is not held pushes the new position and saves. -/
theorem Binary64.postPortfolio_saves_new (pf : Portfolio) (req : AddRequest)
    (hv : validAdd req = true) (habsent : findCoin pf req.coinId = none) :
    Binary64.postPortfolio pf req
      = Binary64.save pf
          (pf ++ [{ coinId := req.coinId, symbol := req.symbol, name := req.name,
                    amount := Binary64.parseFloat req.amount,
                    buyPrice := Binary64.parseFloat req.buyPrice }]) := by
  simp [Binary64.postPortfolio, hv, habsent]

theorem Binary64.save_of_accepts (stored updated : Portfolio)
    (h : Binary64.storeAccepts updated = true) :
    Binary64.save stored updated = ⟨200, updated⟩ := by
  simp [Binary64.save, h]

/-- A save that is answered with 200 has stored the updated portfolio. -/
theorem Binary64.save_of_status (stored updated : Portfolio)
    (h : (Binary64.save stored updated).status = 200) :
    Binary64.save stored updated = ⟨200, updated⟩ := by
  by_cases hs : Binary64.storeAccepts updated = true
  · exact Binary64.save_of_accepts stored updated hs
  · simp [Binary64.save, hs] at h

theorem Binary64.storeAccepts_append (pf rest : Portfolio) :
    Binary64.storeAccepts (pf ++ rest)
      = (Binary64.storeAccepts pf && Binary64.storeAccepts rest) := by
  simp [Binary64.storeAccepts, List.all_append]

theorem Binary64.storeAccepts_cons (x : Position) (rest : Portfolio) :
    Binary64.storeAccepts (x :: rest)
      = ((!x.amount.isNaN && !x.buyPrice.isNaN) && Binary64.storeAccepts rest) := by
  simp [Binary64.storeAccepts]

/-- The position `find` returns splits the portfolio at its first position with the
`coinId`. -/
theorem findCoin_some_split {pf : Portfolio} {coinId : String} {e : Position}
    (h : findCoin pf coinId = some e) :
    ∃ before after, pf = before ++ e :: after ∧
      (∀ item ∈ before, item.coinId ≠ coinId) ∧ e.coinId = coinId := by
  have hmem : ∃ item ∈ pf, item.coinId = coinId := by
    by_contra hnone
    push_neg at hnone
    rw [(findCoin_eq_none_iff pf coinId).mpr hnone] at h
    exact Option.noConfusion h
  obtain ⟨before, x, after, hsplit, hbefore, hx⟩ := exists_split_of_mem_coinId coinId pf hmem
  have hfound := findCoin_split coinId before x after hbefore hx
  rw [← hsplit, h] at hfound
  have hxe : e = x := Option.some.inj hfound
  exact ⟨before, after, by rw [hxe]; exact hsplit, hbefore, by rw [hxe]; exact hx⟩

/-- After the in-place update `find` returns the updated position, when that still carries
the `coinId`. -/
theorem findCoin_mutateCoin_of_find {pf : Portfolio} {coinId : String} {e : Position}
    (f : Position → Position) (hfind : findCoin pf coinId = some e)
    (hf : (f e).coinId = coinId) :
    findCoin (mutateCoin coinId f pf) coinId = some (f e) := by
  obtain ⟨before, after, hsplit, hbefore, he⟩ := findCoin_some_split hfind
  rw [hsplit, mutateCoin_split coinId f before e after hbefore he]
  exact findCoin_split coinId before (f e) after hbefore hf

/-- The store accepts the portfolio after the in-place update when it accepted the portfolio
before and the updated position holds no `NaN`. -/
theorem Binary64.storeAccepts_mutateCoin {pf : Portfolio} {coinId : String} {e : Position}
    (f : Position → Position) (hfind : findCoin pf coinId = some e)
    (hstore : Binary64.storeAccepts pf = true)
    (hnew : (!(f e).amount.isNaN && !(f e).buyPrice.isNaN) = true) :
    Binary64.storeAccepts (mutateCoin coinId f pf) = true := by
  obtain ⟨before, after, hsplit, hbefore, he⟩ := findCoin_some_split hfind
  rw [hsplit] at hstore ⊢
  rw [mutateCoin_split coinId f before e after hbefore he]
  rw [Binary64.storeAccepts_append, Binary64.storeAccepts_cons] at hstore ⊢
  simp only [Bool.and_eq_true] at hstore hnew ⊢
  exact ⟨hstore.1, hnew, hstore.2.2⟩

/-- One increase without rounding stores the sum of the amounts and the weighted mean of the
costs. -/
theorem Binary64.increaseCoin_exact (e : Position) (held cost quantity unitCost : ℚ)
    (ha : e.amount = JsNum.fin held) (hb : e.buyPrice = JsNum.fin cost)
    (hexact : Binary64.exactIncrease held cost quantity unitCost)
    (hne : held + quantity ≠ 0) :
    Binary64.increaseCoin (JsNum.fin quantity) (JsNum.fin unitCost) e
      = { e with
          amount := JsNum.fin (held + quantity),
          buyPrice := JsNum.fin
            ((cost * held + unitCost * quantity) / (held + quantity)) } := by
  obtain ⟨h1, h2, h3, h4, h5, h6⟩ := hexact
  have h2' : toDouble (held + quantity - quantity) = JsNum.fin held := by
    rw [show held + quantity - quantity = held by ring]
    exact h2
  exact Binary64.increaseCoin_steps e held cost quantity unitCost _ _ _ _ _ _ ha hb
    h1 h2' h3 h4 h5 hne h6

/-- An accepted `POST` for a coin that is held, on a portfolio the store accepts, when the
increased position `updated` holds no `NaN`. -/
theorem Binary64.postPortfolio_eval (pf : Portfolio) (req : AddRequest) (e updated : Position)
    (quantity unitCost : ℚ)
    (hvalid : validAdd req = true)
    (hq : Binary64.parseFloat req.amount = JsNum.fin quantity)
    (hc : Binary64.parseFloat req.buyPrice = JsNum.fin unitCost)
    (hfind : findCoin pf req.coinId = some e)
    (hinc : Binary64.increaseCoin (JsNum.fin quantity) (JsNum.fin unitCost) e = updated)
    (hstore : Binary64.storeAccepts pf = true)
    (hnum : (!updated.amount.isNaN && !updated.buyPrice.isNaN) = true) :
    Binary64.postPortfolio pf req
      = ⟨200, mutateCoin req.coinId (fun _ => updated) pf⟩ := by
  obtain ⟨before, after, hsplit, hbefore, he⟩ := findCoin_some_split hfind
  rw [Binary64.postPortfolio_saves_held pf req e hvalid hfind, hq, hc]
  have hmutate : mutateCoin req.coinId
      (Binary64.increaseCoin (JsNum.fin quantity) (JsNum.fin unitCost)) pf
      = mutateCoin req.coinId (fun _ => updated) pf := by
    rw [hsplit, mutateCoin_split req.coinId _ before e after hbefore he,
      mutateCoin_split req.coinId _ before e after hbefore he, hinc]
  rw [hmutate]
  apply Binary64.save_of_accepts
  exact Binary64.storeAccepts_mutateCoin _ hfind hstore hnum

/-- A value that is a double is rounded to itself, however the value is written. -/
theorem toDouble_congr (written result v : ℚ) (h1 : written = v) (h2 : result = v)
    (h : toDouble v = JsNum.fin v) : toDouble written = JsNum.fin result := by
  rw [h1, h2, h]

/-- An accepted `POST` without rounding for a coin that is held, on a portfolio the store
accepts. -/
theorem Binary64.postPortfolio_exact (pf : Portfolio) (req : AddRequest) (e : Position)
    (held cost quantity unitCost : ℚ)
    (hvalid : validAdd req = true)
    (hq : Binary64.parseFloat req.amount = JsNum.fin quantity)
    (hc : Binary64.parseFloat req.buyPrice = JsNum.fin unitCost)
    (hfind : findCoin pf req.coinId = some e)
    (ha : e.amount = JsNum.fin held) (hb : e.buyPrice = JsNum.fin cost)
    (hstore : Binary64.storeAccepts pf = true)
    (hexact : Binary64.exactIncrease held cost quantity unitCost)
    (hne : held + quantity ≠ 0) :
    Binary64.postPortfolio pf req
      = ⟨200, mutateCoin req.coinId (fun _ =>
          { e with
            amount := JsNum.fin (held + quantity),
            buyPrice := JsNum.fin
              ((cost * held + unitCost * quantity) / (held + quantity)) }) pf⟩ :=
  Binary64.postPortfolio_eval pf req e _ quantity unitCost hvalid hq hc hfind
    (Binary64.increaseCoin_exact e held cost quantity unitCost ha hb hexact hne) hstore
    (by simp [JsNum.isNaN])

/-- An accepted `POST` for a coin that is not held, on a portfolio the store accepts, when the
amount and the price are read as numbers. -/
theorem Binary64.postPortfolio_push (pf : Portfolio) (req : AddRequest) (quantity unitCost : ℚ)
    (hvalid : validAdd req = true)
    (hq : Binary64.parseFloat req.amount = JsNum.fin quantity)
    (hc : Binary64.parseFloat req.buyPrice = JsNum.fin unitCost)
    (habsent : findCoin pf req.coinId = none)
    (hstore : Binary64.storeAccepts pf = true) :
    Binary64.postPortfolio pf req
      = ⟨200, pf ++ [⟨req.coinId, req.symbol, req.name, JsNum.fin quantity,
                      JsNum.fin unitCost⟩]⟩ := by
  rw [Binary64.postPortfolio_saves_new pf req hvalid habsent, hq, hc]
  apply Binary64.save_of_accepts
  rw [Binary64.storeAccepts_append, hstore]
  simp [Binary64.storeAccepts, JsNum.isNaN]

/-- Additions without rounding to a held position whose cost is `total / held`. -/
theorem Binary64.runAdditions_held (coinId symbol name : String) (pf : Portfolio)
    (hid : coinId ≠ "") (hsym : symbol ≠ "") (hname : name ≠ "")
    (habsent : findCoin pf coinId = none) (hstore : Binary64.storeAccepts pf = true)
    (purchases : List (ℚ × ℚ)) :
    ∀ held total : ℚ, 0 < held → (∀ p ∈ purchases, 0 < p.1 ∧ 0 ≤ p.2) →
      Binary64.exactAdditions held (total / held) purchases →
      Binary64.runAdditions coinId symbol name
          (pf ++ [⟨coinId, symbol, name, JsNum.fin held, JsNum.fin (total / held)⟩]) purchases
        = pf ++ [⟨coinId, symbol, name,
            JsNum.fin (held + (purchases.map (fun p => p.1)).sum),
            JsNum.fin ((total + (purchases.map (fun p => p.1 * p.2)).sum)
              / (held + (purchases.map (fun p => p.1)).sum))⟩] := by
  induction purchases with
  | nil => intro held total _ _ _; simp [Binary64.runAdditions]
  | cons purchase rest ih =>
      intro held total hheld hall hexact
      have hp := hall purchase (List.mem_cons_self _ _)
      have hrest : ∀ p ∈ rest, 0 < p.1 ∧ 0 ≤ p.2 :=
        fun p hmem => hall p (List.mem_cons_of_mem _ hmem)
      obtain ⟨hq, hc, hstep, hnext⟩ := hexact
      have hh : held ≠ 0 := ne_of_gt hheld
      have hne : held + purchase.1 ≠ 0 := by linarith
      have hcost : (total / held * held + purchase.2 * purchase.1) / (held + purchase.1)
          = (total + purchase.1 * purchase.2) / (held + purchase.1) := by
        congr 1
        field_simp
        ring
      have hv := validAdd_addition coinId symbol name purchase hid hsym hname hp.1.le hp.2
      have hfind := findCoin_append_last
        (⟨coinId, symbol, name, JsNum.fin held, JsNum.fin (total / held)⟩ : Position)
        habsent rfl
      have hstore2 : Binary64.storeAccepts
          (pf ++ [⟨coinId, symbol, name, JsNum.fin held, JsNum.fin (total / held)⟩])
          = true := by
        rw [Binary64.storeAccepts_append, hstore]
        simp [Binary64.storeAccepts, JsNum.isNaN]
      have hpost := Binary64.postPortfolio_exact _ (addition coinId symbol name purchase)
        _ held (total / held) purchase.1 purchase.2 hv
        (Binary64.parseFloat_num _ _ hq) (Binary64.parseFloat_num _ _ hc) hfind rfl rfl
        hstore2 hstep hne
      have hstate : (Binary64.postPortfolio
          (pf ++ [⟨coinId, symbol, name, JsNum.fin held, JsNum.fin (total / held)⟩])
          (addition coinId symbol name purchase)).state
          = pf ++ [⟨coinId, symbol, name, JsNum.fin (held + purchase.1),
              JsNum.fin ((total + purchase.1 * purchase.2) / (held + purchase.1))⟩] := by
        rw [hpost]
        show mutateCoin coinId _ _ = _
        rw [mutateCoin_append_last _ _ habsent rfl, hcost]
      rw [hcost] at hnext
      have hrec := ih (held + purchase.1) (total + purchase.1 * purchase.2)
        (by linarith) hrest hnext
      simp only [Binary64.runAdditions, List.foldl_cons] at hrec ⊢
      rw [hstate, hrec]
      simp only [List.map_cons, List.sum_cons, add_assoc]

/-- Additions without rounding for a coin that is not held: the stored amount is the sum of
the quantities and the stored cost their quantity-weighted mean. -/
theorem Binary64.runAdditions_absent (coinId symbol name : String) (pf : Portfolio)
    (purchases : List (ℚ × ℚ))
    (hid : coinId ≠ "") (hsym : symbol ≠ "") (hname : name ≠ "")
    (hne : purchases ≠ []) (hall : ∀ p ∈ purchases, 0 < p.1 ∧ 0 ≤ p.2)
    (habsent : findCoin pf coinId = none) (hstore : Binary64.storeAccepts pf = true)
    (hexact : Binary64.exactRun purchases) :
    Binary64.runAdditions coinId symbol name pf purchases
      = pf ++ [⟨coinId, symbol, name,
          JsNum.fin (purchases.map (fun p => p.1)).sum,
          JsNum.fin ((purchases.map (fun p => p.1 * p.2)).sum
            / (purchases.map (fun p => p.1)).sum)⟩] := by
  cases purchases with
  | nil => exact absurd rfl hne
  | cons purchase rest =>
      have hp := hall purchase (List.mem_cons_self _ _)
      have hrest : ∀ p ∈ rest, 0 < p.1 ∧ 0 ≤ p.2 :=
        fun p hmem => hall p (List.mem_cons_of_mem _ hmem)
      obtain ⟨hq, hc, hnext⟩ := hexact
      have h1 : purchase.1 ≠ 0 := ne_of_gt hp.1
      have hcost : purchase.2 = purchase.1 * purchase.2 / purchase.1 := by
        field_simp
      have hv := validAdd_addition coinId symbol name purchase hid hsym hname hp.1.le hp.2
      have hfirst : (Binary64.postPortfolio pf (addition coinId symbol name purchase)).state
          = pf ++ [⟨coinId, symbol, name, JsNum.fin purchase.1,
              JsNum.fin (purchase.1 * purchase.2 / purchase.1)⟩] := by
        rw [Binary64.postPortfolio_push pf _ purchase.1 purchase.2 hv
          (Binary64.parseFloat_num _ _ hq) (Binary64.parseFloat_num _ _ hc) habsent hstore]
        show pf ++ [⟨coinId, symbol, name, JsNum.fin purchase.1, JsNum.fin purchase.2⟩] = _
        rw [← hcost]
      rw [hcost] at hnext
      have hrec := Binary64.runAdditions_held coinId symbol name pf hid hsym hname habsent
        hstore rest purchase.1 (purchase.1 * purchase.2) hp.1 hrest hnext
      simp only [Binary64.runAdditions, List.foldl_cons] at hrec ⊢
      rw [hfirst, hrec]
      simp only [List.map_cons, List.sum_cons]

/-- One more addition that is answered with 200. -/
theorem Binary64.runAdditions_step (coinId symbol name : String) (pf : Portfolio)
    (purchase : ℚ × ℚ) (rest : List (ℚ × ℚ)) (updated : Portfolio)
    (hstep : Binary64.postPortfolio pf (addition coinId symbol name purchase) = ⟨200, updated⟩) :
    Binary64.runAdditions coinId symbol name pf (purchase :: rest)
      = Binary64.runAdditions coinId symbol name updated rest := by
  simp only [Binary64.runAdditions, List.foldl_cons, hstep]

/-- An accepted verification in doubles, operation by operation: the amount read as the double
`v` and the sum rounded to the double `s`. -/
theorem Binary64.postVerify_steps (hmacSha256Hex : String → String → String) (secret : String)
    (w : Wallet) (req : VerifyRequest) (q v b s : ℚ)
    (hvalid : validVerify req = true)
    (hsig : req.signature = expectedSignature hmacSha256Hex secret req)
    (hq : req.amount = BodyValue.num q) (hv : toDouble q = JsNum.fin v)
    (hb : w.balance = JsNum.fin b) (hs : toDouble (b + v) = JsNum.fin s) :
    Binary64.postVerify hmacSha256Hex secret w req = ⟨200, ⟨JsNum.fin s, w.currency⟩⟩ := by
  simp [Binary64.postVerify, hvalid, ← hsig, hq, Binary64.parseFloat_num q v hv, hb,
    JsNum.rnd_fin, hs, Binary64.walletAccepts, JsNum.isNaN]

/-- The answer 200 of a verification in doubles: the validators pass, the signature is the
expected one and the new balance is not `NaN`; the new balance is then stored. -/
theorem Binary64.postVerify_of_status (hmacSha256Hex : String → String → String)
    (secret : String) (w : Wallet) (req : VerifyRequest)
    (h : (Binary64.postVerify hmacSha256Hex secret w req).status = 200) :
    validVerify req = true ∧ req.signature = expectedSignature hmacSha256Hex secret req ∧
      (JsNum.rnd (w.balance + Binary64.parseFloat req.amount)).isNaN = false ∧
      Binary64.postVerify hmacSha256Hex secret w req
        = ⟨200, ⟨JsNum.rnd (w.balance + Binary64.parseFloat req.amount), w.currency⟩⟩ := by
  unfold Binary64.postVerify at h ⊢
  by_cases hvalid : validVerify req = true
  · by_cases hsig : req.signature = expectedSignature hmacSha256Hex secret req
    · by_cases hnan : (JsNum.rnd (w.balance + Binary64.parseFloat req.amount)).isNaN = true
      · simp [hvalid, ← hsig, Binary64.walletAccepts, hnan] at h
      · rw [Bool.not_eq_true] at hnan
        simp [hvalid, ← hsig, Binary64.walletAccepts, hnan]
    · simp [hvalid, hsig] at h
  · simp [hvalid] at h

/-- A verification in doubles that passes the validators and carries the expected signature is
answered with 200 when the new balance is not `NaN`. -/
theorem Binary64.postVerify_of_number (hmacSha256Hex : String → String → String)
    (secret : String) (w : Wallet) (req : VerifyRequest)
    (hvalid : validVerify req = true)
    (hsig : req.signature = expectedSignature hmacSha256Hex secret req)
    (hnan : (JsNum.rnd (w.balance + Binary64.parseFloat req.amount)).isNaN = false) :
    (Binary64.postVerify hmacSha256Hex secret w req).status = 200 := by
  simp [Binary64.postVerify, hvalid, ← hsig, Binary64.walletAccepts, hnan]

/-- A sum that is not `NaN` stays so when the same value is added once more. -/
theorem JsNum.rnd_add_again (x a : JsNum) (h : (JsNum.rnd (x + a)).isNaN = false) :
    (JsNum.rnd (JsNum.rnd (x + a) + a)).isNaN = false := by
  cases x with
  | fin b =>
      cases a with
      | fin v =>
          rw [JsNum.fin_add_fin, JsNum.rnd_fin]
          cases hsum : toDouble (b + v) with
          | fin s => rw [JsNum.fin_add_fin, JsNum.rnd_fin]; exact toDouble_isNaN _
          | posInf => rfl
          | negInf => rfl
          | nan =>
              have := toDouble_isNaN (b + v)
              rw [hsum] at this
              exact absurd this (by decide)
      | posInf => rfl
      | negInf => rfl
      | nan => simp [JsNum.add_def, JsNum.add, JsNum.rnd, JsNum.isNaN] at h
  | posInf =>
      cases a with
      | fin v => rfl
      | posInf => rfl
      | negInf => exact absurd h (by decide)
      | nan => exact absurd h (by decide)
  | negInf =>
      cases a with
      | fin v => rfl
      | posInf => exact absurd h (by decide)
      | negInf => rfl
      | nan => exact absurd h (by decide)
  | nan => cases a <;> simp [JsNum.add_def, JsNum.add, JsNum.rnd, JsNum.isNaN] at h

/-- One more repetition of a verification that is answered with 200. -/
theorem Binary64.replayVerify_step (hmacSha256Hex : String → String → String)
    (secret : String) (req : VerifyRequest) (n : Nat) (w updated : Wallet)
    (hstep : Binary64.postVerify hmacSha256Hex secret w req = ⟨200, updated⟩) :
    Binary64.replayVerify hmacSha256Hex secret req (n + 1) w
      = Binary64.replayVerify hmacSha256Hex secret req n updated := by
  rw [Binary64.replayVerify, hstep]

/-- The order amount, operation by operation: the amount read as the double `v`, the product
rounded to the double `y`, and the integer `k` with `k ≤ y + 1/2 < k + 1`. -/
theorem Binary64.createOrder_steps (now : Nat) (userId : String) (req : OrderRequest)
    (q v y : ℚ) (k : ℤ) (hvalid : validOrder req = true) (hq : req.amount = BodyValue.num q)
    (h1 : toDouble q = JsNum.fin v) (h2 : toDouble (v * 100) = JsNum.fin y)
    (h3 : (k : ℚ) ≤ y + 1 / 2) (h4 : y + 1 / 2 < k + 1) :
    (Binary64.createOrder now userId req).2.map (fun order => order.amount)
      = some (JsNum.fin (k : ℚ)) := by
  have hfloor : ⌊y + 1 / 2⌋ = k := by
    rw [Int.floor_eq_iff]
    exact ⟨h3, h4⟩
  simp only [Binary64.createOrder, hvalid, if_true, Option.map_some', hq,
    Binary64.parseFloat_num q v h1, JsNum.fin_mul_fin, JsNum.rnd_fin, h2, JsNum.round, hfloor]

/-- The numeral 1 followed by 400 zeros is read as `Infinity`. -/
theorem toDouble_overflow : toDouble (10 ^ 400) = JsNum.posInf :=
  toDouble_of_huge _ 1328 7686445155841023 (by norm_num) (by norm_num) (by norm_num)
    (roundHalfEven_of_near _ _ (by norm_num) (by norm_num)) (by norm_num)

theorem Binary64.parseFloat_eq (q : ℚ) :
    Binary64.parseFloat (BodyValue.num q) = toDouble q := rfl

/-- An accepted `POST` on the empty portfolio whose amount is the numeral 1 followed by 400
zeros stores the amount `Infinity`. -/
theorem Binary64.postPortfolio_overflow :
    Binary64.postPortfolio []
        ⟨"bitcoin", "btc", "Bitcoin", BodyValue.num (10 ^ 400), BodyValue.num 5⟩
      = ⟨200, [⟨"bitcoin", "btc", "Bitcoin", JsNum.posInf, JsNum.fin 5⟩]⟩ := by
  have hcost : toDouble 5 = JsNum.fin 5 :=
    toDouble_of_pos _ _ 2 5629499534213120 (by norm_num) (by norm_num) (by norm_num)
      (roundHalfEven_of_near _ _ (by norm_num) (by norm_num)) (by norm_num) (by norm_num)
      (by norm_num)
  rw [Binary64.postPortfolio_saves_new [] _
    (validAdd_of_fields _ (10 ^ 400) 5 (by decide) (by decide) (by decide) rfl rfl
      (by positivity) (by norm_num)) rfl]
  show Binary64.save [] [⟨"bitcoin", "btc", "Bitcoin",
    Binary64.parseFloat (BodyValue.num (10 ^ 400)), Binary64.parseFloat (BodyValue.num 5)⟩] = _
  rw [Binary64.parseFloat_eq, Binary64.parseFloat_eq, toDouble_overflow, hcost]
  exact Binary64.save_of_accepts _ _ rfl

/-- The value of a position without a price, for a stored amount that is a finite number and a
stored cost that is a double, an infinity or `NaN`. -/
theorem Binary64.pricePosition_of_no_price (data : PriceData) (item : Position) (a : ℚ)
    (hprice : data.price item.coinId = none ∨ data.price item.coinId = some 0)
    (hamount : item.amount = JsNum.fin a) (hcost : JsNum.rnd item.buyPrice = item.buyPrice) :
    (Binary64.pricePosition data item).currentPrice = JsNum.fin 0 ∧
    (Binary64.pricePosition data item).totalValue = JsNum.fin 0 ∧
    (Binary64.pricePosition data item).profitLoss
      = JsNum.neg (JsNum.rnd (item.amount * item.buyPrice)) := by
  have hzero : JsNum.rnd (orZero (data.price item.coinId)) = JsNum.fin 0 := by
    rw [orZero_of_no_price _ hprice, JsNum.rnd_fin, toDouble_zero]
  refine ⟨hzero, ?_, ?_⟩
  · simp only [Binary64.pricePosition, hzero, hamount, JsNum.fin_mul_fin, mul_zero,
      JsNum.rnd_fin, toDouble_zero]
  · simp only [Binary64.pricePosition, hzero, hamount]
    cases hb : item.buyPrice with
    | fin b =>
        rw [hb, JsNum.rnd_fin] at hcost
        rw [JsNum.fin_sub_fin, zero_sub, JsNum.rnd_fin, toDouble_neg, hcost, JsNum.neg,
          JsNum.fin_mul_fin, JsNum.fin_mul_fin, JsNum.rnd_fin, JsNum.rnd_fin, neg_mul,
          toDouble_neg, mul_comm]
    | posInf =>
        by_cases h0 : a = 0
        · simp [JsNum.sub_def, JsNum.mul_def, JsNum.add, JsNum.neg, JsNum.mul,
            JsNum.infTimes, JsNum.rnd, h0]
        · by_cases hpos : 0 < a
          · simp [JsNum.sub_def, JsNum.mul_def, JsNum.add, JsNum.neg, JsNum.mul,
              JsNum.infTimes, JsNum.rnd, h0, hpos]
          · simp [JsNum.sub_def, JsNum.mul_def, JsNum.add, JsNum.neg, JsNum.mul,
              JsNum.infTimes, JsNum.rnd, h0, hpos]
    | negInf =>
        by_cases h0 : a = 0
        · simp [JsNum.sub_def, JsNum.mul_def, JsNum.add, JsNum.neg, JsNum.mul,
            JsNum.infTimes, JsNum.rnd, h0]
        · by_cases hpos : 0 < a
          · simp [JsNum.sub_def, JsNum.mul_def, JsNum.add, JsNum.neg, JsNum.mul,
              JsNum.infTimes, JsNum.rnd, h0, hpos]
          · simp [JsNum.sub_def, JsNum.mul_def, JsNum.add, JsNum.neg, JsNum.mul,
              JsNum.infTimes, JsNum.rnd, h0, hpos]
    | nan =>
        simp [JsNum.sub_def, JsNum.mul_def, JsNum.add, JsNum.neg, JsNum.mul, JsNum.rnd]

/-! ## The valuation in doubles -/

/-- The value and the profit of one position, operation by operation: the price `p`, the value
`tv`, the difference `d` of the price and the cost, and the profit `pl`. -/
theorem Binary64.pricePosition_steps (data : PriceData) (item : Position) (a b p tv d pl : ℚ)
    (hamount : item.amount = JsNum.fin a) (hcost : item.buyPrice = JsNum.fin b)
    (hprice : JsNum.rnd (orZero (data.price item.coinId)) = JsNum.fin p)
    (h1 : toDouble (a * p) = JsNum.fin tv) (h2 : toDouble (p - b) = JsNum.fin d)
    (h3 : toDouble (d * a) = JsNum.fin pl) :
    (Binary64.pricePosition data item).totalValue = JsNum.fin tv ∧
    (Binary64.pricePosition data item).profitLoss = JsNum.fin pl := by
  simp only [Binary64.pricePosition, hprice, hamount, hcost, JsNum.fin_mul_fin,
    JsNum.fin_sub_fin, JsNum.rnd_fin, h1, h2, h3, and_self]

/-- The percentage of one position, operation by operation: the difference `d`, the quotient
`r` and the percentage `pct`. -/
theorem Binary64.pricePosition_percentage (data : PriceData) (item : Position)
    (b p d r pct : ℚ) (hcost : item.buyPrice = JsNum.fin b)
    (hprice : JsNum.rnd (orZero (data.price item.coinId)) = JsNum.fin p)
    (h2 : toDouble (p - b) = JsNum.fin d) (hb : b ≠ 0)
    (h4 : toDouble (d / b) = JsNum.fin r) (h5 : toDouble (r * 100) = JsNum.fin pct) :
    (Binary64.pricePosition data item).profitLossPercentage = JsNum.fin pct := by
  simp only [Binary64.pricePosition, hprice, hcost, JsNum.fin_mul_fin,
    JsNum.fin_sub_fin, JsNum.rnd_fin, h2, JsNum.fin_div_fin _ _ hb, h4, h5]

theorem Binary64.getPortfolio_single (data : PriceData) (item : Position)
    (hid : item.coinId ≠ "") :
    Binary64.getPortfolio [item] data
      = ⟨[Binary64.pricePosition data item],
         Binary64.summarize [Binary64.pricePosition data item]⟩ := by
  have hids : coinIds [item] ≠ "" := by rw [coinIds_singleton]; exact hid
  simp [Binary64.getPortfolio, hids]

/-- The totals of the summary of one priced position. -/
theorem Binary64.summarize_single_totals (priced : PricedPosition) (tv pl tv2 pl2 : ℚ)
    (htv : priced.totalValue = JsNum.fin tv) (hpl : priced.profitLoss = JsNum.fin pl)
    (h6 : toDouble (0 + tv) = JsNum.fin tv2) (h7 : toDouble (0 + pl) = JsNum.fin pl2) :
    (Binary64.summarize [priced]).totalValue = JsNum.fin tv2 ∧
    (Binary64.summarize [priced]).totalProfitLoss = JsNum.fin pl2 := by
  simp only [Binary64.summarize, List.foldl, htv, hpl, JsNum.fin_add_fin, JsNum.rnd_fin, h6,
    h7, and_self]

/-- The percentage of the summary of one priced position, operation by operation: the
denominator `den`, the quotient `r` and the percentage `pct`. -/
theorem Binary64.summarize_single_percentage (priced : PricedPosition)
    (tv pl tv2 pl2 den r pct : ℚ)
    (htv : priced.totalValue = JsNum.fin tv) (hpl : priced.profitLoss = JsNum.fin pl)
    (h6 : toDouble (0 + tv) = JsNum.fin tv2) (h7 : toDouble (0 + pl) = JsNum.fin pl2)
    (hpos : 0 < tv2) (h8 : toDouble (tv2 - pl2) = JsNum.fin den) (hden : den ≠ 0)
    (h9 : toDouble (pl2 / den) = JsNum.fin r) (h10 : toDouble (r * 100) = JsNum.fin pct) :
    (Binary64.summarize [priced]).totalProfitLossPercentage = JsNum.fin pct := by
  simp only [Binary64.summarize, List.foldl, htv, hpl, JsNum.fin_add_fin, JsNum.rnd_fin, h6,
    h7, JsNum.lt, hpos, decide_True, if_true, JsNum.fin_sub_fin, h8,
    JsNum.fin_div_fin _ _ hden, h9, JsNum.fin_mul_fin, h10]

/-- The two running sums of the summary over positions that are valued without rounding, and
the exact total cost of these positions. -/
theorem Binary64.valuation_exact (data : PriceData) (pf : Portfolio) :
    ∀ tv pl : ℚ, Binary64.exactValuation data tv pl pf →
      ∃ tv2 pl2 z : ℚ,
        (pf.map (Binary64.pricePosition data)).foldl
            (fun sum item => JsNum.rnd (sum + item.totalValue)) (JsNum.fin tv)
          = JsNum.fin tv2 ∧
        (pf.map (Binary64.pricePosition data)).foldl
            (fun sum item => JsNum.rnd (sum + item.profitLoss)) (JsNum.fin pl)
          = JsNum.fin pl2 ∧
        (pf.map (fun item => item.amount * item.buyPrice)).sum = JsNum.fin z ∧
        tv2 - pl2 = tv - pl + z ∧
        toDouble (tv2 - pl2) = JsNum.fin (tv2 - pl2) := by
  induction pf with
  | nil =>
      intro tv pl hexact
      exact ⟨tv, pl, 0, rfl, rfl, rfl, by ring, hexact⟩
  | cons item rest ih =>
      intro tv pl hexact
      obtain ⟨a, b, p, hamount, hcost, hprice, h1, h2, h3, h4, h5, hrest⟩ := hexact
      obtain ⟨tv2, pl2, z, htv, hpl, hz, hsum, hden⟩ := ih _ _ hrest
      obtain ⟨hvalue, hprofit⟩ :=
        Binary64.pricePosition_steps data item a b p _ _ _ hamount hcost hprice h1 h2 h3
      refine ⟨tv2, pl2, a * b + z, ?_, ?_, ?_, ?_, hden⟩
      · rw [List.map_cons, List.foldl_cons, hvalue, JsNum.fin_add_fin, JsNum.rnd_fin, h4]
        exact htv
      · rw [List.map_cons, List.foldl_cons, hprofit, JsNum.fin_add_fin, JsNum.rnd_fin, h5]
        exact hpl
      · rw [List.map_cons, List.sum_cons, hz, hamount, hcost, JsNum.fin_mul_fin,
          JsNum.fin_add_fin]
      · rw [hsum]
        ring

/-- The denominator of the summary over positions that are valued without rounding is their
exact total cost. -/
theorem Binary64.getPortfolio_denominator (pf : Portfolio) (data : PriceData)
    (hids : coinIds pf ≠ "" ∨ pf = [])
    (hexact : Binary64.exactValuation data 0 0 pf) :
    JsNum.rnd ((Binary64.getPortfolio pf data).summary.totalValue
        - (Binary64.getPortfolio pf data).summary.totalProfitLoss)
      = (pf.map (fun item => item.amount * item.buyPrice)).sum := by
  rcases hids with hids | hnil
  · obtain ⟨tv2, pl2, z, htv, hpl, hz, hsum, hden⟩ := Binary64.valuation_exact data pf 0 0 hexact
    have hsummary : (Binary64.getPortfolio pf data).summary
        = Binary64.summarize (pf.map (Binary64.pricePosition data)) := by
      simp [Binary64.getPortfolio, hids]
    have hvalue : (Binary64.summarize (pf.map (Binary64.pricePosition data))).totalValue
        = JsNum.fin tv2 := htv
    have hprofit : (Binary64.summarize (pf.map (Binary64.pricePosition data))).totalProfitLoss
        = JsNum.fin pl2 := hpl
    rw [hsummary, hvalue, hprofit, JsNum.fin_sub_fin, JsNum.rnd_fin, hden, hz, hsum]
    congr 1
    ring
  · subst hnil
    have hempty : coinIds [] = "" := by decide
    simp only [Binary64.getPortfolio, hempty, ne_eq, not_true_eq_false, if_false,
      JsNum.fin_sub_fin, JsNum.rnd_fin, sub_zero, toDouble_zero, List.map_nil, List.sum_nil,
      JsNum.zero_def]

/-! ## Claims -/

/-- C1, as stated, fails: a position of 0.1 units bought at 0.1 is increased by 0.4 units at
0.2. The handler stores the buyPrice 0.18000000000000002, because the old amount it recovers as
`(0.1 + 0.4) - 0.4` is 0.09999999999999998; the formula of the claim, taken on the same numbers
in doubles, is 0.18000000000000005, and its exact value is a third number. -/
theorem increase_differs_from_formula :
    Binary64.postPortfolio
        [⟨"bitcoin", "btc", "Bitcoin", JsNum.fin (3602879701896397 / 36028797018963968),
        JsNum.fin (3602879701896397 / 36028797018963968)⟩]
        ⟨"bitcoin", "btc", "Bitcoin", BodyValue.num (2 / 5), BodyValue.num (1 / 5)⟩
      = ⟨200, [⟨"bitcoin", "btc", "Bitcoin", JsNum.fin (1 / 2),
          JsNum.fin (6485183463413515 / 36028797018963968)⟩]⟩ ∧
    Binary64.parseFloat (BodyValue.num (2 / 5)) = JsNum.fin (3602879701896397 / 9007199254740992) ∧
    Binary64.parseFloat (BodyValue.num (1 / 5)) = JsNum.fin (3602879701896397 / 18014398509481984) ∧
    JsNum.rnd (JsNum.rnd
        (JsNum.rnd (JsNum.fin (3602879701896397 / 36028797018963968)
        * JsNum.fin (3602879701896397 / 36028797018963968))
        + JsNum.rnd (JsNum.fin (3602879701896397 / 18014398509481984)
            * JsNum.fin (3602879701896397 / 9007199254740992)))
      / JsNum.rnd (JsNum.fin (3602879701896397 / 36028797018963968)
          + JsNum.fin (3602879701896397 / 9007199254740992)))
      = JsNum.fin (1621295865853379 / 9007199254740992) ∧
    ((6485183463413515 / 36028797018963968) : ℚ) ≠ (1621295865853379 / 9007199254740992) ∧
    ((6485183463413515 / 36028797018963968) : ℚ)
      ≠ ((3602879701896397 / 36028797018963968) * (3602879701896397 / 36028797018963968)
          + (3602879701896397 / 18014398509481984) * (3602879701896397 / 9007199254740992))
          / ((3602879701896397 / 36028797018963968) + (3602879701896397 / 9007199254740992)) := by
  have hpostq : toDouble (2 / 5) = JsNum.fin (3602879701896397 / 9007199254740992) :=
    (toDouble_of_pos _ _ (-2) (7205759403792794) (by norm_num) (by norm_num) (by norm_num)
      (roundHalfEven_of_near _ _ (by norm_num) (by norm_num))
      (by norm_num) (by norm_num) (by norm_num))
  have hpostc : toDouble (1 / 5) = JsNum.fin (3602879701896397 / 18014398509481984) :=
    (toDouble_of_pos _ _ (-3) (7205759403792794) (by norm_num) (by norm_num) (by norm_num)
      (roundHalfEven_of_near _ _ (by norm_num) (by norm_num))
      (by norm_num) (by norm_num) (by norm_num))
  have hposts1 : toDouble
      ((3602879701896397 / 36028797018963968) + (3602879701896397 / 9007199254740992))
      = JsNum.fin (1 / 2) :=
    (toDouble_of_pos _ _ (-1) (4503599627370496) (by norm_num) (by norm_num) (by norm_num)
      (roundHalfEven_of_near _ _ (by norm_num) (by norm_num))
      (by norm_num) (by norm_num) (by norm_num))
  have hposts2 : toDouble ((1 / 2) - (3602879701896397 / 9007199254740992))
      = JsNum.fin (900719925474099 / 9007199254740992) :=
    (toDouble_of_pos _ _ (-4) (7205759403792792) (by norm_num) (by norm_num) (by norm_num)
      (roundHalfEven_of_near _ _ (by norm_num) (by norm_num))
      (by norm_num) (by norm_num) (by norm_num))
  have hposts3 : toDouble
      ((3602879701896397 / 36028797018963968) * (900719925474099 / 9007199254740992))
      = JsNum.fin (2882303761517117 / 288230376151711744) :=
    (toDouble_of_pos _ _ (-7) (5764607523034234) (by norm_num) (by norm_num) (by norm_num)
      (roundHalfEven_of_near _ _ (by norm_num) (by norm_num))
      (by norm_num) (by norm_num) (by norm_num))
  have hposts4 : toDouble
      ((3602879701896397 / 18014398509481984) * (3602879701896397 / 9007199254740992))
      = JsNum.fin (1441151880758559 / 18014398509481984) :=
    (toDouble_of_pos _ _ (-4) (5764607523034236) (by norm_num) (by norm_num) (by norm_num)
      (roundHalfEven_of_near _ _ (by norm_num) (by norm_num))
      (by norm_num) (by norm_num) (by norm_num))
  have hposts5 : toDouble
      ((2882303761517117 / 288230376151711744) + (1441151880758559 / 18014398509481984))
      = JsNum.fin (6485183463413515 / 72057594037927936) :=
    (toDouble_of_pos _ _ (-4) (6485183463413515) (by norm_num) (by norm_num) (by norm_num)
      (roundHalfEven_of_near _ _ (by norm_num) (by norm_num))
      (by norm_num) (by norm_num) (by norm_num))
  have hposts6 : toDouble ((6485183463413515 / 72057594037927936) / (1 / 2))
      = JsNum.fin (6485183463413515 / 36028797018963968) :=
    (toDouble_of_pos _ _ (-3) (6485183463413515) (by norm_num) (by norm_num) (by norm_num)
      (roundHalfEven_of_near _ _ (by norm_num) (by norm_num))
      (by norm_num) (by norm_num) (by norm_num))
  have hpostinc := Binary64.increaseCoin_steps
    ⟨"bitcoin", "btc", "Bitcoin", JsNum.fin (3602879701896397 / 36028797018963968),
        JsNum.fin (3602879701896397 / 36028797018963968)⟩
    _ _ _ _ _ _ _ _ _ _ rfl rfl hposts1 hposts2 hposts3 hposts4 hposts5 (by norm_num) hposts6
  have hpost : Binary64.postPortfolio
      [⟨"bitcoin", "btc", "Bitcoin", JsNum.fin (3602879701896397 / 36028797018963968),
      JsNum.fin (3602879701896397 / 36028797018963968)⟩]
      ⟨"bitcoin", "btc", "Bitcoin", BodyValue.num (2 / 5), BodyValue.num (1 / 5)⟩
      = ⟨200, [⟨"bitcoin", "btc", "Bitcoin", JsNum.fin (1 / 2),
          JsNum.fin (6485183463413515 / 36028797018963968)⟩]⟩ := by
    rw [Binary64.postPortfolio_eval _ _
        ⟨"bitcoin", "btc", "Bitcoin", JsNum.fin (3602879701896397 / 36028797018963968),
        JsNum.fin (3602879701896397 / 36028797018963968)⟩ _ _ _
      (validAdd_of_fields _ _ _ (by decide) (by decide) (by decide) rfl rfl (by norm_num)
          (by norm_num)) (Binary64.parseFloat_num _ _ hpostq) (Binary64.parseFloat_num _ _ hpostc)
      (by simp [findCoin_cons]) hpostinc (by simp [Binary64.storeAccepts, JsNum.isNaN])
      (by simp [JsNum.isNaN])]
    simp [mutateCoin]
  have hf1 : toDouble ((3602879701896397 / 36028797018963968)
      * (3602879701896397 / 36028797018963968)) = JsNum.fin (1441151880758559 / 144115188075855872)
      :=
    (toDouble_of_pos _ _ (-7) (5764607523034236) (by norm_num) (by norm_num) (by norm_num)
      (roundHalfEven_of_near _ _ (by norm_num) (by norm_num))
      (by norm_num) (by norm_num) (by norm_num))
  have hf3 : toDouble ((1441151880758559 / 144115188075855872)
      + (1441151880758559 / 18014398509481984)) = JsNum.fin (1621295865853379 / 18014398509481984)
      :=
    (toDouble_of_pos _ _ (-4) (6485183463413516) (by norm_num) (by norm_num) (by norm_num)
      (by rw [roundHalfEven_of_tie _ (6485183463413515) (by norm_num)]; norm_num)
      (by norm_num) (by norm_num) (by norm_num))
  have hf5 : toDouble ((1621295865853379 / 18014398509481984) / (1 / 2))
      = JsNum.fin (1621295865853379 / 9007199254740992) :=
    (toDouble_of_pos _ _ (-3) (6485183463413516) (by norm_num) (by norm_num) (by norm_num)
      (roundHalfEven_of_near _ _ (by norm_num) (by norm_num))
      (by norm_num) (by norm_num) (by norm_num))
  refine ⟨hpost, Binary64.parseFloat_num _ _ hpostq, Binary64.parseFloat_num _ _ hpostc, ?_,
    by norm_num, by norm_num⟩
  simp only [JsNum.fin_mul_fin, JsNum.fin_add_fin, JsNum.rnd_fin, hf1, hposts4, hf3, hposts1]
  rw [JsNum.fin_div_fin _ _ (by norm_num), JsNum.rnd_fin, hf5]

/-- C1, amended. `POST /api/portfolio` on an existing position, in double arithmetic: when
`find` returns the position `e` and the request, with the amount `q` and the buyPrice `c` as
`parseFloat` reads them, is answered with 200, then afterwards `find` returns `e` with the
amount `e.amount + q` and the buyPrice
`((e.buyPrice * ((e.amount + q) - q)) + (c * q)) / (e.amount + q)`, every operation rounded;
whenever `(e.amount + q) - q` gives back `e.amount`, this is
`((e.buyPrice * e.amount) + (c * q)) / (e.amount + q)` in doubles; and where no operation of
the increase of `a` units bought at `b` is rounded, the amount is `a + q` and the buyPrice
`((b * a) + (c * q)) / (a + q)` exactly. -/
theorem increase_expression_in_doubles (pf : Portfolio) (req : AddRequest) (e : Position)
    (q c : ℚ) (hvalid : validAdd req = true)
    (hq : Binary64.parseFloat req.amount = JsNum.fin q)
    (hc : Binary64.parseFloat req.buyPrice = JsNum.fin c)
    (hfind : findCoin pf req.coinId = some e)
    (haccepted : (Binary64.postPortfolio pf req).status = 200) :
    findCoin (Binary64.postPortfolio pf req).state req.coinId
      = some (Binary64.increaseCoin (JsNum.fin q) (JsNum.fin c) e) ∧
    (Binary64.increaseCoin (JsNum.fin q) (JsNum.fin c) e).amount
      = JsNum.rnd (e.amount + JsNum.fin q) ∧
    (Binary64.increaseCoin (JsNum.fin q) (JsNum.fin c) e).buyPrice
      = JsNum.rnd (JsNum.rnd (JsNum.rnd
            (e.buyPrice * JsNum.rnd (JsNum.rnd (e.amount + JsNum.fin q) - JsNum.fin q))
          + JsNum.rnd (JsNum.fin c * JsNum.fin q))
        / JsNum.rnd (e.amount + JsNum.fin q)) ∧
    (JsNum.rnd (JsNum.rnd (e.amount + JsNum.fin q) - JsNum.fin q) = e.amount →
      (Binary64.increaseCoin (JsNum.fin q) (JsNum.fin c) e).buyPrice
        = JsNum.rnd (JsNum.rnd (JsNum.rnd (e.buyPrice * e.amount)
            + JsNum.rnd (JsNum.fin c * JsNum.fin q))
          / JsNum.rnd (e.amount + JsNum.fin q))) ∧
    (∀ a b : ℚ, e.amount = JsNum.fin a → e.buyPrice = JsNum.fin b → a + q ≠ 0 →
      Binary64.exactIncrease a b q c →
      (Binary64.increaseCoin (JsNum.fin q) (JsNum.fin c) e).amount = JsNum.fin (a + q) ∧
      (Binary64.increaseCoin (JsNum.fin q) (JsNum.fin c) e).buyPrice
        = JsNum.fin ((b * a + c * q) / (a + q))) := by
  have hsaved : Binary64.postPortfolio pf req
      = ⟨200, mutateCoin req.coinId
          (Binary64.increaseCoin (JsNum.fin q) (JsNum.fin c)) pf⟩ := by
    have hheld := Binary64.postPortfolio_saves_held pf req e hvalid hfind
    rw [hheld] at haccepted
    rw [hheld, Binary64.save_of_status _ _ haccepted, hq, hc]
  refine ⟨?_, rfl, rfl, ?_, ?_⟩
  · rw [hsaved]
    exact findCoin_mutateCoin _ (Binary64.increaseCoin_keeps_coinId _ _) hfind
  · intro hback
    show JsNum.rnd (JsNum.rnd (JsNum.rnd
            (e.buyPrice * JsNum.rnd (JsNum.rnd (e.amount + JsNum.fin q) - JsNum.fin q))
          + JsNum.rnd (JsNum.fin c * JsNum.fin q))
        / JsNum.rnd (e.amount + JsNum.fin q)) = _
    rw [hback]
  · intro a b ha hb hne hexact
    rw [Binary64.increaseCoin_exact e a b q c ha hb hexact hne]
    exact ⟨rfl, rfl⟩

/-- Witness of C1: a holding of 1 bitcoin bought at 40000, increased by 1 bought at 50000. -/
theorem increase_expression_in_doubles_witness :
    findCoin (Binary64.postPortfolio [⟨"bitcoin", "btc", "Bitcoin", JsNum.fin 1, JsNum.fin 40000⟩]
        ⟨"bitcoin", "btc", "Bitcoin", BodyValue.num 1, BodyValue.num 50000⟩).state "bitcoin"
      = some ⟨"bitcoin", "btc", "Bitcoin", JsNum.fin 2, JsNum.fin 45000⟩ := by
  have hpostq : toDouble (1) = JsNum.fin 1 :=
    (toDouble_of_pos _ _ (0) (4503599627370496) (by norm_num) (by norm_num) (by norm_num)
      (roundHalfEven_of_near _ _ (by norm_num) (by norm_num))
      (by norm_num) (by norm_num) (by norm_num))
  have hpostc : toDouble (50000) = JsNum.fin 50000 :=
    (toDouble_of_pos _ _ (15) (6871947673600000) (by norm_num) (by norm_num) (by norm_num)
      (roundHalfEven_of_near _ _ (by norm_num) (by norm_num))
      (by norm_num) (by norm_num) (by norm_num))
  have hposts1 : toDouble (1 + 1) = JsNum.fin 2 :=
    (toDouble_of_pos _ _ (1) (4503599627370496) (by norm_num) (by norm_num) (by norm_num)
      (roundHalfEven_of_near _ _ (by norm_num) (by norm_num))
      (by norm_num) (by norm_num) (by norm_num))
  have hposts2 : toDouble (2 - 1) = JsNum.fin 1 :=
    (toDouble_of_pos _ _ (0) (4503599627370496) (by norm_num) (by norm_num) (by norm_num)
      (roundHalfEven_of_near _ _ (by norm_num) (by norm_num))
      (by norm_num) (by norm_num) (by norm_num))
  have hposts3 : toDouble (40000 * 1) = JsNum.fin 40000 :=
    (toDouble_of_pos _ _ (15) (5497558138880000) (by norm_num) (by norm_num) (by norm_num)
      (roundHalfEven_of_near _ _ (by norm_num) (by norm_num))
      (by norm_num) (by norm_num) (by norm_num))
  have hposts4 : toDouble (50000 * 1) = JsNum.fin 50000 :=
    (toDouble_of_pos _ _ (15) (6871947673600000) (by norm_num) (by norm_num) (by norm_num)
      (roundHalfEven_of_near _ _ (by norm_num) (by norm_num))
      (by norm_num) (by norm_num) (by norm_num))
  have hposts5 : toDouble (40000 + 50000) = JsNum.fin 90000 :=
    (toDouble_of_pos _ _ (16) (6184752906240000) (by norm_num) (by norm_num) (by norm_num)
      (roundHalfEven_of_near _ _ (by norm_num) (by norm_num))
      (by norm_num) (by norm_num) (by norm_num))
  have hposts6 : toDouble (90000 / 2) = JsNum.fin 45000 :=
    (toDouble_of_pos _ _ (15) (6184752906240000) (by norm_num) (by norm_num) (by norm_num)
      (roundHalfEven_of_near _ _ (by norm_num) (by norm_num))
      (by norm_num) (by norm_num) (by norm_num))
  have hpostinc := Binary64.increaseCoin_steps
    ⟨"bitcoin", "btc", "Bitcoin", JsNum.fin 1, JsNum.fin 40000⟩
    _ _ _ _ _ _ _ _ _ _ rfl rfl hposts1 hposts2 hposts3 hposts4 hposts5 (by norm_num) hposts6
  have hpost : Binary64.postPortfolio [⟨"bitcoin", "btc", "Bitcoin", JsNum.fin 1, JsNum.fin 40000⟩]
      ⟨"bitcoin", "btc", "Bitcoin", BodyValue.num 1, BodyValue.num 50000⟩
      = ⟨200, [⟨"bitcoin", "btc", "Bitcoin", JsNum.fin 2, JsNum.fin 45000⟩]⟩ := by
    rw [Binary64.postPortfolio_eval _ _ ⟨"bitcoin", "btc", "Bitcoin", JsNum.fin 1, JsNum.fin 40000⟩
        _ _ _
      (validAdd_of_fields _ _ _ (by decide) (by decide) (by decide) rfl rfl (by norm_num)
          (by norm_num)) (Binary64.parseFloat_num _ _ hpostq) (Binary64.parseFloat_num _ _ hpostc)
      (by simp [findCoin_cons]) hpostinc (by simp [Binary64.storeAccepts, JsNum.isNaN])
      (by simp [JsNum.isNaN])]
    simp [mutateCoin]
  have h := (increase_expression_in_doubles
    [⟨"bitcoin", "btc", "Bitcoin", JsNum.fin 1, JsNum.fin 40000⟩]
    ⟨"bitcoin", "btc", "Bitcoin", BodyValue.num 1, BodyValue.num 50000⟩
    ⟨"bitcoin", "btc", "Bitcoin", JsNum.fin 1, JsNum.fin 40000⟩ 1 50000
    (validAdd_of_fields _ _ _ (by decide) (by decide) (by decide) rfl rfl (by norm_num)
        (by norm_num)) (Binary64.parseFloat_num _ _ hpostq) (Binary64.parseFloat_num _ _ hpostc)
    (by simp [findCoin_cons]) (by rw [hpost])).1
  rw [h, hpostinc]

/-- C2, as stated, fails: the additions (0.1, 10), (0.2, 20), (0.3, 30) to an empty portfolio
leave the amount 0.6000000000000001 at the buyPrice 23.33333333333333, and the same additions
in the reverse order leave the amount 0.6 at the buyPrice 23.333333333333336. -/
theorem additions_depend_on_order :
    Binary64.runAdditions "bitcoin" "btc" "Bitcoin" [] [(1 / 10, 10), (1 / 5, 20), (3 / 10, 30)]
      = [⟨"bitcoin", "btc", "Bitcoin", JsNum.fin (1351079888211149 / 2251799813685248),
          JsNum.fin (1641937364145493 / 70368744177664)⟩] ∧
    Binary64.runAdditions "bitcoin" "btc" "Bitcoin" [] [(3 / 10, 30), (1 / 5, 20), (1 / 10, 10)]
      = [⟨"bitcoin", "btc", "Bitcoin", JsNum.fin (5404319552844595 / 9007199254740992),
          JsNum.fin (3283874728290987 / 140737488355328)⟩] ∧
    List.Perm [(1 / 10, 10), (1 / 5, 20), (3 / 10, 30)]
      ([(3 / 10, 30), (1 / 5, 20), (1 / 10, 10)] : List (ℚ × ℚ)) ∧
    ((1351079888211149 / 2251799813685248) : ℚ) ≠ (5404319552844595 / 9007199254740992) ∧
    ((1641937364145493 / 70368744177664) : ℚ) ≠ (3283874728290987 / 140737488355328) := by
  have hfwdq0 : toDouble (1 / 10) = JsNum.fin (3602879701896397 / 36028797018963968) :=
    (toDouble_of_pos _ _ (-4) (7205759403792794) (by norm_num) (by norm_num) (by norm_num)
      (roundHalfEven_of_near _ _ (by norm_num) (by norm_num))
      (by norm_num) (by norm_num) (by norm_num))
  have hfwdc0 : toDouble (10) = JsNum.fin 10 :=
    (toDouble_of_pos _ _ (3) (5629499534213120) (by norm_num) (by norm_num) (by norm_num)
      (roundHalfEven_of_near _ _ (by norm_num) (by norm_num))
      (by norm_num) (by norm_num) (by norm_num))
  have hfwdp0 : Binary64.postPortfolio []
      ⟨"bitcoin", "btc", "Bitcoin", BodyValue.num (1 / 10), BodyValue.num 10⟩
      = ⟨200, [⟨"bitcoin", "btc", "Bitcoin", JsNum.fin (3602879701896397 / 36028797018963968),
          JsNum.fin 10⟩]⟩ :=
    Binary64.postPortfolio_push [] _ _ _
      (validAdd_of_fields _ _ _ (by decide) (by decide) (by decide) rfl rfl (by norm_num)
          (by norm_num)) (Binary64.parseFloat_num _ _ hfwdq0) (Binary64.parseFloat_num _ _ hfwdc0)
          rfl rfl
  have hfwdp1q : toDouble (1 / 5) = JsNum.fin (3602879701896397 / 18014398509481984) :=
    (toDouble_of_pos _ _ (-3) (7205759403792794) (by norm_num) (by norm_num) (by norm_num)
      (roundHalfEven_of_near _ _ (by norm_num) (by norm_num))
      (by norm_num) (by norm_num) (by norm_num))
  have hfwdp1c : toDouble (20) = JsNum.fin 20 :=
    (toDouble_of_pos _ _ (4) (5629499534213120) (by norm_num) (by norm_num) (by norm_num)
      (roundHalfEven_of_near _ _ (by norm_num) (by norm_num))
      (by norm_num) (by norm_num) (by norm_num))
  have hfwdp1s1 : toDouble
      ((3602879701896397 / 36028797018963968) + (3602879701896397 / 18014398509481984))
      = JsNum.fin (1351079888211149 / 4503599627370496) :=
    (toDouble_of_pos _ _ (-2) (5404319552844596) (by norm_num) (by norm_num) (by norm_num)
      (by rw [roundHalfEven_of_tie _ (5404319552844595) (by norm_num)]; norm_num)
      (by norm_num) (by norm_num) (by norm_num))
  have hfwdp1s2 : toDouble
      ((1351079888211149 / 4503599627370496) - (3602879701896397 / 18014398509481984))
      = JsNum.fin (1801439850948199 / 18014398509481984) :=
    (toDouble_of_pos _ _ (-4) (7205759403792796) (by norm_num) (by norm_num) (by norm_num)
      (roundHalfEven_of_near _ _ (by norm_num) (by norm_num))
      (by norm_num) (by norm_num) (by norm_num))
  have hfwdp1s3 : toDouble (10 * (1801439850948199 / 18014398509481984))
      = JsNum.fin (2251799813685249 / 2251799813685248) :=
    (toDouble_of_pos _ _ (0) (4503599627370498) (by norm_num) (by norm_num) (by norm_num)
      (by rw [roundHalfEven_of_tie _ (4503599627370497) (by norm_num)]; norm_num)
      (by norm_num) (by norm_num) (by norm_num))
  have hfwdp1s4 : toDouble (20 * (3602879701896397 / 18014398509481984)) = JsNum.fin 4 :=
    (toDouble_of_pos _ _ (2) (4503599627370496) (by norm_num) (by norm_num) (by norm_num)
      (roundHalfEven_of_near _ _ (by norm_num) (by norm_num))
      (by norm_num) (by norm_num) (by norm_num))
  have hfwdp1s5 : toDouble ((2251799813685249 / 2251799813685248) + 4) = JsNum.fin 5 :=
    (toDouble_of_pos _ _ (2) (5629499534213120) (by norm_num) (by norm_num) (by norm_num)
      (by rw [roundHalfEven_of_tie _ (5629499534213120) (by norm_num)]; norm_num)
      (by norm_num) (by norm_num) (by norm_num))
  have hfwdp1s6 : toDouble (5 / (1351079888211149 / 4503599627370496))
      = JsNum.fin (2345624805922133 / 140737488355328) :=
    (toDouble_of_pos _ _ (4) (4691249611844266) (by norm_num) (by norm_num) (by norm_num)
      (roundHalfEven_of_near _ _ (by norm_num) (by norm_num))
      (by norm_num) (by norm_num) (by norm_num))
  have hfwdp1inc := Binary64.increaseCoin_steps
    ⟨"bitcoin", "btc", "Bitcoin", JsNum.fin (3602879701896397 / 36028797018963968), JsNum.fin 10⟩
    _ _ _ _ _ _ _ _ _ _ rfl rfl hfwdp1s1 hfwdp1s2 hfwdp1s3 hfwdp1s4 hfwdp1s5 (by norm_num) hfwdp1s6
  have hfwdp1 : Binary64.postPortfolio
      [⟨"bitcoin", "btc", "Bitcoin", JsNum.fin (3602879701896397 / 36028797018963968),
      JsNum.fin 10⟩]
      ⟨"bitcoin", "btc", "Bitcoin", BodyValue.num (1 / 5), BodyValue.num 20⟩
      = ⟨200, [⟨"bitcoin", "btc", "Bitcoin", JsNum.fin (1351079888211149 / 4503599627370496),
          JsNum.fin (2345624805922133 / 140737488355328)⟩]⟩ := by
    rw [Binary64.postPortfolio_eval _ _
        ⟨"bitcoin", "btc", "Bitcoin", JsNum.fin (3602879701896397 / 36028797018963968),
        JsNum.fin 10⟩ _ _ _
      (validAdd_of_fields _ _ _ (by decide) (by decide) (by decide) rfl rfl (by norm_num)
          (by norm_num)) (Binary64.parseFloat_num _ _ hfwdp1q) (Binary64.parseFloat_num _ _ hfwdp1c)
      (by simp [findCoin_cons]) hfwdp1inc (by simp [Binary64.storeAccepts, JsNum.isNaN])
      (by simp [JsNum.isNaN])]
    simp [mutateCoin]
  have hfwdp2q : toDouble (3 / 10) = JsNum.fin (5404319552844595 / 18014398509481984) :=
    (toDouble_of_pos _ _ (-2) (5404319552844595) (by norm_num) (by norm_num) (by norm_num)
      (roundHalfEven_of_near _ _ (by norm_num) (by norm_num))
      (by norm_num) (by norm_num) (by norm_num))
  have hfwdp2c : toDouble (30) = JsNum.fin 30 :=
    (toDouble_of_pos _ _ (4) (8444249301319680) (by norm_num) (by norm_num) (by norm_num)
      (roundHalfEven_of_near _ _ (by norm_num) (by norm_num))
      (by norm_num) (by norm_num) (by norm_num))
  have hfwdp2s1 : toDouble
      ((1351079888211149 / 4503599627370496) + (5404319552844595 / 18014398509481984))
      = JsNum.fin (1351079888211149 / 2251799813685248) :=
    (toDouble_of_pos _ _ (-1) (5404319552844596) (by norm_num) (by norm_num) (by norm_num)
      (by rw [roundHalfEven_of_tie _ (5404319552844595) (by norm_num)]; norm_num)
      (by norm_num) (by norm_num) (by norm_num))
  have hfwdp2s2 : toDouble
      ((1351079888211149 / 2251799813685248) - (5404319552844595 / 18014398509481984))
      = JsNum.fin (5404319552844597 / 18014398509481984) :=
    (toDouble_of_pos _ _ (-2) (5404319552844597) (by norm_num) (by norm_num) (by norm_num)
      (roundHalfEven_of_near _ _ (by norm_num) (by norm_num))
      (by norm_num) (by norm_num) (by norm_num))
  have hfwdp2s3 : toDouble
      ((2345624805922133 / 140737488355328) * (5404319552844597 / 18014398509481984))
      = JsNum.fin (5629499534213121 / 1125899906842624) :=
    (toDouble_of_pos _ _ (2) (5629499534213121) (by norm_num) (by norm_num) (by norm_num)
      (roundHalfEven_of_near _ _ (by norm_num) (by norm_num))
      (by norm_num) (by norm_num) (by norm_num))
  have hfwdp2s4 : toDouble (30 * (5404319552844595 / 18014398509481984)) = JsNum.fin 9 :=
    (toDouble_of_pos _ _ (3) (5066549580791808) (by norm_num) (by norm_num) (by norm_num)
      (roundHalfEven_of_near _ _ (by norm_num) (by norm_num))
      (by norm_num) (by norm_num) (by norm_num))
  have hfwdp2s5 : toDouble ((5629499534213121 / 1125899906842624) + 9) = JsNum.fin 14 :=
    (toDouble_of_pos _ _ (3) (7881299347898368) (by norm_num) (by norm_num) (by norm_num)
      (by rw [roundHalfEven_of_tie _ (7881299347898368) (by norm_num)]; norm_num)
      (by norm_num) (by norm_num) (by norm_num))
  have hfwdp2s6 : toDouble (14 / (1351079888211149 / 2251799813685248))
      = JsNum.fin (1641937364145493 / 70368744177664) :=
    (toDouble_of_pos _ _ (4) (6567749456581972) (by norm_num) (by norm_num) (by norm_num)
      (roundHalfEven_of_near _ _ (by norm_num) (by norm_num))
      (by norm_num) (by norm_num) (by norm_num))
  have hfwdp2inc := Binary64.increaseCoin_steps
    ⟨"bitcoin", "btc", "Bitcoin", JsNum.fin (1351079888211149 / 4503599627370496),
        JsNum.fin (2345624805922133 / 140737488355328)⟩
    _ _ _ _ _ _ _ _ _ _ rfl rfl hfwdp2s1 hfwdp2s2 hfwdp2s3 hfwdp2s4 hfwdp2s5 (by norm_num) hfwdp2s6
  have hfwdp2 : Binary64.postPortfolio
      [⟨"bitcoin", "btc", "Bitcoin", JsNum.fin (1351079888211149 / 4503599627370496),
      JsNum.fin (2345624805922133 / 140737488355328)⟩]
      ⟨"bitcoin", "btc", "Bitcoin", BodyValue.num (3 / 10), BodyValue.num 30⟩
      = ⟨200, [⟨"bitcoin", "btc", "Bitcoin", JsNum.fin (1351079888211149 / 2251799813685248),
          JsNum.fin (1641937364145493 / 70368744177664)⟩]⟩ := by
    rw [Binary64.postPortfolio_eval _ _
        ⟨"bitcoin", "btc", "Bitcoin", JsNum.fin (1351079888211149 / 4503599627370496),
        JsNum.fin (2345624805922133 / 140737488355328)⟩ _ _ _
      (validAdd_of_fields _ _ _ (by decide) (by decide) (by decide) rfl rfl (by norm_num)
          (by norm_num)) (Binary64.parseFloat_num _ _ hfwdp2q) (Binary64.parseFloat_num _ _ hfwdp2c)
      (by simp [findCoin_cons]) hfwdp2inc (by simp [Binary64.storeAccepts, JsNum.isNaN])
      (by simp [JsNum.isNaN])]
    simp [mutateCoin]
  have hfwd : Binary64.runAdditions "bitcoin" "btc" "Bitcoin" []
      [(1 / 10, 10), (1 / 5, 20), (3 / 10, 30)]
      = [⟨"bitcoin", "btc", "Bitcoin", JsNum.fin (1351079888211149 / 2251799813685248),
          JsNum.fin (1641937364145493 / 70368744177664)⟩] :=
    ((Binary64.runAdditions_step "bitcoin" "btc" "Bitcoin" _ (1 / 10, 10) _ _ hfwdp0).trans
      ((Binary64.runAdditions_step "bitcoin" "btc" "Bitcoin" _ (1 / 5, 20) _ _ hfwdp1).trans
      ((Binary64.runAdditions_step "bitcoin" "btc" "Bitcoin" _ (3 / 10, 30) _ _ hfwdp2).trans
      rfl)))
  have hrevq0 : toDouble (3 / 10) = JsNum.fin (5404319552844595 / 18014398509481984) :=
    (toDouble_of_pos _ _ (-2) (5404319552844595) (by norm_num) (by norm_num) (by norm_num)
      (roundHalfEven_of_near _ _ (by norm_num) (by norm_num))
      (by norm_num) (by norm_num) (by norm_num))
  have hrevc0 : toDouble (30) = JsNum.fin 30 :=
    (toDouble_of_pos _ _ (4) (8444249301319680) (by norm_num) (by norm_num) (by norm_num)
      (roundHalfEven_of_near _ _ (by norm_num) (by norm_num))
      (by norm_num) (by norm_num) (by norm_num))
  have hrevp0 : Binary64.postPortfolio []
      ⟨"bitcoin", "btc", "Bitcoin", BodyValue.num (3 / 10), BodyValue.num 30⟩
      = ⟨200, [⟨"bitcoin", "btc", "Bitcoin", JsNum.fin (5404319552844595 / 18014398509481984),
          JsNum.fin 30⟩]⟩ :=
    Binary64.postPortfolio_push [] _ _ _
      (validAdd_of_fields _ _ _ (by decide) (by decide) (by decide) rfl rfl (by norm_num)
          (by norm_num)) (Binary64.parseFloat_num _ _ hrevq0) (Binary64.parseFloat_num _ _ hrevc0)
          rfl rfl
  have hrevp1q : toDouble (1 / 5) = JsNum.fin (3602879701896397 / 18014398509481984) :=
    (toDouble_of_pos _ _ (-3) (7205759403792794) (by norm_num) (by norm_num) (by norm_num)
      (roundHalfEven_of_near _ _ (by norm_num) (by norm_num))
      (by norm_num) (by norm_num) (by norm_num))
  have hrevp1c : toDouble (20) = JsNum.fin 20 :=
    (toDouble_of_pos _ _ (4) (5629499534213120) (by norm_num) (by norm_num) (by norm_num)
      (roundHalfEven_of_near _ _ (by norm_num) (by norm_num))
      (by norm_num) (by norm_num) (by norm_num))
  have hrevp1s1 : toDouble
      ((5404319552844595 / 18014398509481984) + (3602879701896397 / 18014398509481984))
      = JsNum.fin (1 / 2) :=
    (toDouble_of_pos _ _ (-1) (4503599627370496) (by norm_num) (by norm_num) (by norm_num)
      (roundHalfEven_of_near _ _ (by norm_num) (by norm_num))
      (by norm_num) (by norm_num) (by norm_num))
  have hrevp1s2 : toDouble ((1 / 2) - (3602879701896397 / 18014398509481984))
      = JsNum.fin (5404319552844595 / 18014398509481984) :=
    (toDouble_of_pos _ _ (-2) (5404319552844595) (by norm_num) (by norm_num) (by norm_num)
      (roundHalfEven_of_near _ _ (by norm_num) (by norm_num))
      (by norm_num) (by norm_num) (by norm_num))
  have hrevp1s3 : toDouble (30 * (5404319552844595 / 18014398509481984)) = JsNum.fin 9 :=
    (toDouble_of_pos _ _ (3) (5066549580791808) (by norm_num) (by norm_num) (by norm_num)
      (roundHalfEven_of_near _ _ (by norm_num) (by norm_num))
      (by norm_num) (by norm_num) (by norm_num))
  have hrevp1s4 : toDouble (20 * (3602879701896397 / 18014398509481984)) = JsNum.fin 4 :=
    (toDouble_of_pos _ _ (2) (4503599627370496) (by norm_num) (by norm_num) (by norm_num)
      (roundHalfEven_of_near _ _ (by norm_num) (by norm_num))
      (by norm_num) (by norm_num) (by norm_num))
  have hrevp1s5 : toDouble (9 + 4) = JsNum.fin 13 :=
    (toDouble_of_pos _ _ (3) (7318349394477056) (by norm_num) (by norm_num) (by norm_num)
      (roundHalfEven_of_near _ _ (by norm_num) (by norm_num))
      (by norm_num) (by norm_num) (by norm_num))
  have hrevp1s6 : toDouble (13 / (1 / 2)) = JsNum.fin 26 :=
    (toDouble_of_pos _ _ (4) (7318349394477056) (by norm_num) (by norm_num) (by norm_num)
      (roundHalfEven_of_near _ _ (by norm_num) (by norm_num))
      (by norm_num) (by norm_num) (by norm_num))
  have hrevp1inc := Binary64.increaseCoin_steps
    ⟨"bitcoin", "btc", "Bitcoin", JsNum.fin (5404319552844595 / 18014398509481984), JsNum.fin 30⟩
    _ _ _ _ _ _ _ _ _ _ rfl rfl hrevp1s1 hrevp1s2 hrevp1s3 hrevp1s4 hrevp1s5 (by norm_num) hrevp1s6
  have hrevp1 : Binary64.postPortfolio
      [⟨"bitcoin", "btc", "Bitcoin", JsNum.fin (5404319552844595 / 18014398509481984),
      JsNum.fin 30⟩]
      ⟨"bitcoin", "btc", "Bitcoin", BodyValue.num (1 / 5), BodyValue.num 20⟩
      = ⟨200, [⟨"bitcoin", "btc", "Bitcoin", JsNum.fin (1 / 2), JsNum.fin 26⟩]⟩ := by
    rw [Binary64.postPortfolio_eval _ _
        ⟨"bitcoin", "btc", "Bitcoin", JsNum.fin (5404319552844595 / 18014398509481984),
        JsNum.fin 30⟩ _ _ _
      (validAdd_of_fields _ _ _ (by decide) (by decide) (by decide) rfl rfl (by norm_num)
          (by norm_num)) (Binary64.parseFloat_num _ _ hrevp1q) (Binary64.parseFloat_num _ _ hrevp1c)
      (by simp [findCoin_cons]) hrevp1inc (by simp [Binary64.storeAccepts, JsNum.isNaN])
      (by simp [JsNum.isNaN])]
    simp [mutateCoin]
  have hrevp2q : toDouble (1 / 10) = JsNum.fin (3602879701896397 / 36028797018963968) :=
    (toDouble_of_pos _ _ (-4) (7205759403792794) (by norm_num) (by norm_num) (by norm_num)
      (roundHalfEven_of_near _ _ (by norm_num) (by norm_num))
      (by norm_num) (by norm_num) (by norm_num))
  have hrevp2c : toDouble (10) = JsNum.fin 10 :=
    (toDouble_of_pos _ _ (3) (5629499534213120) (by norm_num) (by norm_num) (by norm_num)
      (roundHalfEven_of_near _ _ (by norm_num) (by norm_num))
      (by norm_num) (by norm_num) (by norm_num))
  have hrevp2s1 : toDouble ((1 / 2) + (3602879701896397 / 36028797018963968))
      = JsNum.fin (5404319552844595 / 9007199254740992) :=
    (toDouble_of_pos _ _ (-1) (5404319552844595) (by norm_num) (by norm_num) (by norm_num)
      (roundHalfEven_of_near _ _ (by norm_num) (by norm_num))
      (by norm_num) (by norm_num) (by norm_num))
  have hrevp2s2 : toDouble
      ((5404319552844595 / 9007199254740992) - (3602879701896397 / 36028797018963968))
      = JsNum.fin (1 / 2) :=
    (toDouble_of_pos _ _ (-2) (9007199254740992) (by norm_num) (by norm_num) (by norm_num)
      (by rw [roundHalfEven_of_tie _ (9007199254740991) (by norm_num)]; norm_num)
      (by norm_num) (by norm_num) (by norm_num))
  have hrevp2s3 : toDouble (26 * (1 / 2)) = JsNum.fin 13 :=
    (toDouble_of_pos _ _ (3) (7318349394477056) (by norm_num) (by norm_num) (by norm_num)
      (roundHalfEven_of_near _ _ (by norm_num) (by norm_num))
      (by norm_num) (by norm_num) (by norm_num))
  have hrevp2s4 : toDouble (10 * (3602879701896397 / 36028797018963968)) = JsNum.fin 1 :=
    (toDouble_of_pos _ _ (0) (4503599627370496) (by norm_num) (by norm_num) (by norm_num)
      (roundHalfEven_of_near _ _ (by norm_num) (by norm_num))
      (by norm_num) (by norm_num) (by norm_num))
  have hrevp2s5 : toDouble (13 + 1) = JsNum.fin 14 :=
    (toDouble_of_pos _ _ (3) (7881299347898368) (by norm_num) (by norm_num) (by norm_num)
      (roundHalfEven_of_near _ _ (by norm_num) (by norm_num))
      (by norm_num) (by norm_num) (by norm_num))
  have hrevp2s6 : toDouble (14 / (5404319552844595 / 9007199254740992))
      = JsNum.fin (3283874728290987 / 140737488355328) :=
    (toDouble_of_pos _ _ (4) (6567749456581974) (by norm_num) (by norm_num) (by norm_num)
      (roundHalfEven_of_near _ _ (by norm_num) (by norm_num))
      (by norm_num) (by norm_num) (by norm_num))
  have hrevp2inc := Binary64.increaseCoin_steps
    ⟨"bitcoin", "btc", "Bitcoin", JsNum.fin (1 / 2), JsNum.fin 26⟩
    _ _ _ _ _ _ _ _ _ _ rfl rfl hrevp2s1 hrevp2s2 hrevp2s3 hrevp2s4 hrevp2s5 (by norm_num) hrevp2s6
  have hrevp2 : Binary64.postPortfolio
      [⟨"bitcoin", "btc", "Bitcoin", JsNum.fin (1 / 2), JsNum.fin 26⟩]
      ⟨"bitcoin", "btc", "Bitcoin", BodyValue.num (1 / 10), BodyValue.num 10⟩
      = ⟨200, [⟨"bitcoin", "btc", "Bitcoin", JsNum.fin (5404319552844595 / 9007199254740992),
          JsNum.fin (3283874728290987 / 140737488355328)⟩]⟩ := by
    rw [Binary64.postPortfolio_eval _ _
        ⟨"bitcoin", "btc", "Bitcoin", JsNum.fin (1 / 2), JsNum.fin 26⟩ _ _ _
      (validAdd_of_fields _ _ _ (by decide) (by decide) (by decide) rfl rfl (by norm_num)
          (by norm_num)) (Binary64.parseFloat_num _ _ hrevp2q) (Binary64.parseFloat_num _ _ hrevp2c)
      (by simp [findCoin_cons]) hrevp2inc (by simp [Binary64.storeAccepts, JsNum.isNaN])
      (by simp [JsNum.isNaN])]
    simp [mutateCoin]
  have hrev : Binary64.runAdditions "bitcoin" "btc" "Bitcoin" []
      [(3 / 10, 30), (1 / 5, 20), (1 / 10, 10)]
      = [⟨"bitcoin", "btc", "Bitcoin", JsNum.fin (5404319552844595 / 9007199254740992),
          JsNum.fin (3283874728290987 / 140737488355328)⟩] :=
    ((Binary64.runAdditions_step "bitcoin" "btc" "Bitcoin" _ (3 / 10, 30) _ _ hrevp0).trans
      ((Binary64.runAdditions_step "bitcoin" "btc" "Bitcoin" _ (1 / 5, 20) _ _ hrevp1).trans
      ((Binary64.runAdditions_step "bitcoin" "btc" "Bitcoin" _ (1 / 10, 10) _ _ hrevp2).trans
      rfl)))
  refine ⟨hfwd, hrev, ?_, by norm_num, by norm_num⟩
  exact (List.reverse_perm [(3 / 10, 30), (1 / 5, 20), (1 / 10, 10)])

/-- C2, amended. A non-empty sequence of additions `(q_i, c_i)` with `q_i > 0` and `c_i ≥ 0`,
posted in order for one `coinId` to a portfolio that the store accepts and that holds no
position for it, during which no operation is rounded, leaves exactly one new position, with
amount `Σ q_i` and buyPrice `(Σ q_i * c_i) / (Σ q_i)`; a reordering during which no operation
is rounded either leaves the same portfolio. -/
theorem additions_weighted_mean_when_exact (coinId symbol name : String) (pf : Portfolio)
    (purchases : List (ℚ × ℚ))
    (hid : coinId ≠ "") (hsym : symbol ≠ "") (hname : name ≠ "")
    (hne : purchases ≠ []) (hall : ∀ p ∈ purchases, 0 < p.1 ∧ 0 ≤ p.2)
    (habsent : findCoin pf coinId = none) (hstore : Binary64.storeAccepts pf = true)
    (hexact : Binary64.exactRun purchases) :
    Binary64.runAdditions coinId symbol name pf purchases
      = pf ++ [⟨coinId, symbol, name,
          JsNum.fin (purchases.map (fun p => p.1)).sum,
          JsNum.fin ((purchases.map (fun p => p.1 * p.2)).sum
            / (purchases.map (fun p => p.1)).sum)⟩] ∧
    ∀ reordered : List (ℚ × ℚ), purchases.Perm reordered → Binary64.exactRun reordered →
      Binary64.runAdditions coinId symbol name pf reordered
        = Binary64.runAdditions coinId symbol name pf purchases := by
  have hrun := Binary64.runAdditions_absent coinId symbol name pf purchases hid hsym hname
    hne hall habsent hstore hexact
  refine ⟨hrun, ?_⟩
  intro reordered hperm hexact2
  have hne2 : reordered ≠ [] := by
    intro h
    rw [h] at hperm
    exact hne hperm.eq_nil
  have hall2 : ∀ p ∈ reordered, 0 < p.1 ∧ 0 ≤ p.2 :=
    fun p hmem => hall p (hperm.mem_iff.mpr hmem)
  rw [hrun, Binary64.runAdditions_absent coinId symbol name pf reordered hid hsym hname
      hne2 hall2 habsent hstore hexact2,
    (hperm.map (fun p => p.1)).sum_eq, (hperm.map (fun p => p.1 * p.2)).sum_eq]

/-- Witness of C2: (1, 40000) then (1, 50000) gives amount 2 and buyPrice 45000. -/
theorem additions_weighted_mean_when_exact_witness :
    Binary64.runAdditions "bitcoin" "btc" "Bitcoin" [] [(1, 40000), (1, 50000)]
      = [⟨"bitcoin", "btc", "Bitcoin", JsNum.fin 2, JsNum.fin 45000⟩] := by
  have hexact : Binary64.exactRun [(1, 40000), (1, 50000)] :=
    ⟨(toDouble_congr _ _ 1 (by norm_num) (by norm_num)
      (toDouble_of_pos _ _ (0) (4503599627370496) (by norm_num) (by norm_num) (by norm_num)
      (roundHalfEven_of_near _ _ (by norm_num) (by norm_num))
      (by norm_num) (by norm_num) (by norm_num))),
          (toDouble_congr _ _ 40000 (by norm_num) (by norm_num)
      (toDouble_of_pos _ _ (15) (5497558138880000) (by norm_num) (by norm_num) (by norm_num)
      (roundHalfEven_of_near _ _ (by norm_num) (by norm_num))
      (by norm_num) (by norm_num) (by norm_num))),
     (toDouble_congr _ _ 1 (by norm_num) (by norm_num)
      (toDouble_of_pos _ _ (0) (4503599627370496) (by norm_num) (by norm_num) (by norm_num)
      (roundHalfEven_of_near _ _ (by norm_num) (by norm_num))
      (by norm_num) (by norm_num) (by norm_num))),
          (toDouble_congr _ _ 50000 (by norm_num) (by norm_num)
      (toDouble_of_pos _ _ (15) (6871947673600000) (by norm_num) (by norm_num) (by norm_num)
      (roundHalfEven_of_near _ _ (by norm_num) (by norm_num))
      (by norm_num) (by norm_num) (by norm_num))),
     ⟨(toDouble_congr _ _ 2 (by norm_num) (by norm_num)
      (toDouble_of_pos _ _ (1) (4503599627370496) (by norm_num) (by norm_num) (by norm_num)
      (roundHalfEven_of_near _ _ (by norm_num) (by norm_num))
      (by norm_num) (by norm_num) (by norm_num))),
     (toDouble_congr _ _ 1 (by norm_num) (by norm_num)
      (toDouble_of_pos _ _ (0) (4503599627370496) (by norm_num) (by norm_num) (by norm_num)
      (roundHalfEven_of_near _ _ (by norm_num) (by norm_num))
      (by norm_num) (by norm_num) (by norm_num))),
     (toDouble_congr _ _ 40000 (by norm_num) (by norm_num)
      (toDouble_of_pos _ _ (15) (5497558138880000) (by norm_num) (by norm_num) (by norm_num)
      (roundHalfEven_of_near _ _ (by norm_num) (by norm_num))
      (by norm_num) (by norm_num) (by norm_num))),
     (toDouble_congr _ _ 50000 (by norm_num) (by norm_num)
      (toDouble_of_pos _ _ (15) (6871947673600000) (by norm_num) (by norm_num) (by norm_num)
      (roundHalfEven_of_near _ _ (by norm_num) (by norm_num))
      (by norm_num) (by norm_num) (by norm_num))),
     (toDouble_congr _ _ 90000 (by norm_num) (by norm_num)
      (toDouble_of_pos _ _ (16) (6184752906240000) (by norm_num) (by norm_num) (by norm_num)
      (roundHalfEven_of_near _ _ (by norm_num) (by norm_num))
      (by norm_num) (by norm_num) (by norm_num))),
     (toDouble_congr _ _ 45000 (by norm_num) (by norm_num)
      (toDouble_of_pos _ _ (15) (6184752906240000) (by norm_num) (by norm_num) (by norm_num)
      (roundHalfEven_of_near _ _ (by norm_num) (by norm_num))
      (by norm_num) (by norm_num) (by norm_num)))⟩, trivial⟩
  have h := (additions_weighted_mean_when_exact "bitcoin" "btc" "Bitcoin" []
    [(1, 40000), (1, 50000)] (by decide) (by decide) (by decide) (by simp)
    (by intro p hp; simp at hp; rcases hp with rfl | rfl <;> norm_num) rfl rfl hexact).1
  rw [h]
  norm_num

/-- C3. Valuation of one position by `GET /api/portfolio`: when the price response holds the
price `p` for the position's coin, the priced position is part of the response, has
`currentPrice = p`, `totalValue = amount * p`, `profitLoss = (p - buyPrice) * amount` and
`profitLossPercentage = (p - buyPrice) / buyPrice * 100`, and carries the stored position
unchanged; the response lists the stored positions in their order. For a stored amount `a`
and a cost `b ≠ 0` the three values are the rationals `a * p`, `(p - b) * a` and
`(p - b) / b * 100`. -/
theorem getPortfolio_priced_position (pf : Portfolio) (data : PriceData) (item : Position)
    (p : ℚ) (hids : coinIds pf ≠ "") (hmem : item ∈ pf)
    (hprice : data.price item.coinId = some p) :
    pricePosition data item ∈ (getPortfolio pf data).portfolio ∧
    (getPortfolio pf data).portfolio.map (fun priced => priced.toPosition) = pf ∧
    (pricePosition data item).toPosition = item ∧
    (pricePosition data item).currentPrice = JsNum.fin p ∧
    (pricePosition data item).totalValue = item.amount * JsNum.fin p ∧
    (pricePosition data item).profitLoss = (JsNum.fin p - item.buyPrice) * item.amount ∧
    (pricePosition data item).profitLossPercentage
      = ((JsNum.fin p - item.buyPrice) / item.buyPrice) * JsNum.fin 100 ∧
    (∀ a b : ℚ, item.amount = JsNum.fin a → item.buyPrice = JsNum.fin b → b ≠ 0 →
      (pricePosition data item).totalValue = JsNum.fin (a * p) ∧
      (pricePosition data item).profitLoss = JsNum.fin ((p - b) * a) ∧
      (pricePosition data item).profitLossPercentage = JsNum.fin ((p - b) / b * 100)) := by
  have hport : (getPortfolio pf data).portfolio = pf.map (pricePosition data) := by
    simp [getPortfolio, hids]
  refine ⟨?_, ?_, rfl, ?_, ?_, ?_, ?_, ?_⟩
  · rw [hport]; exact List.mem_map_of_mem _ hmem
  · rw [hport, List.map_map]
    have hid : (fun priced : PricedPosition => priced.toPosition) ∘ pricePosition data = id :=
      funext (fun _ => rfl)
    rw [hid, List.map_id]
  · simp [pricePosition, hprice, orZero_some]
  · simp [pricePosition, hprice, orZero_some]
  · simp [pricePosition, hprice, orZero_some]
  · simp [pricePosition, hprice, orZero_some]
  · intro a b ha hb hne
    simp [pricePosition, hprice, orZero_some, ha, hb, JsNum.fin_div_fin _ _ hne]

/-- Witness of C3: 2 units bought at 100, priced at 150. -/
theorem getPortfolio_priced_position_witness :
    (pricePosition ⟨fun _ => some 150, fun _ => none⟩
        ⟨"bitcoin", "btc", "Bitcoin", JsNum.fin 2, JsNum.fin 100⟩).totalValue = JsNum.fin 300 ∧
    (pricePosition ⟨fun _ => some 150, fun _ => none⟩
        ⟨"bitcoin", "btc", "Bitcoin", JsNum.fin 2, JsNum.fin 100⟩).profitLoss = JsNum.fin 100 ∧
    (pricePosition ⟨fun _ => some 150, fun _ => none⟩
        ⟨"bitcoin", "btc", "Bitcoin", JsNum.fin 2, JsNum.fin 100⟩).profitLossPercentage
      = JsNum.fin 50 := by
  have h := (getPortfolio_priced_position
    [⟨"bitcoin", "btc", "Bitcoin", JsNum.fin 2, JsNum.fin 100⟩]
    ⟨fun _ => some 150, fun _ => none⟩
    ⟨"bitcoin", "btc", "Bitcoin", JsNum.fin 2, JsNum.fin 100⟩ 150
    (by decide) (List.mem_singleton.mpr rfl) rfl).2.2.2.2.2.2.2 2 100 rfl rfl (by norm_num)
  refine ⟨?_, ?_, ?_⟩
  · rw [h.1]; norm_num
  · rw [h.2.1]; norm_num
  · rw [h.2.2]; norm_num

/-- C4, as stated, fails: the position stored by the accepted `POST /api/portfolio` whose
amount is the numeral 1 followed by 400 zeros has the amount `Infinity`; without a price in
the response the summary has `totalValue = NaN`, which is not 0, and
`totalProfitLoss = -Infinity`; the formula `totalProfitLoss / (totalValue - totalProfitLoss)
* 100` is `NaN`, but the summary reports 0. -/
theorem summary_of_infinite_amount :
    Binary64.postPortfolio []
        ⟨"bitcoin", "btc", "Bitcoin", BodyValue.num (10 ^ 400), BodyValue.num 5⟩
      = ⟨200, [⟨"bitcoin", "btc", "Bitcoin", JsNum.posInf, JsNum.fin 5⟩]⟩ ∧
    (getPortfolio [⟨"bitcoin", "btc", "Bitcoin", JsNum.posInf, JsNum.fin 5⟩]
        ⟨fun _ => none, fun _ => none⟩).summary = ⟨JsNum.nan, JsNum.negInf, JsNum.fin 0⟩ ∧
    (Binary64.getPortfolio [⟨"bitcoin", "btc", "Bitcoin", JsNum.posInf, JsNum.fin 5⟩]
        ⟨fun _ => none, fun _ => none⟩).summary = ⟨JsNum.nan, JsNum.negInf, JsNum.fin 0⟩ ∧
    JsNum.strictEq JsNum.nan (JsNum.fin 0) = false ∧
    (JsNum.negInf / (JsNum.nan - JsNum.negInf)) * JsNum.fin 100 = JsNum.nan := by
  have hids : coinIds [⟨"bitcoin", "btc", "Bitcoin", JsNum.posInf, JsNum.fin 5⟩] ≠ "" := by
    decide
  have hfive : toDouble 5 = JsNum.fin 5 :=
    (toDouble_of_pos _ _ (2) (5629499534213120) (by norm_num) (by norm_num) (by norm_num)
      (roundHalfEven_of_near _ _ (by norm_num) (by norm_num))
      (by norm_num) (by norm_num) (by norm_num))
  have hneg : toDouble (-5) = JsNum.fin (-5) := by
    rw [toDouble_neg, hfive, JsNum.neg]
  have hsign : ¬ ((5 : ℚ) < 0) := by norm_num
  refine ⟨Binary64.postPortfolio_overflow, ?_, ?_, rfl, rfl⟩
  · simp [getPortfolio, hids, summarize, pricePosition, orZero, JsNum.mul_def, JsNum.mul,
      JsNum.infTimes, JsNum.sub_def, JsNum.add_def, JsNum.add, JsNum.neg, JsNum.lt, hsign]
  · simp [Binary64.getPortfolio, hids, Binary64.summarize, Binary64.pricePosition, orZero,
      JsNum.rnd_fin, toDouble_zero, hneg, JsNum.mul_def, JsNum.mul, JsNum.infTimes,
      JsNum.add_def, JsNum.add, JsNum.rnd, JsNum.lt, hsign]

/-- C4, amended. The summary of `GET /api/portfolio`: `totalValue` is the sum of the priced
positions' `totalValue`, `totalProfitLoss` the sum of their `profitLoss`, and
`totalProfitLossPercentage` is `totalProfitLoss / (totalValue - totalProfitLoss) * 100` when
`totalValue > 0` and 0 otherwise; in particular, for a total value `t ≥ 0` it is that formula
unless `t = 0`, where it is 0. The empty portfolio gives `portfolio = []` and a summary of
zeros, and one position of amount 2 bought at 100 and priced at 150 gives 300, 100 and 50. -/
theorem getPortfolio_summary (pf : Portfolio) (data : PriceData) :
    (getPortfolio pf data).summary.totalValue
      = ((getPortfolio pf data).portfolio.map (fun item => item.totalValue)).sum ∧
    (getPortfolio pf data).summary.totalProfitLoss
      = ((getPortfolio pf data).portfolio.map (fun item => item.profitLoss)).sum ∧
    (getPortfolio pf data).summary.totalProfitLossPercentage
      = (if JsNum.lt (JsNum.fin 0) (getPortfolio pf data).summary.totalValue then
          ((getPortfolio pf data).summary.totalProfitLoss
            / ((getPortfolio pf data).summary.totalValue
                - (getPortfolio pf data).summary.totalProfitLoss)) * JsNum.fin 100
        else JsNum.fin 0) ∧
    (∀ t : ℚ, (getPortfolio pf data).summary.totalValue = JsNum.fin t → 0 ≤ t →
      (getPortfolio pf data).summary.totalProfitLossPercentage
        = (if t = 0 then JsNum.fin 0
          else ((getPortfolio pf data).summary.totalProfitLoss
            / ((getPortfolio pf data).summary.totalValue
                - (getPortfolio pf data).summary.totalProfitLoss)) * JsNum.fin 100)) ∧
    getPortfolio [] data = ⟨[], ⟨JsNum.fin 0, JsNum.fin 0, JsNum.fin 0⟩⟩ ∧
    (getPortfolio [⟨"bitcoin", "btc", "Bitcoin", JsNum.fin 2, JsNum.fin 100⟩]
        ⟨fun _ => some 150, fun _ => none⟩).summary
      = ⟨JsNum.fin 300, JsNum.fin 100, JsNum.fin 50⟩ := by
  have hpct : (getPortfolio pf data).summary.totalProfitLossPercentage
      = (if JsNum.lt (JsNum.fin 0) (getPortfolio pf data).summary.totalValue then
          ((getPortfolio pf data).summary.totalProfitLoss
            / ((getPortfolio pf data).summary.totalValue
                - (getPortfolio pf data).summary.totalProfitLoss)) * JsNum.fin 100
        else JsNum.fin 0) := by
    rw [getPortfolio_summary_eq]
    exact summarize_percentage _
  refine ⟨?_, ?_, hpct, ?_, ?_, ?_⟩
  · rw [getPortfolio_summary_eq]; exact summarize_totalValue _
  · rw [getPortfolio_summary_eq]; exact summarize_totalProfitLoss _
  · intro t ht hnn
    rw [hpct, ht]
    by_cases h0 : t = 0
    · simp [h0, JsNum.lt]
    · have hpos : 0 < t := lt_of_le_of_ne hnn (Ne.symm h0)
      simp [h0, JsNum.lt, hpos]
  · have hids : coinIds [] = "" := by decide
    simp [getPortfolio, hids]
  · have hids : coinIds [⟨"bitcoin", "btc", "Bitcoin", JsNum.fin 2, JsNum.fin 100⟩] ≠ "" := by
      decide
    simp only [getPortfolio, hids, ne_eq, not_false_eq_true, if_true, List.map, summarize,
      List.foldl, pricePosition, orZero_some, JsNum.fin_mul_fin, JsNum.fin_sub_fin,
      JsNum.fin_add_fin, JsNum.lt]
    norm_num [JsNum.fin_div_fin]

/-- C5, as stated, fails: with balance 100 the amount 1/2 is greater than 0 and not greater
than the balance, yet the request is answered with 400 and the balance stays 100, not
100 - 1/2. -/
theorem postWithdraw_below_minimum_rejected :
    (0 : ℚ) < 1 / 2 ∧ (1 / 2 : ℚ) ≤ 100 ∧
    (postWithdraw ⟨JsNum.fin 100, "INR"⟩ ⟨BodyValue.num (1 / 2)⟩).status = 400 ∧
    (postWithdraw ⟨JsNum.fin 100, "INR"⟩ ⟨BodyValue.num (1 / 2)⟩).state.balance = JsNum.fin 100 ∧
    (postWithdraw ⟨JsNum.fin 100, "INR"⟩ ⟨BodyValue.num (1 / 2)⟩).state.balance
      ≠ JsNum.fin (100 - 1 / 2) := by
  have hv : validWithdraw ⟨BodyValue.num (1 / 2)⟩ = false := by
    simp [validWithdraw, isFloatMin]
    norm_num
  have hpost : postWithdraw ⟨JsNum.fin 100, "INR"⟩ ⟨BodyValue.num (1 / 2)⟩
      = ⟨400, ⟨JsNum.fin 100, "INR"⟩⟩ := by
    unfold postWithdraw
    rw [if_neg (by rw [hv]; decide)]
  refine ⟨by norm_num, by norm_num, ?_, ?_, ?_⟩
  · rw [hpost]
  · rw [hpost]
  · rw [hpost]
    norm_num

/-- C5, amended. `POST /api/payments/withdraw` with a numeric amount: an amount below 1 fails
validation with 400 and the wallet is unchanged; for an amount of at least 1, if the amount is
greater than the balance the request fails with 400 and the wallet is unchanged, and otherwise
(the amount is at most the balance, equality included) it succeeds with 200, the new balance
is `balance - amount` and the currency is kept. -/
theorem postWithdraw_all_or_nothing (w : Wallet) (req : WithdrawRequest) (amount balance : ℚ)
    (hamount : req.amount = BodyValue.num amount) (hbalance : w.balance = JsNum.fin balance) :
    (amount < 1 → postWithdraw w req = ⟨400, w⟩) ∧
    (1 ≤ amount → balance < amount → postWithdraw w req = ⟨400, w⟩) ∧
    (1 ≤ amount → amount ≤ balance →
      postWithdraw w req = ⟨200, ⟨JsNum.fin (balance - amount), w.currency⟩⟩) := by
  refine ⟨?_, ?_, ?_⟩
  · intro h
    have hv : ¬ (1 ≤ amount) := not_le.mpr h
    simp [postWithdraw, validWithdraw, isFloatMin, hamount, hv]
  · intro h1 hlt
    simp [postWithdraw, validWithdraw, isFloatMin, hamount, h1, parseFloat, hbalance,
      JsNum.lt, hlt]
  · intro h1 hle
    have hlt : ¬ (balance < amount) := not_lt.mpr hle
    simp [postWithdraw, validWithdraw, isFloatMin, hamount, h1, parseFloat, hbalance,
      JsNum.lt, hlt]

/-- Witness of C5: with balance 100 a debit of 150 is rejected and the balance stays 100; a
debit of 50 then gives balance 50. -/
theorem postWithdraw_all_or_nothing_witness :
    postWithdraw ⟨JsNum.fin 100, "INR"⟩ ⟨BodyValue.num 150⟩ = ⟨400, ⟨JsNum.fin 100, "INR"⟩⟩ ∧
    postWithdraw (postWithdraw ⟨JsNum.fin 100, "INR"⟩ ⟨BodyValue.num 150⟩).state
        ⟨BodyValue.num 50⟩ = ⟨200, ⟨JsNum.fin 50, "INR"⟩⟩ := by
  have h150 := (postWithdraw_all_or_nothing ⟨JsNum.fin 100, "INR"⟩ ⟨BodyValue.num 150⟩
    150 100 rfl rfl).2.1 (by norm_num) (by norm_num)
  have h50 := (postWithdraw_all_or_nothing ⟨JsNum.fin 100, "INR"⟩ ⟨BodyValue.num 50⟩
    50 100 rfl rfl).2.2 (by norm_num) (by norm_num)
  refine ⟨h150, ?_⟩
  rw [h150, h50]
  norm_num

/-- C6. Wallet invariant: from a wallet whose balance is a number that is at least 0, after
every sequence of verify and withdraw requests, accepted or rejected, the balance is a number
that is at least 0. -/
theorem runWallet_balance_nonneg (hmacSha256Hex : String → String → String) (secret : String)
    (reqs : List WalletRequest) (w : Wallet) (h : JsNum.isNonNeg w.balance = true) :
    JsNum.isNonNeg (runWallet hmacSha256Hex secret w reqs).balance = true := by
  induction reqs generalizing w with
  | nil => simpa [runWallet] using h
  | cons req rest ih =>
      have hstep : JsNum.isNonNeg (stepWallet hmacSha256Hex secret w req).state.balance
          = true := by
        cases req with
        | verify r => exact postVerify_isNonNeg hmacSha256Hex secret w r h
        | withdraw r => exact postWithdraw_isNonNeg w r h
      have hrec := ih _ hstep
      simpa [runWallet] using hrec

/-- Witness of C6: an empty wallet, a top-up of 100 with its signature, a withdrawal of 150
that is rejected and a withdrawal of 50. -/
theorem runWallet_balance_nonneg_witness :
    JsNum.isNonNeg (runWallet (fun key message => key ++ message) "k" ⟨JsNum.fin 0, "INR"⟩
      [WalletRequest.verify ⟨"o1", "p1", "ko1|p1", BodyValue.num 100⟩,
       WalletRequest.withdraw ⟨BodyValue.num 150⟩,
       WalletRequest.withdraw ⟨BodyValue.num 50⟩]).balance = true :=
  runWallet_balance_nonneg (fun key message => key ++ message) "k" _ ⟨JsNum.fin 0, "INR"⟩
    (by simp [JsNum.isNonNeg])

/-- C7. `POST /api/payments/verify` on a request that passes validation: if the signature
differs from the HMAC of `orderId + '|' + paymentId` under the secret, the answer is 400 and
the wallet is unchanged; if it equals that HMAC, the answer is 200, the new balance is
`balance + amount` and the currency is kept; so the wallet changes only when the signature
equals the HMAC. -/
theorem postVerify_signature_gate (hmacSha256Hex : String → String → String) (secret : String)
    (w : Wallet) (req : VerifyRequest) (amount : ℚ)
    (hvalid : validVerify req = true) (hamount : req.amount = BodyValue.num amount) :
    (req.signature ≠ hmacSha256Hex secret (req.orderId ++ "|" ++ req.paymentId) →
      postVerify hmacSha256Hex secret w req = ⟨400, w⟩) ∧
    (req.signature = hmacSha256Hex secret (req.orderId ++ "|" ++ req.paymentId) →
      postVerify hmacSha256Hex secret w req
        = ⟨200, ⟨w.balance + JsNum.fin amount, w.currency⟩⟩) ∧
    ((postVerify hmacSha256Hex secret w req).state ≠ w →
      req.signature = hmacSha256Hex secret (req.orderId ++ "|" ++ req.paymentId)) := by
  have hbad : req.signature ≠ hmacSha256Hex secret (req.orderId ++ "|" ++ req.paymentId) →
      postVerify hmacSha256Hex secret w req = ⟨400, w⟩ := by
    intro hsig
    simp [postVerify, hvalid, expectedSignature, hsig]
  refine ⟨hbad, ?_, ?_⟩
  · intro hsig
    simp [postVerify, hvalid, expectedSignature, ← hsig, hamount, parseFloat]
  · intro hchanged
    by_contra hsig
    rw [hbad hsig] at hchanged
    exact hchanged rfl

/-- Witness of C7: a top-up of 100 on balance 5, once with the expected signature and once
with another one. -/
theorem postVerify_signature_gate_witness :
    postVerify (fun key message => key ++ message) "k" ⟨JsNum.fin 5, "INR"⟩
        ⟨"o1", "p1", "ko1|p1", BodyValue.num 100⟩ = ⟨200, ⟨JsNum.fin 105, "INR"⟩⟩ ∧
    postVerify (fun key message => key ++ message) "k" ⟨JsNum.fin 5, "INR"⟩
        ⟨"o1", "p1", "forged", BodyValue.num 100⟩ = ⟨400, ⟨JsNum.fin 5, "INR"⟩⟩ := by
  have hgood := (postVerify_signature_gate (fun key message => key ++ message) "k"
    ⟨JsNum.fin 5, "INR"⟩ ⟨"o1", "p1", "ko1|p1", BodyValue.num 100⟩ 100
    (by simp [validVerify, notEmpty, isFloatMin]) rfl).2.1 (by decide)
  have hbad := (postVerify_signature_gate (fun key message => key ++ message) "k"
    ⟨JsNum.fin 5, "INR"⟩ ⟨"o1", "p1", "forged", BodyValue.num 100⟩ 100
    (by simp [validVerify, notEmpty, isFloatMin]) rfl).1 (by decide)
  refine ⟨?_, hbad⟩
  rw [hgood]
  norm_num

/-- C8. `POST /api/portfolio` on a new asset: when no stored position has the request's
`coinId` and the request is accepted, the answer is 200 and the stored portfolio is the old
one, unchanged, followed by exactly one position with the request's `coinId`, `symbol`,
`name`, `amount` and `buyPrice`. -/
theorem postPortfolio_new_position (pf : Portfolio) (req : AddRequest) (quantity unitCost : ℚ)
    (hvalid : validAdd req = true)
    (hq : req.amount = BodyValue.num quantity) (hc : req.buyPrice = BodyValue.num unitCost)
    (habsent : ∀ item ∈ pf, item.coinId ≠ req.coinId) :
    postPortfolio pf req
      = ⟨200, pf ++ [⟨req.coinId, req.symbol, req.name,
                      JsNum.fin quantity, JsNum.fin unitCost⟩]⟩ ∧
    (postPortfolio pf req).state.take pf.length = pf ∧
    (postPortfolio pf req).state.length = pf.length + 1 := by
  have hpost := postPortfolio_of_absent pf req hvalid
    ((findCoin_eq_none_iff pf req.coinId).mpr habsent)
  rw [hq, hc] at hpost
  refine ⟨hpost, ?_, ?_⟩
  · rw [hpost]; simp
  · rw [hpost]; simp

/-- Witness of C8: ethereum added to a portfolio that holds bitcoin. -/
theorem postPortfolio_new_position_witness :
    postPortfolio [⟨"bitcoin", "btc", "Bitcoin", JsNum.fin 1, JsNum.fin 40000⟩]
        ⟨"ethereum", "eth", "Ethereum", BodyValue.num 3, BodyValue.num 2000⟩
      = ⟨200, [⟨"bitcoin", "btc", "Bitcoin", JsNum.fin 1, JsNum.fin 40000⟩,
               ⟨"ethereum", "eth", "Ethereum", JsNum.fin 3, JsNum.fin 2000⟩]⟩ :=
  (postPortfolio_new_position [⟨"bitcoin", "btc", "Bitcoin", JsNum.fin 1, JsNum.fin 40000⟩]
    ⟨"ethereum", "eth", "Ethereum", BodyValue.num 3, BodyValue.num 2000⟩ 3 2000
    (by simp [validAdd, notEmpty, isFloatMin]) rfl rfl
    (by intro item hitem; rw [List.mem_singleton.mp hitem]; decide)).1

/-- C9. Position uniqueness: from the empty portfolio, after every sequence of `POST`, `PUT`
and `DELETE` requests to `/api/portfolio` the stored `coinId`s are pairwise distinct, so at
most one stored position carries any given `coinId`. -/
theorem runPortfolio_unique_coinId (reqs : List PortfolioRequest) :
    ((runPortfolio [] reqs).map (fun item => item.coinId)).Nodup ∧
    ∀ coinId : String,
      ((runPortfolio [] reqs).filter (fun item => decide (item.coinId = coinId))).length
        ≤ 1 := by
  have h := runPortfolio_nodup reqs [] List.nodup_nil
  exact ⟨h, fun coinId => filter_coinId_length_le_one _ coinId h⟩

/-- C10 fails on the code: from the empty portfolio, a `POST /api/portfolio` whose amount is the
numeral 1 followed by 400 zeros passes the validators and is answered with 200, and the
amount of the stored position is `Infinity`, which is not a finite number. (The `NaN` that a
second addition of amount 0 computes as `0 / 0` is not stored: the save is refused, the answer
is 500 and the position stays as it was.) -/
theorem portfolio_stores_infinite_amount :
    validAdd ⟨"bitcoin", "btc", "Bitcoin", BodyValue.num (10 ^ 400), BodyValue.num 5⟩ = true ∧
    Binary64.postPortfolio []
        ⟨"bitcoin", "btc", "Bitcoin", BodyValue.num (10 ^ 400), BodyValue.num 5⟩
      = ⟨200, [⟨"bitcoin", "btc", "Bitcoin", JsNum.posInf, JsNum.fin 5⟩]⟩ ∧
    (Binary64.postPortfolio []
        ⟨"bitcoin", "btc", "Bitcoin", BodyValue.num (10 ^ 400), BodyValue.num 5⟩).state.map
        (fun item => JsNum.isFinite item.amount) = [false] ∧
    Binary64.postPortfolio [⟨"bitcoin", "btc", "Bitcoin", JsNum.fin 0, JsNum.fin 5⟩]
        ⟨"bitcoin", "btc", "Bitcoin", BodyValue.num 0, BodyValue.num 5⟩
      = ⟨500, [⟨"bitcoin", "btc", "Bitcoin", JsNum.fin 0, JsNum.fin 5⟩]⟩ := by
  refine ⟨?_, Binary64.postPortfolio_overflow, ?_, ?_⟩
  · exact validAdd_of_fields _ (10 ^ 400) 5 (by decide) (by decide) (by decide) rfl rfl
      (by positivity) (by norm_num)
  · rw [Binary64.postPortfolio_overflow]
    rfl
  · have hcost : toDouble 5 = JsNum.fin 5 :=
      (toDouble_of_pos _ _ (2) (5629499534213120) (by norm_num) (by norm_num) (by norm_num)
      (roundHalfEven_of_near _ _ (by norm_num) (by norm_num))
      (by norm_num) (by norm_num) (by norm_num))
    have hinc : Binary64.increaseCoin (JsNum.fin 0) (JsNum.fin 5)
        ⟨"bitcoin", "btc", "Bitcoin", JsNum.fin 0, JsNum.fin 5⟩
        = ⟨"bitcoin", "btc", "Bitcoin", JsNum.fin 0, JsNum.nan⟩ := by
      simp [Binary64.increaseCoin, JsNum.rnd_fin, toDouble_zero, JsNum.div_def, JsNum.div,
        JsNum.rnd]
    rw [Binary64.postPortfolio_saves_held _ _
      ⟨"bitcoin", "btc", "Bitcoin", JsNum.fin 0, JsNum.fin 5⟩
      (validAdd_of_fields _ 0 5 (by decide) (by decide) (by decide) rfl rfl
        (by norm_num) (by norm_num)) (by simp [findCoin_cons])]
    show Binary64.save _ (mutateCoin "bitcoin"
      (Binary64.increaseCoin (Binary64.parseFloat (BodyValue.num 0))
        (Binary64.parseFloat (BodyValue.num 5))) _) = _
    rw [Binary64.parseFloat_eq, Binary64.parseFloat_eq, toDouble_zero, hcost]
    simp [mutateCoin, hinc, Binary64.save, Binary64.storeAccepts, JsNum.isNaN]

/-- C11 fails on the code: a `POST /api/portfolio` with amount 0 (which is `≤ 0`) and
buyPrice 5 passes validation, is answered with 200 and changes the portfolio. -/
theorem postPortfolio_accepts_zero_amount :
    (0 : ℚ) ≤ 0 ∧
    validAdd ⟨"bitcoin", "btc", "Bitcoin", BodyValue.num 0, BodyValue.num 5⟩ = true ∧
    postPortfolio [] ⟨"bitcoin", "btc", "Bitcoin", BodyValue.num 0, BodyValue.num 5⟩
      = ⟨200, [⟨"bitcoin", "btc", "Bitcoin", JsNum.fin 0, JsNum.fin 5⟩]⟩ := by
  have hv : validAdd ⟨"bitcoin", "btc", "Bitcoin", BodyValue.num 0, BodyValue.num 5⟩ = true := by
    simp [validAdd, notEmpty, isFloatMin]
  exact ⟨le_refl 0, hv, postPortfolio_of_absent [] _ hv rfl⟩

/-- C12. `PUT /api/portfolio/:coinId` on a request that passes validation: if no stored
position has the `coinId` the answer is 404 and the portfolio is unchanged, and the answer
is 404 only then; otherwise the answer is 200, the first position with the `coinId` is
replaced in place and every other position is unchanged; the replaced position keeps
`coinId`, `symbol` and `name`, its amount is the supplied amount if one is supplied and the
old amount otherwise, and its buyPrice is the supplied buyPrice if one is supplied and the
old buyPrice otherwise. -/
theorem putPortfolio_overwrite (pf : Portfolio) (req : EditRequest)
    (hvalid : validEdit req = true) :
    ((∀ item ∈ pf, item.coinId ≠ req.coinId) → putPortfolio pf req = ⟨404, pf⟩) ∧
    ((putPortfolio pf req).status = 404 → ∀ item ∈ pf, item.coinId ≠ req.coinId) ∧
    (∀ (before : Portfolio) (e : Position) (after : Portfolio),
      pf = before ++ e :: after → (∀ item ∈ before, item.coinId ≠ req.coinId) →
      e.coinId = req.coinId →
      putPortfolio pf req
          = ⟨200, before ++ overwriteCoin req.amount req.buyPrice e :: after⟩ ∧
        (overwriteCoin req.amount req.buyPrice e).coinId = e.coinId ∧
        (overwriteCoin req.amount req.buyPrice e).symbol = e.symbol ∧
        (overwriteCoin req.amount req.buyPrice e).name = e.name ∧
        (req.amount = BodyValue.missing →
          (overwriteCoin req.amount req.buyPrice e).amount = e.amount) ∧
        (∀ q : ℚ, req.amount = BodyValue.num q →
          (overwriteCoin req.amount req.buyPrice e).amount = JsNum.fin q) ∧
        (req.buyPrice = BodyValue.missing →
          (overwriteCoin req.amount req.buyPrice e).buyPrice = e.buyPrice) ∧
        (∀ c : ℚ, req.buyPrice = BodyValue.num c →
          (overwriteCoin req.amount req.buyPrice e).buyPrice = JsNum.fin c)) := by
  have hheld : ∀ (before : Portfolio) (e : Position) (after : Portfolio),
      pf = before ++ e :: after → (∀ item ∈ before, item.coinId ≠ req.coinId) →
      e.coinId = req.coinId →
      putPortfolio pf req
        = ⟨200, before ++ overwriteCoin req.amount req.buyPrice e :: after⟩ := by
    intro before e after hsplit hbefore he
    have hfind := findCoin_split req.coinId before e after hbefore he
    simp only [putPortfolio, hvalid, if_true, hsplit, hfind]
    rw [mutateCoin_split req.coinId _ before e after hbefore he]
  refine ⟨?_, ?_, ?_⟩
  · intro habsent
    simp [putPortfolio, hvalid, (findCoin_eq_none_iff pf req.coinId).mpr habsent]
  · intro hstatus
    by_contra hne
    push_neg at hne
    obtain ⟨before, e, after, hsplit, hbefore, he⟩ :=
      exists_split_of_mem_coinId req.coinId pf hne
    rw [hheld before e after hsplit hbefore he] at hstatus
    simp at hstatus
  · intro before e after hsplit hbefore he
    refine ⟨hheld before e after hsplit hbefore he, overwriteCoin_coinId _ _ _, ?_, ?_,
      ?_, ?_, ?_, ?_⟩
    · unfold overwriteCoin; split_ifs <;> rfl
    · unfold overwriteCoin; split_ifs <;> rfl
    · intro h
      by_cases hb : req.buyPrice = BodyValue.missing <;> simp [overwriteCoin, h, hb]
    · intro q h
      by_cases hb : req.buyPrice = BodyValue.missing <;>
        simp [overwriteCoin, h, hb, parseFloat]
    · intro h
      by_cases ha : req.amount = BodyValue.missing <;> simp [overwriteCoin, h, ha]
    · intro c h
      by_cases ha : req.amount = BodyValue.missing <;>
        simp [overwriteCoin, h, ha, parseFloat]

/-- Witness of C12: the amount of the second of three positions is set to 7, its buyPrice is
not supplied. -/
theorem putPortfolio_overwrite_witness :
    putPortfolio [⟨"bitcoin", "btc", "Bitcoin", JsNum.fin 1, JsNum.fin 40000⟩,
                  ⟨"ethereum", "eth", "Ethereum", JsNum.fin 3, JsNum.fin 2000⟩,
                  ⟨"solana", "sol", "Solana", JsNum.fin 9, JsNum.fin 20⟩]
        ⟨"ethereum", BodyValue.num 7, BodyValue.missing⟩
      = ⟨200, [⟨"bitcoin", "btc", "Bitcoin", JsNum.fin 1, JsNum.fin 40000⟩,
               ⟨"ethereum", "eth", "Ethereum", JsNum.fin 7, JsNum.fin 2000⟩,
               ⟨"solana", "sol", "Solana", JsNum.fin 9, JsNum.fin 20⟩]⟩ := by
  have h := ((putPortfolio_overwrite
    [⟨"bitcoin", "btc", "Bitcoin", JsNum.fin 1, JsNum.fin 40000⟩,
     ⟨"ethereum", "eth", "Ethereum", JsNum.fin 3, JsNum.fin 2000⟩,
     ⟨"solana", "sol", "Solana", JsNum.fin 9, JsNum.fin 20⟩]
    ⟨"ethereum", BodyValue.num 7, BodyValue.missing⟩
    (by simp [validEdit, optionalFloatMin, isFloatMin])).2.2
    [⟨"bitcoin", "btc", "Bitcoin", JsNum.fin 1, JsNum.fin 40000⟩]
    ⟨"ethereum", "eth", "Ethereum", JsNum.fin 3, JsNum.fin 2000⟩
    [⟨"solana", "sol", "Solana", JsNum.fin 9, JsNum.fin 20⟩] rfl
    (by intro item hitem; rw [List.mem_singleton.mp hitem]; decide) rfl).1
  rw [h]
  simp [overwriteCoin, parseFloat]

/-- C13. `DELETE /api/portfolio/:coinId` always answers 200; the stored portfolio afterwards is
the old one filtered to the positions whose `coinId` differs from the given one, so it holds
exactly those positions, in their original order; when no position has the `coinId` the
portfolio is unchanged, and a second removal changes nothing more. -/
theorem deletePortfolio_filter (pf : Portfolio) (coinId : String) :
    (deletePortfolio pf coinId).status = 200 ∧
    (deletePortfolio pf coinId).state
      = pf.filter (fun item => decide (item.coinId ≠ coinId)) ∧
    (∀ item : Position, item ∈ (deletePortfolio pf coinId).state
      ↔ item ∈ pf ∧ item.coinId ≠ coinId) ∧
    List.Sublist (deletePortfolio pf coinId).state pf ∧
    ((∀ item ∈ pf, item.coinId ≠ coinId) → (deletePortfolio pf coinId).state = pf) ∧
    deletePortfolio (deletePortfolio pf coinId).state coinId = deletePortfolio pf coinId := by
  refine ⟨rfl, rfl, ?_, ?_, ?_, ?_⟩
  · intro item
    simp [deletePortfolio, List.mem_filter]
  · exact List.filter_sublist pf
  · intro h
    simp only [deletePortfolio]
    rw [List.filter_eq_self]
    intro item hitem
    simpa using h item hitem
  · simp [deletePortfolio, List.filter_filter]

/-- C14, as stated, fails: the position stored by the accepted `POST /api/portfolio` whose
amount is the numeral 1 followed by 400 zeros has the amount `Infinity`; without a price in
the response its `currentPrice` is 0 and its `totalValue` is `Infinity * 0 = NaN`, not 0. -/
theorem missing_price_infinite_amount :
    Binary64.postPortfolio []
        ⟨"bitcoin", "btc", "Bitcoin", BodyValue.num (10 ^ 400), BodyValue.num 5⟩
      = ⟨200, [⟨"bitcoin", "btc", "Bitcoin", JsNum.posInf, JsNum.fin 5⟩]⟩ ∧
    (Binary64.pricePosition ⟨fun _ => none, fun _ => none⟩
        ⟨"bitcoin", "btc", "Bitcoin", JsNum.posInf, JsNum.fin 5⟩).currentPrice = JsNum.fin 0 ∧
    (Binary64.pricePosition ⟨fun _ => none, fun _ => none⟩
        ⟨"bitcoin", "btc", "Bitcoin", JsNum.posInf, JsNum.fin 5⟩).totalValue = JsNum.nan := by
  refine ⟨Binary64.postPortfolio_overflow, ?_, ?_⟩
  · simp [Binary64.pricePosition, orZero, JsNum.rnd_fin, toDouble_zero]
  · simp [Binary64.pricePosition, orZero, JsNum.rnd_fin, toDouble_zero, JsNum.mul_def,
      JsNum.mul, JsNum.infTimes, JsNum.rnd]

/-- C14, amended. A missing price defaults to zero: for a stored position whose amount is a
finite number (and whose cost is a double, an infinity or `NaN`, as stored values are) and
whose coin has no price in the response, or the price 0, `GET /api/portfolio` reports
`currentPrice = 0`, `totalValue = 0` and `profitLoss = -(amount * buyPrice)`, the product
being the double one; where the product `a * b` is not rounded the profit is `-(a * b)`. -/
theorem missing_price_finite_amount (pf : Portfolio) (data : PriceData) (item : Position)
    (a : ℚ) (hids : coinIds pf ≠ "") (hmem : item ∈ pf)
    (hprice : data.price item.coinId = none ∨ data.price item.coinId = some 0)
    (hamount : item.amount = JsNum.fin a) (hcost : JsNum.rnd item.buyPrice = item.buyPrice) :
    Binary64.pricePosition data item ∈ (Binary64.getPortfolio pf data).portfolio ∧
    (Binary64.pricePosition data item).currentPrice = JsNum.fin 0 ∧
    (Binary64.pricePosition data item).totalValue = JsNum.fin 0 ∧
    (Binary64.pricePosition data item).profitLoss
      = JsNum.neg (JsNum.rnd (item.amount * item.buyPrice)) ∧
    (∀ b : ℚ, item.buyPrice = JsNum.fin b → toDouble (a * b) = JsNum.fin (a * b) →
      (Binary64.pricePosition data item).profitLoss = JsNum.fin (-(a * b))) := by
  obtain ⟨hcurrent, hvalue, hloss⟩ :=
    Binary64.pricePosition_of_no_price data item a hprice hamount hcost
  have hport : (Binary64.getPortfolio pf data).portfolio
      = pf.map (Binary64.pricePosition data) := by
    simp [Binary64.getPortfolio, hids]
  refine ⟨?_, hcurrent, hvalue, hloss, ?_⟩
  · rw [hport]
    exact List.mem_map_of_mem _ hmem
  · intro b hb hexact
    rw [hloss, hamount, hb, JsNum.fin_mul_fin, JsNum.rnd_fin, hexact, JsNum.neg]

/-- Witness of C14: 2 units bought at 100, with no price in the response. -/
theorem missing_price_finite_amount_witness :
    (Binary64.pricePosition ⟨fun _ => none, fun _ => none⟩
        ⟨"bitcoin", "btc", "Bitcoin", JsNum.fin 2, JsNum.fin 100⟩).totalValue = JsNum.fin 0 ∧
    (Binary64.pricePosition ⟨fun _ => none, fun _ => none⟩
        ⟨"bitcoin", "btc", "Bitcoin", JsNum.fin 2, JsNum.fin 100⟩).profitLoss
      = JsNum.fin (-200) := by
  have hcost : toDouble 100 = JsNum.fin 100 :=
    (toDouble_of_pos _ _ (6) (7036874417766400) (by norm_num) (by norm_num) (by norm_num)
      (roundHalfEven_of_near _ _ (by norm_num) (by norm_num))
      (by norm_num) (by norm_num) (by norm_num))
  have h := missing_price_finite_amount
    [⟨"bitcoin", "btc", "Bitcoin", JsNum.fin 2, JsNum.fin 100⟩]
    ⟨fun _ => none, fun _ => none⟩
    ⟨"bitcoin", "btc", "Bitcoin", JsNum.fin 2, JsNum.fin 100⟩ 2
    (by decide) (List.mem_singleton.mpr rfl) (Or.inl rfl) rfl hcost
  refine ⟨h.2.2.1, ?_⟩
  rw [h.2.2.2.2 100 rfl
    (toDouble_congr _ _ 200 (by norm_num) (by norm_num)
      (toDouble_of_pos _ _ (7) (7036874417766400) (by norm_num) (by norm_num) (by norm_num)
      (roundHalfEven_of_near _ _ (by norm_num) (by norm_num))
      (by norm_num) (by norm_num) (by norm_num)))]
  norm_num

/-- C15 fails on the code: a position of 1 unit with buyPrice 0 is stored by an accepted
`POST /api/portfolio`; for it `GET /api/portfolio` computes the profitLossPercentage
`(150 - 0) / 0 * 100 = Infinity` at the price 150 and `(0 - 0) / 0 * 100 = NaN` without a
price, not 0. -/
theorem getPortfolio_zero_cost_percentage :
    postPortfolio [] ⟨"bitcoin", "btc", "Bitcoin", BodyValue.num 1, BodyValue.num 0⟩
      = ⟨200, [⟨"bitcoin", "btc", "Bitcoin", JsNum.fin 1, JsNum.fin 0⟩]⟩ ∧
    ((getPortfolio [⟨"bitcoin", "btc", "Bitcoin", JsNum.fin 1, JsNum.fin 0⟩]
        ⟨fun _ => some 150, fun _ => none⟩).portfolio.map
          (fun priced => priced.profitLossPercentage)) = [JsNum.posInf] ∧
    ((getPortfolio [⟨"bitcoin", "btc", "Bitcoin", JsNum.fin 1, JsNum.fin 0⟩]
        ⟨fun _ => none, fun _ => none⟩).portfolio.map
          (fun priced => priced.profitLossPercentage)) = [JsNum.nan] ∧
    JsNum.posInf ≠ JsNum.fin 0 ∧ JsNum.nan ≠ JsNum.fin 0 := by
  have hv : validAdd ⟨"bitcoin", "btc", "Bitcoin", BodyValue.num 1, BodyValue.num 0⟩ = true := by
    simp [validAdd, notEmpty, isFloatMin]
  have hids : coinIds [⟨"bitcoin", "btc", "Bitcoin", JsNum.fin 1, JsNum.fin 0⟩] ≠ "" := by
    decide
  refine ⟨postPortfolio_of_absent [] _ hv rfl, ?_, ?_, by simp, by simp⟩
  · simp [getPortfolio, hids, pricePosition, orZero_some, JsNum.div_def, JsNum.div,
      JsNum.mul_def, JsNum.mul, JsNum.infTimes]
  · simp [getPortfolio, hids, pricePosition, orZero, JsNum.div_def, JsNum.div,
      JsNum.mul_def, JsNum.mul]

/-- C16 fails on the code: for one position of 1 unit with buyPrice 0 at the price 150 the
denominator `totalValue - totalProfitLoss` is `150 - 150 = 0` while `totalValue > 0`, and the
summary reports `150 / 0 * 100 = Infinity`, not 0. -/
theorem getPortfolio_zero_basis_summary :
    (getPortfolio [⟨"bitcoin", "btc", "Bitcoin", JsNum.fin 1, JsNum.fin 0⟩]
        ⟨fun _ => some 150, fun _ => none⟩).summary
      = ⟨JsNum.fin 150, JsNum.fin 150, JsNum.posInf⟩ ∧
    JsNum.fin 150 - JsNum.fin 150 = JsNum.fin 0 ∧
    JsNum.posInf ≠ JsNum.fin 0 := by
  have hids : coinIds [⟨"bitcoin", "btc", "Bitcoin", JsNum.fin 1, JsNum.fin 0⟩] ≠ "" := by
    decide
  refine ⟨?_, by simp, by simp⟩
  simp only [getPortfolio, hids, ne_eq, not_false_eq_true, if_true, List.map, summarize,
    List.foldl, pricePosition, orZero_some, JsNum.fin_mul_fin, JsNum.fin_sub_fin,
    JsNum.fin_add_fin, JsNum.lt]
  norm_num [JsNum.div_def, JsNum.div, JsNum.mul_def, JsNum.mul, JsNum.infTimes]

/-- C17. `POST /api/alerts` on a request that passes validation: the request is answered with
400, the alert list unchanged, if and only if the list holds an active alert with the same
`coinId`, `targetPrice` and `condition`; otherwise the answer is 200 and the list is the old
one, unchanged, followed by exactly one alert with the request's `coinId`, `symbol`,
`targetPrice` and `condition`, which is active. -/
theorem postAlert_conflict_or_append (newId : String) (now : Nat) (alerts : List Alert)
    (req : AlertRequest) (q : ℚ)
    (hvalid : validAlert req = true) (hq : req.targetPrice = BodyValue.num q) :
    ((∃ alert ∈ alerts, alert.coinId = req.coinId ∧ alert.targetPrice = JsNum.fin q ∧
        alert.condition = req.condition ∧ alert.isActive = true) →
      postAlert newId now alerts req = ⟨400, alerts⟩) ∧
    ((¬ ∃ alert ∈ alerts, alert.coinId = req.coinId ∧ alert.targetPrice = JsNum.fin q ∧
        alert.condition = req.condition ∧ alert.isActive = true) →
      postAlert newId now alerts req
        = ⟨200, alerts ++ [⟨newId, req.coinId, req.symbol, JsNum.fin q, req.condition,
                            true, now⟩]⟩) ∧
    ((postAlert newId now alerts req).status = 400 ↔
      ∃ alert ∈ alerts, alert.coinId = req.coinId ∧ alert.targetPrice = JsNum.fin q ∧
        alert.condition = req.condition ∧ alert.isActive = true) := by
  have hdup : (∃ alert ∈ alerts, alert.coinId = req.coinId ∧
      alert.targetPrice = JsNum.fin q ∧ alert.condition = req.condition ∧
      alert.isActive = true) → postAlert newId now alerts req = ⟨400, alerts⟩ := by
    intro hex
    obtain ⟨alert, hmem, hsame⟩ := hex
    have hsome : (alerts.find?
        (sameActiveAlert req.coinId (JsNum.fin q) req.condition)).isSome = true := by
      rw [List.find?_isSome]
      exact ⟨alert, hmem, (sameActiveAlert_iff _ _ _ _).mpr hsame⟩
    obtain ⟨found, hfound⟩ := Option.isSome_iff_exists.mp hsome
    simp [postAlert, hvalid, hq, parseFloat, hfound]
  have hnew : (¬ ∃ alert ∈ alerts, alert.coinId = req.coinId ∧
      alert.targetPrice = JsNum.fin q ∧ alert.condition = req.condition ∧
      alert.isActive = true) →
      postAlert newId now alerts req
        = ⟨200, alerts ++ [⟨newId, req.coinId, req.symbol, JsNum.fin q, req.condition,
                            true, now⟩]⟩ := by
    intro hnone
    have hfind : alerts.find? (sameActiveAlert req.coinId (JsNum.fin q) req.condition)
        = none := by
      rw [List.find?_eq_none]
      intro alert hmem hsame
      exact hnone ⟨alert, hmem, (sameActiveAlert_iff _ _ _ _).mp hsame⟩
    simp [postAlert, hvalid, hq, parseFloat, hfind, newAlert]
  refine ⟨hdup, hnew, ?_, ?_⟩
  · intro hstatus
    by_contra hnone
    rw [hnew hnone] at hstatus
    simp at hstatus
  · intro hex
    rw [hdup hex]

/-- Witness of C17: the same alert posted twice is stored once; the second post is refused. -/
theorem postAlert_conflict_or_append_witness :
    postAlert "a1" 7 [] ⟨"bitcoin", "btc", BodyValue.num 50000, "above"⟩
      = ⟨200, [⟨"a1", "bitcoin", "btc", JsNum.fin 50000, "above", true, 7⟩]⟩ ∧
    postAlert "a2" 8 [⟨"a1", "bitcoin", "btc", JsNum.fin 50000, "above", true, 7⟩]
        ⟨"bitcoin", "btc", BodyValue.num 50000, "above"⟩
      = ⟨400, [⟨"a1", "bitcoin", "btc", JsNum.fin 50000, "above", true, 7⟩]⟩ := by
  have hv : validAlert ⟨"bitcoin", "btc", BodyValue.num 50000, "above"⟩ = true := by
    simp [validAlert, notEmpty, isFloatMin, isCondition]
  have hfirst := (postAlert_conflict_or_append "a1" 7 []
    ⟨"bitcoin", "btc", BodyValue.num 50000, "above"⟩ 50000 hv rfl).2.1 (by simp)
  have hsecond := (postAlert_conflict_or_append "a2" 8
    [⟨"a1", "bitcoin", "btc", JsNum.fin 50000, "above", true, 7⟩]
    ⟨"bitcoin", "btc", BodyValue.num 50000, "above"⟩ 50000 hv rfl).1
    ⟨⟨"a1", "bitcoin", "btc", JsNum.fin 50000, "above", true, 7⟩,
      List.mem_singleton.mpr rfl, rfl, rfl, rfl, rfl⟩
  exact ⟨by simpa using hfirst, hsecond⟩

/-- C18. `PUT /api/alerts/:alertId` on a request that passes validation: if no stored alert
has the id the answer is 404 and the list is unchanged, and the answer is 404 only then;
otherwise the answer is 200, the alert with the id is replaced in place and every other
alert is unchanged; the replaced alert keeps `id`, `coinId`, `symbol` and `createdAt`, and
each of `targetPrice`, `condition` and `isActive` is the supplied value if one is supplied
and the old value otherwise. -/
theorem putAlert_overwrite (alerts : List Alert) (req : AlertEdit)
    (hvalid : validAlertEdit req = true) :
    ((∀ alert ∈ alerts, alert.id ≠ req.alertId) → putAlert alerts req = ⟨404, alerts⟩) ∧
    ((putAlert alerts req).status = 404 → ∀ alert ∈ alerts, alert.id ≠ req.alertId) ∧
    (∀ (before : List Alert) (e : Alert) (after : List Alert),
      alerts = before ++ e :: after → (∀ alert ∈ before, alert.id ≠ req.alertId) →
      e.id = req.alertId →
      putAlert alerts req
          = ⟨200, before ++ overwriteAlert req.targetPrice req.condition req.isActive e
                    :: after⟩ ∧
        (overwriteAlert req.targetPrice req.condition req.isActive e).id = e.id ∧
        (overwriteAlert req.targetPrice req.condition req.isActive e).coinId = e.coinId ∧
        (overwriteAlert req.targetPrice req.condition req.isActive e).symbol = e.symbol ∧
        (overwriteAlert req.targetPrice req.condition req.isActive e).createdAt
          = e.createdAt ∧
        (req.targetPrice = BodyValue.missing →
          (overwriteAlert req.targetPrice req.condition req.isActive e).targetPrice
            = e.targetPrice) ∧
        (∀ q : ℚ, req.targetPrice = BodyValue.num q →
          (overwriteAlert req.targetPrice req.condition req.isActive e).targetPrice
            = JsNum.fin q) ∧
        (req.condition = none →
          (overwriteAlert req.targetPrice req.condition req.isActive e).condition
            = e.condition) ∧
        (∀ c : String, req.condition = some c →
          (overwriteAlert req.targetPrice req.condition req.isActive e).condition = c) ∧
        (req.isActive = BodyBool.missing →
          (overwriteAlert req.targetPrice req.condition req.isActive e).isActive
            = e.isActive) ∧
        (∀ b : Bool, req.isActive = BodyBool.bool b →
          (overwriteAlert req.targetPrice req.condition req.isActive e).isActive = b)) := by
  have hheld : ∀ (before : List Alert) (e : Alert) (after : List Alert),
      alerts = before ++ e :: after → (∀ alert ∈ before, alert.id ≠ req.alertId) →
      e.id = req.alertId →
      putAlert alerts req
        = ⟨200, before ++ overwriteAlert req.targetPrice req.condition req.isActive e
                  :: after⟩ := by
    intro before e after hsplit hbefore he
    have hfind := findAlert_split req.alertId before e after hbefore he
    simp only [putAlert, hvalid, if_true, hsplit, hfind]
    rw [mutateAlert_split req.alertId _ before e after hbefore he]
  refine ⟨?_, ?_, ?_⟩
  · intro habsent
    simp [putAlert, hvalid, (findAlert_eq_none_iff alerts req.alertId).mpr habsent]
  · intro hstatus
    by_contra hne
    push_neg at hne
    obtain ⟨before, e, after, hsplit, hbefore, he⟩ :=
      exists_split_of_mem_alertId req.alertId alerts hne
    rw [hheld before e after hsplit hbefore he] at hstatus
    simp at hstatus
  · intro before e after hsplit hbefore he
    have hframe := overwriteAlert_frame req.targetPrice req.condition req.isActive e
    refine ⟨hheld before e after hsplit hbefore he, hframe.1, hframe.2.1, hframe.2.2.1,
      hframe.2.2.2, ?_, ?_, ?_, ?_, ?_, ?_⟩
    · intro h; rw [overwriteAlert_targetPrice, if_pos h]
    · intro q h
      rw [overwriteAlert_targetPrice, h]
      simp [parseFloat]
    · intro h; rw [overwriteAlert_condition, h]; rfl
    · intro c h; rw [overwriteAlert_condition, h]; rfl
    · intro h; rw [h]; exact (overwriteAlert_isActive _ _ true e).2
    · intro b h; rw [h]; exact (overwriteAlert_isActive _ _ b e).1

/-- Witness of C18: the second of two alerts is switched off; nothing else is supplied. -/
theorem putAlert_overwrite_witness :
    putAlert [⟨"a1", "bitcoin", "btc", JsNum.fin 50000, "above", true, 7⟩,
              ⟨"a2", "ethereum", "eth", JsNum.fin 1500, "below", true, 8⟩]
        ⟨"a2", BodyValue.missing, none, BodyBool.bool false⟩
      = ⟨200, [⟨"a1", "bitcoin", "btc", JsNum.fin 50000, "above", true, 7⟩,
               ⟨"a2", "ethereum", "eth", JsNum.fin 1500, "below", false, 8⟩]⟩ := by
  have h := ((putAlert_overwrite
    [⟨"a1", "bitcoin", "btc", JsNum.fin 50000, "above", true, 7⟩,
     ⟨"a2", "ethereum", "eth", JsNum.fin 1500, "below", true, 8⟩]
    ⟨"a2", BodyValue.missing, none, BodyBool.bool false⟩
    (by simp [validAlertEdit, optionalFloatMin, optionalCondition, optionalBoolean])).2.2
    [⟨"a1", "bitcoin", "btc", JsNum.fin 50000, "above", true, 7⟩]
    ⟨"a2", "ethereum", "eth", JsNum.fin 1500, "below", true, 8⟩ [] rfl
    (by intro alert halert; rw [List.mem_singleton.mp halert]; decide) rfl).1
  rw [h]
  simp [overwriteAlert]

/-- C19, as stated, fails: deleting the id `a9` from a list whose only alert has the id `a1`
is answered with 200, not 404, and leaves the list as it was. -/
theorem deleteAlert_absent_succeeds :
    deleteAlert [⟨"a1", "bitcoin", "btc", JsNum.fin 50000, "above", true, 7⟩] "a9"
      = ⟨200, [⟨"a1", "bitcoin", "btc", JsNum.fin 50000, "above", true, 7⟩]⟩ ∧
    (deleteAlert [⟨"a1", "bitcoin", "btc", JsNum.fin 50000, "above", true, 7⟩] "a9").status
      ≠ 404 := by
  have h : deleteAlert [⟨"a1", "bitcoin", "btc", JsNum.fin 50000, "above", true, 7⟩] "a9"
      = ⟨200, [⟨"a1", "bitcoin", "btc", JsNum.fin 50000, "above", true, 7⟩]⟩ := by
    simp [deleteAlert]
  refine ⟨h, ?_⟩
  rw [h]
  decide

/-- C19, amended. `DELETE /api/alerts/:alertId` always answers 200; the stored list afterwards
is the old one filtered to the alerts whose id differs from the given one, so an alert with
the id is removed and all other alerts are kept, unchanged and in their order; if no alert
has the id the list is unchanged. -/
theorem deleteAlert_filter (alerts : List Alert) (alertId : String) :
    (deleteAlert alerts alertId).status = 200 ∧
    (deleteAlert alerts alertId).state
      = alerts.filter (fun alert => decide (alert.id ≠ alertId)) ∧
    (∀ alert : Alert, alert ∈ (deleteAlert alerts alertId).state
      ↔ alert ∈ alerts ∧ alert.id ≠ alertId) ∧
    List.Sublist (deleteAlert alerts alertId).state alerts ∧
    ((∀ alert ∈ alerts, alert.id ≠ alertId) → (deleteAlert alerts alertId).state = alerts) := by
  refine ⟨rfl, rfl, ?_, ?_, ?_⟩
  · intro alert
    simp [deleteAlert, List.mem_filter]
  · exact List.filter_sublist alerts
  · intro h
    simp only [deleteAlert]
    rw [List.filter_eq_self]
    intro alert halert
    simpa using h alert halert

/-- C20 fails on the code: a `POST /api/alerts` with targetPrice 0 passes validation, is
answered with 200 and stores an alert whose targetPrice is 0, and a `PUT` that supplies
targetPrice 0 is accepted as well; 0 is not greater than 0. -/
theorem postAlert_accepts_zero_target :
    postAlert "a1" 7 [] ⟨"bitcoin", "btc", BodyValue.num 0, "above"⟩
      = ⟨200, [⟨"a1", "bitcoin", "btc", JsNum.fin 0, "above", true, 7⟩]⟩ ∧
    putAlert [⟨"a1", "bitcoin", "btc", JsNum.fin 50000, "above", true, 7⟩]
        ⟨"a1", BodyValue.num 0, none, BodyBool.missing⟩
      = ⟨200, [⟨"a1", "bitcoin", "btc", JsNum.fin 0, "above", true, 7⟩]⟩ ∧
    JsNum.lt (JsNum.fin 0) (JsNum.fin 0) = false := by
  refine ⟨?_, ?_, ?_⟩
  · simp [postAlert, validAlert, notEmpty, isFloatMin, isCondition, parseFloat, newAlert]
  · simp [putAlert, validAlertEdit, optionalFloatMin, isFloatMin, optionalCondition,
      optionalBoolean, findAlert_cons, mutateAlert, overwriteAlert, parseFloat]
  · simp [JsNum.lt]

/-- C21. Validation atomicity: for each of the handlers `POST` and `PUT /api/portfolio`, `POST`
and `PUT /api/alerts`, `POST /api/payments/verify` and `POST /api/payments/withdraw`, a request
that fails the validators of its route is answered with 400 and the user's portfolio, alerts
and wallet are all unchanged. -/
theorem handleRequest_validation_atomic (hmacSha256Hex : String → String → String)
    (secret : String) (newId : String) (now : Nat) (user : User) (req : MutatingRequest)
    (hinvalid : passesValidation req = false) :
    handleRequest hmacSha256Hex secret newId now user req = ⟨400, user⟩ ∧
    (handleRequest hmacSha256Hex secret newId now user req).state.portfolio = user.portfolio ∧
    (handleRequest hmacSha256Hex secret newId now user req).state.alerts = user.alerts ∧
    (handleRequest hmacSha256Hex secret newId now user req).state.wallet = user.wallet := by
  have h : handleRequest hmacSha256Hex secret newId now user req = ⟨400, user⟩ := by
    cases req with
    | addPosition r =>
        have hv : validAdd r = false := hinvalid
        simp [handleRequest, postPortfolio, hv]
    | editPosition r =>
        have hv : validEdit r = false := hinvalid
        simp [handleRequest, putPortfolio, hv]
    | createAlert r =>
        have hv : validAlert r = false := hinvalid
        simp [handleRequest, postAlert, hv]
    | editAlert r =>
        have hv : validAlertEdit r = false := hinvalid
        simp [handleRequest, putAlert, hv]
    | verify r =>
        have hv : validVerify r = false := hinvalid
        simp [handleRequest, postVerify, hv]
    | withdraw r =>
        have hv : validWithdraw r = false := hinvalid
        simp [handleRequest, postWithdraw, hv]
  rw [h]
  exact ⟨rfl, rfl, rfl, rfl⟩

/-- Witness of C21: a withdrawal of -5 and a position with an empty `coinId`. -/
theorem handleRequest_validation_atomic_witness :
    handleRequest (fun key message => key ++ message) "k" "a1" 7
        ⟨[⟨"bitcoin", "btc", "Bitcoin", JsNum.fin 1, JsNum.fin 40000⟩], [],
          ⟨JsNum.fin 100, "INR"⟩⟩
        (MutatingRequest.withdraw ⟨BodyValue.num (-5)⟩)
      = ⟨400, ⟨[⟨"bitcoin", "btc", "Bitcoin", JsNum.fin 1, JsNum.fin 40000⟩], [],
          ⟨JsNum.fin 100, "INR"⟩⟩⟩ ∧
    handleRequest (fun key message => key ++ message) "k" "a1" 7
        ⟨[⟨"bitcoin", "btc", "Bitcoin", JsNum.fin 1, JsNum.fin 40000⟩], [],
          ⟨JsNum.fin 100, "INR"⟩⟩
        (MutatingRequest.addPosition ⟨"", "eth", "Ethereum", BodyValue.num 1, BodyValue.num 5⟩)
      = ⟨400, ⟨[⟨"bitcoin", "btc", "Bitcoin", JsNum.fin 1, JsNum.fin 40000⟩], [],
          ⟨JsNum.fin 100, "INR"⟩⟩⟩ :=
  ⟨(handleRequest_validation_atomic (fun key message => key ++ message) "k" "a1" 7 _
      (MutatingRequest.withdraw ⟨BodyValue.num (-5)⟩)
      (by simp [passesValidation, validWithdraw, isFloatMin]; norm_num)).1,
   (handleRequest_validation_atomic (fun key message => key ++ message) "k" "a1" 7 _
      (MutatingRequest.addPosition ⟨"", "eth", "Ethereum", BodyValue.num 1, BodyValue.num 5⟩)
      (by simp [passesValidation, validAdd, notEmpty])).1⟩

/-- C22. Alert evaluation, for a target price `t` and a current price `p`: with the condition
ABOVE the alert is triggered iff `p ≥ t`, with the condition BELOW iff `p ≤ t`; at `p = t` it
is triggered under both conditions; evaluation is a function of the alert and the price, so
repeating it against the same price gives the same result every time. -/
theorem evaluate_threshold (alert : Alert) (t p : ℚ) (htarget : alert.targetPrice = JsNum.fin t) :
    (alert.condition = "above" → (evaluate alert (JsNum.fin p) = true ↔ t ≤ p)) ∧
    (alert.condition = "below" → (evaluate alert (JsNum.fin p) = true ↔ p ≤ t)) ∧
    (alert.condition = "above" ∨ alert.condition = "below" →
      evaluate alert (JsNum.fin t) = true) ∧
    (∀ n : Nat, (List.replicate n (JsNum.fin p)).map (evaluate alert)
      = List.replicate n (evaluate alert (JsNum.fin p))) := by
  refine ⟨?_, ?_, ?_, ?_⟩
  · intro h
    simp [evaluate, h, htarget, JsNum.le]
  · intro h
    simp [evaluate, h, htarget, JsNum.le]
  · intro h
    rcases h with h | h
    · simp [evaluate, h, htarget, JsNum.le]
    · simp [evaluate, h, htarget, JsNum.le]
  · intro n
    simp

/-- Witness of C22: the target 50000 with the condition ABOVE is triggered at 50000 and not at
49999. -/
theorem evaluate_threshold_witness :
    evaluate ⟨"a1", "bitcoin", "btc", JsNum.fin 50000, "above", true, 7⟩ (JsNum.fin 50000)
      = true ∧
    evaluate ⟨"a1", "bitcoin", "btc", JsNum.fin 50000, "above", true, 7⟩ (JsNum.fin 49999)
      = false := by
  have h50000 := (evaluate_threshold ⟨"a1", "bitcoin", "btc", JsNum.fin 50000, "above", true, 7⟩
    50000 50000 rfl).1 rfl
  have h49999 := (evaluate_threshold ⟨"a1", "bitcoin", "btc", JsNum.fin 50000, "above", true, 7⟩
    50000 49999 rfl).1 rfl
  refine ⟨h50000.mpr (le_refl _), ?_⟩
  rw [Bool.eq_false_iff]
  intro h
  have := h49999.mp h
  norm_num at this

/-- C23, as stated, fails: for one position of 3 units bought at 0.1 the denominator
`totalValue - totalProfitLoss` of the summary is 0.29999999999999993 at the price 0.3 and
0.30000000000000004 at the price 0.1, so it depends on the price, and at the price 0.3 it is
neither the product `amount * buyPrice` nor the double nearest to it. -/
theorem cost_basis_depends_on_price :
    JsNum.rnd
        ((Binary64.getPortfolio
            [⟨"bitcoin", "btc", "Bitcoin", JsNum.fin 3,
            JsNum.fin (3602879701896397 / 36028797018963968)⟩]
            ⟨fun _ => some (3 / 10), fun _ => none⟩).summary.totalValue
          - (Binary64.getPortfolio
              [⟨"bitcoin", "btc", "Bitcoin", JsNum.fin 3,
              JsNum.fin (3602879701896397 / 36028797018963968)⟩]
            ⟨fun _ => some (3 / 10), fun _ => none⟩).summary.totalProfitLoss)
      = JsNum.fin (2702159776422297 / 9007199254740992) ∧
    JsNum.rnd
        ((Binary64.getPortfolio
            [⟨"bitcoin", "btc", "Bitcoin", JsNum.fin 3,
            JsNum.fin (3602879701896397 / 36028797018963968)⟩]
            ⟨fun _ => some (1 / 10), fun _ => none⟩).summary.totalValue
          - (Binary64.getPortfolio
              [⟨"bitcoin", "btc", "Bitcoin", JsNum.fin 3,
              JsNum.fin (3602879701896397 / 36028797018963968)⟩]
            ⟨fun _ => some (1 / 10), fun _ => none⟩).summary.totalProfitLoss)
      = JsNum.fin (1351079888211149 / 4503599627370496) ∧
    ((2702159776422297 / 9007199254740992) : ℚ) ≠ (1351079888211149 / 4503599627370496) ∧
    ((2702159776422297 / 9007199254740992) : ℚ) ≠ 3 * (3602879701896397 / 36028797018963968) ∧
    JsNum.rnd (JsNum.fin 3 * JsNum.fin (3602879701896397 / 36028797018963968))
      = JsNum.fin (1351079888211149 / 4503599627370496) ∧
    ((2702159776422297 / 9007199254740992) : ℚ) ≠ (1351079888211149 / 4503599627370496) := by
  have hhigh0 : toDouble (3 / 10) = JsNum.fin (5404319552844595 / 18014398509481984) :=
    (toDouble_of_pos _ _ (-2) (5404319552844595) (by norm_num) (by norm_num) (by norm_num)
      (roundHalfEven_of_near _ _ (by norm_num) (by norm_num))
      (by norm_num) (by norm_num) (by norm_num))
  have hhigh1 : toDouble (3 * (5404319552844595 / 18014398509481984))
      = JsNum.fin (2026619832316723 / 2251799813685248) :=
    (toDouble_of_pos _ _ (-1) (8106479329266892) (by norm_num) (by norm_num) (by norm_num)
      (by rw [roundHalfEven_of_tie _ (8106479329266892) (by norm_num)]; norm_num)
      (by norm_num) (by norm_num) (by norm_num))
  have hhigh2 : toDouble
      ((5404319552844595 / 18014398509481984) - (3602879701896397 / 36028797018963968))
      = JsNum.fin (7205759403792793 / 36028797018963968) :=
    (toDouble_of_pos _ _ (-3) (7205759403792793) (by norm_num) (by norm_num) (by norm_num)
      (roundHalfEven_of_near _ _ (by norm_num) (by norm_num))
      (by norm_num) (by norm_num) (by norm_num))
  have hhigh3 : toDouble ((7205759403792793 / 36028797018963968) * 3)
      = JsNum.fin (5404319552844595 / 9007199254740992) :=
    (toDouble_of_pos _ _ (-1) (5404319552844595) (by norm_num) (by norm_num) (by norm_num)
      (roundHalfEven_of_near _ _ (by norm_num) (by norm_num))
      (by norm_num) (by norm_num) (by norm_num))
  have hhigh6 : toDouble (0 + (2026619832316723 / 2251799813685248))
      = JsNum.fin (2026619832316723 / 2251799813685248) :=
    (toDouble_of_pos _ _ (-1) (8106479329266892) (by norm_num) (by norm_num) (by norm_num)
      (roundHalfEven_of_near _ _ (by norm_num) (by norm_num))
      (by norm_num) (by norm_num) (by norm_num))
  have hhigh7 : toDouble (0 + (5404319552844595 / 9007199254740992))
      = JsNum.fin (5404319552844595 / 9007199254740992) :=
    (toDouble_of_pos _ _ (-1) (5404319552844595) (by norm_num) (by norm_num) (by norm_num)
      (roundHalfEven_of_near _ _ (by norm_num) (by norm_num))
      (by norm_num) (by norm_num) (by norm_num))
  have hhigh8 : toDouble
      ((2026619832316723 / 2251799813685248) - (5404319552844595 / 9007199254740992))
      = JsNum.fin (2702159776422297 / 9007199254740992) :=
    (toDouble_of_pos _ _ (-2) (5404319552844594) (by norm_num) (by norm_num) (by norm_num)
      (roundHalfEven_of_near _ _ (by norm_num) (by norm_num))
      (by norm_num) (by norm_num) (by norm_num))
  have hhighP := Binary64.pricePosition_steps ⟨fun _ => some (3 / 10), fun _ => none⟩
    ⟨"bitcoin", "btc", "Bitcoin", JsNum.fin 3, JsNum.fin (3602879701896397 / 36028797018963968)⟩
    _ _ _ _ _ _ rfl rfl ((congrArg JsNum.rnd (orZero_some _)).trans hhigh0) hhigh1 hhigh2 hhigh3
  have hhighT := Binary64.summarize_single_totals _ _ _ _ _ hhighP.1 hhighP.2 hhigh6 hhigh7
  have hhighG := Binary64.getPortfolio_single ⟨fun _ => some (3 / 10), fun _ => none⟩
    ⟨"bitcoin", "btc", "Bitcoin", JsNum.fin 3, JsNum.fin (3602879701896397 / 36028797018963968)⟩
        (by decide)
  have hsame0 : toDouble (1 / 10) = JsNum.fin (3602879701896397 / 36028797018963968) :=
    (toDouble_of_pos _ _ (-4) (7205759403792794) (by norm_num) (by norm_num) (by norm_num)
      (roundHalfEven_of_near _ _ (by norm_num) (by norm_num))
      (by norm_num) (by norm_num) (by norm_num))
  have hsame1 : toDouble (3 * (3602879701896397 / 36028797018963968))
      = JsNum.fin (1351079888211149 / 4503599627370496) :=
    (toDouble_of_pos _ _ (-2) (5404319552844596) (by norm_num) (by norm_num) (by norm_num)
      (by rw [roundHalfEven_of_tie _ (5404319552844595) (by norm_num)]; norm_num)
      (by norm_num) (by norm_num) (by norm_num))
  have hsame2 : toDouble
      ((3602879701896397 / 36028797018963968) - (3602879701896397 / 36028797018963968))
      = JsNum.fin 0 :=
    (by
      rw [show ((3602879701896397 / 36028797018963968) - (3602879701896397 / 36028797018963968) : ℚ)
          = 0 by norm_num]
      exact toDouble_zero)
  have hsame3 : toDouble (0 * 3) = JsNum.fin 0 :=
    (by
      rw [show (0 * 3 : ℚ) = 0 by norm_num]
      exact toDouble_zero)
  have hsame6 : toDouble (0 + (1351079888211149 / 4503599627370496))
      = JsNum.fin (1351079888211149 / 4503599627370496) :=
    (toDouble_of_pos _ _ (-2) (5404319552844596) (by norm_num) (by norm_num) (by norm_num)
      (roundHalfEven_of_near _ _ (by norm_num) (by norm_num))
      (by norm_num) (by norm_num) (by norm_num))
  have hsame7 : toDouble (0 + 0) = JsNum.fin 0 :=
    (by
      rw [show (0 + 0 : ℚ) = 0 by norm_num]
      exact toDouble_zero)
  have hsame8 : toDouble ((1351079888211149 / 4503599627370496) - 0)
      = JsNum.fin (1351079888211149 / 4503599627370496) :=
    (toDouble_of_pos _ _ (-2) (5404319552844596) (by norm_num) (by norm_num) (by norm_num)
      (roundHalfEven_of_near _ _ (by norm_num) (by norm_num))
      (by norm_num) (by norm_num) (by norm_num))
  have hsameP := Binary64.pricePosition_steps ⟨fun _ => some (1 / 10), fun _ => none⟩
    ⟨"bitcoin", "btc", "Bitcoin", JsNum.fin 3, JsNum.fin (3602879701896397 / 36028797018963968)⟩
    _ _ _ _ _ _ rfl rfl ((congrArg JsNum.rnd (orZero_some _)).trans hsame0) hsame1 hsame2 hsame3
  have hsameT := Binary64.summarize_single_totals _ _ _ _ _ hsameP.1 hsameP.2 hsame6 hsame7
  have hsameG := Binary64.getPortfolio_single ⟨fun _ => some (1 / 10), fun _ => none⟩
    ⟨"bitcoin", "btc", "Bitcoin", JsNum.fin 3, JsNum.fin (3602879701896397 / 36028797018963968)⟩
        (by decide)
  have hproduct : toDouble (3 * (3602879701896397 / 36028797018963968))
      = JsNum.fin (1351079888211149 / 4503599627370496) :=
    (toDouble_of_pos _ _ (-2) (5404319552844596) (by norm_num) (by norm_num) (by norm_num)
      (by rw [roundHalfEven_of_tie _ (5404319552844595) (by norm_num)]; norm_num)
      (by norm_num) (by norm_num) (by norm_num))
  refine ⟨?_, ?_, by norm_num, by norm_num, ?_, by norm_num⟩
  · rw [hhighG, hhighT.1, hhighT.2, JsNum.fin_sub_fin, JsNum.rnd_fin]
    exact hhigh8
  · rw [hsameG, hsameT.1, hsameT.2, JsNum.fin_sub_fin, JsNum.rnd_fin]
    exact hsame8
  · rw [JsNum.fin_mul_fin, JsNum.rnd_fin]
    exact hproduct

/-- C23, amended. For a portfolio that is valued without rounding, the denominator
`totalValue - totalProfitLoss` of the summary of `GET /api/portfolio` is the total cost basis,
the sum over the positions of `amount * buyPrice`; it is the same for every price response at
which the portfolio is valued without rounding. -/
theorem cost_basis_when_exact (pf : Portfolio) (data : PriceData)
    (hids : coinIds pf ≠ "" ∨ pf = [])
    (hexact : Binary64.exactValuation data 0 0 pf) :
    JsNum.rnd ((Binary64.getPortfolio pf data).summary.totalValue
        - (Binary64.getPortfolio pf data).summary.totalProfitLoss)
      = (pf.map (fun item => item.amount * item.buyPrice)).sum ∧
    ∀ other : PriceData, Binary64.exactValuation other 0 0 pf →
      JsNum.rnd ((Binary64.getPortfolio pf other).summary.totalValue
          - (Binary64.getPortfolio pf other).summary.totalProfitLoss)
        = JsNum.rnd ((Binary64.getPortfolio pf data).summary.totalValue
          - (Binary64.getPortfolio pf data).summary.totalProfitLoss) := by
  have hdata := Binary64.getPortfolio_denominator pf data hids hexact
  refine ⟨hdata, ?_⟩
  intro other hother
  rw [hdata, Binary64.getPortfolio_denominator pf other hids hother]

/-- Witness of C23: 2 units bought at 100 and 3 units bought at 10 have the cost basis 230 when
both are priced at 150. -/
theorem cost_basis_when_exact_witness :
    JsNum.rnd
        ((Binary64.getPortfolio [⟨"bitcoin", "btc", "Bitcoin", JsNum.fin 2, JsNum.fin 100⟩,
                   ⟨"solana", "sol", "Solana", JsNum.fin 3, JsNum.fin 10⟩]
            ⟨fun _ => some 150, fun _ => none⟩).summary.totalValue
          - (Binary64.getPortfolio [⟨"bitcoin", "btc", "Bitcoin", JsNum.fin 2, JsNum.fin 100⟩,
                   ⟨"solana", "sol", "Solana", JsNum.fin 3, JsNum.fin 10⟩]
            ⟨fun _ => some 150, fun _ => none⟩).summary.totalProfitLoss)
      = JsNum.fin 230 := by
  have hprice : toDouble 150 = JsNum.fin 150 :=
    (toDouble_of_pos _ _ (7) (5277655813324800) (by norm_num) (by norm_num) (by norm_num)
      (roundHalfEven_of_near _ _ (by norm_num) (by norm_num))
      (by norm_num) (by norm_num) (by norm_num))
  have hexact : Binary64.exactValuation ⟨fun _ => some 150, fun _ => none⟩ 0 0
      [⟨"bitcoin", "btc", "Bitcoin", JsNum.fin 2, JsNum.fin 100⟩,
       ⟨"solana", "sol", "Solana", JsNum.fin 3, JsNum.fin 10⟩] :=
    ⟨2, 100, 150, rfl, rfl, ((congrArg JsNum.rnd (orZero_some _)).trans hprice),
     (toDouble_congr _ _ 300 (by norm_num) (by norm_num)
      (toDouble_of_pos _ _ (8) (5277655813324800) (by norm_num) (by norm_num) (by norm_num)
      (roundHalfEven_of_near _ _ (by norm_num) (by norm_num))
      (by norm_num) (by norm_num) (by norm_num))),
     (toDouble_congr _ _ 50 (by norm_num) (by norm_num)
      (toDouble_of_pos _ _ (5) (7036874417766400) (by norm_num) (by norm_num) (by norm_num)
      (roundHalfEven_of_near _ _ (by norm_num) (by norm_num))
      (by norm_num) (by norm_num) (by norm_num))),
     (toDouble_congr _ _ 100 (by norm_num) (by norm_num)
      (toDouble_of_pos _ _ (6) (7036874417766400) (by norm_num) (by norm_num) (by norm_num)
      (roundHalfEven_of_near _ _ (by norm_num) (by norm_num))
      (by norm_num) (by norm_num) (by norm_num))),
     (toDouble_congr _ _ 300 (by norm_num) (by norm_num)
      (toDouble_of_pos _ _ (8) (5277655813324800) (by norm_num) (by norm_num) (by norm_num)
      (roundHalfEven_of_near _ _ (by norm_num) (by norm_num))
      (by norm_num) (by norm_num) (by norm_num))),
     (toDouble_congr _ _ 100 (by norm_num) (by norm_num)
      (toDouble_of_pos _ _ (6) (7036874417766400) (by norm_num) (by norm_num) (by norm_num)
      (roundHalfEven_of_near _ _ (by norm_num) (by norm_num))
      (by norm_num) (by norm_num) (by norm_num))),
     3, 10, 150, rfl, rfl, ((congrArg JsNum.rnd (orZero_some _)).trans hprice),
     (toDouble_congr _ _ 450 (by norm_num) (by norm_num)
      (toDouble_of_pos _ _ (8) (7916483719987200) (by norm_num) (by norm_num) (by norm_num)
      (roundHalfEven_of_near _ _ (by norm_num) (by norm_num))
      (by norm_num) (by norm_num) (by norm_num))),
     (toDouble_congr _ _ 140 (by norm_num) (by norm_num)
      (toDouble_of_pos _ _ (7) (4925812092436480) (by norm_num) (by norm_num) (by norm_num)
      (roundHalfEven_of_near _ _ (by norm_num) (by norm_num))
      (by norm_num) (by norm_num) (by norm_num))),
     (toDouble_congr _ _ 420 (by norm_num) (by norm_num)
      (toDouble_of_pos _ _ (8) (7388718138654720) (by norm_num) (by norm_num) (by norm_num)
      (roundHalfEven_of_near _ _ (by norm_num) (by norm_num))
      (by norm_num) (by norm_num) (by norm_num))),
     (toDouble_congr _ _ 750 (by norm_num) (by norm_num)
      (toDouble_of_pos _ _ (9) (6597069766656000) (by norm_num) (by norm_num) (by norm_num)
      (roundHalfEven_of_near _ _ (by norm_num) (by norm_num))
      (by norm_num) (by norm_num) (by norm_num))),
     (toDouble_congr _ _ 520 (by norm_num) (by norm_num)
      (toDouble_of_pos _ _ (9) (4573968371548160) (by norm_num) (by norm_num) (by norm_num)
      (roundHalfEven_of_near _ _ (by norm_num) (by norm_num))
      (by norm_num) (by norm_num) (by norm_num))),
     (toDouble_congr _ _ 230 (by norm_num) (by norm_num)
      (toDouble_of_pos _ _ (7) (8092405580431360) (by norm_num) (by norm_num) (by norm_num)
      (roundHalfEven_of_near _ _ (by norm_num) (by norm_num))
      (by norm_num) (by norm_num) (by norm_num)))⟩
  have h := (cost_basis_when_exact
    [⟨"bitcoin", "btc", "Bitcoin", JsNum.fin 2, JsNum.fin 100⟩,
     ⟨"solana", "sol", "Solana", JsNum.fin 3, JsNum.fin 10⟩]
    ⟨fun _ => some 150, fun _ => none⟩ (Or.inl (by decide)) hexact).1
  rw [h]
  simp [JsNum.zero_def]
  norm_num

/-- C24, as stated, fails: a position of 1 unit bought at 100 is increased by 10^17 units at 1.
In doubles `1 + 10^17` is `10^17`, the old amount recovered as `10^17 - 10^17` is 0, and the
handler stores the amount 10^17 at the buyPrice 1: the new amount times the new buyPrice is
10^17, while the two costs add up to 10^17 + 100. -/
theorem increase_loses_total_cost :
    Binary64.postPortfolio [⟨"bitcoin", "btc", "Bitcoin", JsNum.fin 1, JsNum.fin 100⟩]
        ⟨"bitcoin", "btc", "Bitcoin", BodyValue.num 100000000000000000, BodyValue.num 1⟩
      = ⟨200, [⟨"bitcoin", "btc", "Bitcoin", JsNum.fin 100000000000000000, JsNum.fin 1⟩]⟩ ∧
    Binary64.parseFloat (BodyValue.num 100000000000000000) = JsNum.fin 100000000000000000 ∧
    (0 : ℚ) < 1 + 100000000000000000 ∧
    JsNum.rnd (JsNum.fin 100000000000000000 * JsNum.fin 1) = JsNum.fin 100000000000000000 ∧
    (100000000000000000 : ℚ) ≠ 1 * 100 + 100000000000000000 * 1 := by
  have hpostq : toDouble (100000000000000000) = JsNum.fin 100000000000000000 :=
    (toDouble_of_pos _ _ (56) (6250000000000000) (by norm_num) (by norm_num) (by norm_num)
      (roundHalfEven_of_near _ _ (by norm_num) (by norm_num))
      (by norm_num) (by norm_num) (by norm_num))
  have hpostc : toDouble (1) = JsNum.fin 1 :=
    (toDouble_of_pos _ _ (0) (4503599627370496) (by norm_num) (by norm_num) (by norm_num)
      (roundHalfEven_of_near _ _ (by norm_num) (by norm_num))
      (by norm_num) (by norm_num) (by norm_num))
  have hposts1 : toDouble (1 + 100000000000000000) = JsNum.fin 100000000000000000 :=
    (toDouble_of_pos _ _ (56) (6250000000000000) (by norm_num) (by norm_num) (by norm_num)
      (roundHalfEven_of_near _ _ (by norm_num) (by norm_num))
      (by norm_num) (by norm_num) (by norm_num))
  have hposts2 : toDouble (100000000000000000 - 100000000000000000) = JsNum.fin 0 :=
    (by
      rw [show (100000000000000000 - 100000000000000000 : ℚ) = 0 by norm_num]
      exact toDouble_zero)
  have hposts3 : toDouble (100 * 0) = JsNum.fin 0 :=
    (by
      rw [show (100 * 0 : ℚ) = 0 by norm_num]
      exact toDouble_zero)
  have hposts4 : toDouble (1 * 100000000000000000) = JsNum.fin 100000000000000000 :=
    (toDouble_of_pos _ _ (56) (6250000000000000) (by norm_num) (by norm_num) (by norm_num)
      (roundHalfEven_of_near _ _ (by norm_num) (by norm_num))
      (by norm_num) (by norm_num) (by norm_num))
  have hposts5 : toDouble (0 + 100000000000000000) = JsNum.fin 100000000000000000 :=
    (toDouble_of_pos _ _ (56) (6250000000000000) (by norm_num) (by norm_num) (by norm_num)
      (roundHalfEven_of_near _ _ (by norm_num) (by norm_num))
      (by norm_num) (by norm_num) (by norm_num))
  have hposts6 : toDouble (100000000000000000 / 100000000000000000) = JsNum.fin 1 :=
    (toDouble_of_pos _ _ (0) (4503599627370496) (by norm_num) (by norm_num) (by norm_num)
      (roundHalfEven_of_near _ _ (by norm_num) (by norm_num))
      (by norm_num) (by norm_num) (by norm_num))
  have hpostinc := Binary64.increaseCoin_steps
    ⟨"bitcoin", "btc", "Bitcoin", JsNum.fin 1, JsNum.fin 100⟩
    _ _ _ _ _ _ _ _ _ _ rfl rfl hposts1 hposts2 hposts3 hposts4 hposts5 (by norm_num) hposts6
  have hpost : Binary64.postPortfolio [⟨"bitcoin", "btc", "Bitcoin", JsNum.fin 1, JsNum.fin 100⟩]
      ⟨"bitcoin", "btc", "Bitcoin", BodyValue.num 100000000000000000, BodyValue.num 1⟩
      = ⟨200, [⟨"bitcoin", "btc", "Bitcoin", JsNum.fin 100000000000000000, JsNum.fin 1⟩]⟩ := by
    rw [Binary64.postPortfolio_eval _ _ ⟨"bitcoin", "btc", "Bitcoin", JsNum.fin 1, JsNum.fin 100⟩ _
        _ _
      (validAdd_of_fields _ _ _ (by decide) (by decide) (by decide) rfl rfl (by norm_num)
          (by norm_num)) (Binary64.parseFloat_num _ _ hpostq) (Binary64.parseFloat_num _ _ hpostc)
      (by simp [findCoin_cons]) hpostinc (by simp [Binary64.storeAccepts, JsNum.isNaN])
      (by simp [JsNum.isNaN])]
    simp [mutateCoin]
  have hprod : toDouble (100000000000000000 * 1) = JsNum.fin 100000000000000000 :=
    (toDouble_of_pos _ _ (56) (6250000000000000) (by norm_num) (by norm_num) (by norm_num)
      (roundHalfEven_of_near _ _ (by norm_num) (by norm_num))
      (by norm_num) (by norm_num) (by norm_num))
  refine ⟨hpost, Binary64.parseFloat_num _ _ hpostq, by norm_num, ?_, by norm_num⟩
  rw [JsNum.fin_mul_fin, JsNum.rnd_fin, hprod]

/-- C24, amended. Total cost is additive under `POST /api/portfolio` when no operation of the
increase is rounded: when `find` returns a position with amount `oldQuantity` and buyPrice
`oldCost` in a portfolio the store accepts, the request is accepted with amount `quantity` and
buyPrice `unitCost` (as `parseFloat` reads them), `oldQuantity + quantity > 0` and the sum of the
amounts, the two products, their sum and the quotient are doubles, then the request is answered
with 200 and the updated position has an amount and a buyPrice whose product is
`oldQuantity * oldCost + quantity * unitCost`. -/
theorem increase_total_cost_when_exact (pf : Portfolio) (req : AddRequest) (e : Position)
    (oldQuantity oldCost quantity unitCost : ℚ)
    (hvalid : validAdd req = true)
    (hq : Binary64.parseFloat req.amount = JsNum.fin quantity)
    (hc : Binary64.parseFloat req.buyPrice = JsNum.fin unitCost)
    (hfind : findCoin pf req.coinId = some e)
    (ha : e.amount = JsNum.fin oldQuantity) (hb : e.buyPrice = JsNum.fin oldCost)
    (hstore : Binary64.storeAccepts pf = true)
    (hexact : Binary64.exactIncrease oldQuantity oldCost quantity unitCost)
    (hpos : 0 < oldQuantity + quantity) :
    (Binary64.postPortfolio pf req).status = 200 ∧
    findCoin (Binary64.postPortfolio pf req).state req.coinId
      = some { e with
          amount := JsNum.fin (oldQuantity + quantity),
          buyPrice := JsNum.fin
            ((oldCost * oldQuantity + unitCost * quantity) / (oldQuantity + quantity)) } ∧
    (oldQuantity + quantity)
        * ((oldCost * oldQuantity + unitCost * quantity) / (oldQuantity + quantity))
      = oldQuantity * oldCost + quantity * unitCost := by
  have hne : oldQuantity + quantity ≠ 0 := ne_of_gt hpos
  have hpost := Binary64.postPortfolio_exact pf req e oldQuantity oldCost quantity unitCost
    hvalid hq hc hfind ha hb hstore hexact hne
  refine ⟨by rw [hpost], ?_, ?_⟩
  · rw [hpost]
    exact findCoin_mutateCoin_of_find _ hfind
      (show e.coinId = req.coinId from findCoin_coinId hfind)
  · field_simp
    ring

/-- Witness of C24: 1 unit at 40000 increased by 3 units at 50000 costs 190000 in total. -/
theorem increase_total_cost_when_exact_witness :
    findCoin (Binary64.postPortfolio [⟨"bitcoin", "btc", "Bitcoin", JsNum.fin 1, JsNum.fin 40000⟩]
        ⟨"bitcoin", "btc", "Bitcoin", BodyValue.num 3, BodyValue.num 50000⟩).state "bitcoin"
      = some ⟨"bitcoin", "btc", "Bitcoin", JsNum.fin 4, JsNum.fin 47500⟩ ∧
    (4 : ℚ) * 47500 = 1 * 40000 + 3 * 50000 := by
  have hq : toDouble (3) = JsNum.fin 3 :=
    (toDouble_of_pos _ _ (1) (6755399441055744) (by norm_num) (by norm_num) (by norm_num)
      (roundHalfEven_of_near _ _ (by norm_num) (by norm_num))
      (by norm_num) (by norm_num) (by norm_num))
  have hc : toDouble (50000) = JsNum.fin 50000 :=
    (toDouble_of_pos _ _ (15) (6871947673600000) (by norm_num) (by norm_num) (by norm_num)
      (roundHalfEven_of_near _ _ (by norm_num) (by norm_num))
      (by norm_num) (by norm_num) (by norm_num))
  have hexact : Binary64.exactIncrease 1 40000 3 50000 :=
    ⟨(toDouble_congr _ _ 4 (by norm_num) (by norm_num)
      (toDouble_of_pos _ _ (2) (4503599627370496) (by norm_num) (by norm_num) (by norm_num)
      (roundHalfEven_of_near _ _ (by norm_num) (by norm_num))
      (by norm_num) (by norm_num) (by norm_num))),
     (toDouble_congr _ _ 1 (by norm_num) (by norm_num)
      (toDouble_of_pos _ _ (0) (4503599627370496) (by norm_num) (by norm_num) (by norm_num)
      (roundHalfEven_of_near _ _ (by norm_num) (by norm_num))
      (by norm_num) (by norm_num) (by norm_num))),
     (toDouble_congr _ _ 40000 (by norm_num) (by norm_num)
      (toDouble_of_pos _ _ (15) (5497558138880000) (by norm_num) (by norm_num) (by norm_num)
      (roundHalfEven_of_near _ _ (by norm_num) (by norm_num))
      (by norm_num) (by norm_num) (by norm_num))),
     (toDouble_congr _ _ 150000 (by norm_num) (by norm_num)
      (toDouble_of_pos _ _ (17) (5153960755200000) (by norm_num) (by norm_num) (by norm_num)
      (roundHalfEven_of_near _ _ (by norm_num) (by norm_num))
      (by norm_num) (by norm_num) (by norm_num))),
     (toDouble_congr _ _ 190000 (by norm_num) (by norm_num)
      (toDouble_of_pos _ _ (17) (6528350289920000) (by norm_num) (by norm_num) (by norm_num)
      (roundHalfEven_of_near _ _ (by norm_num) (by norm_num))
      (by norm_num) (by norm_num) (by norm_num))),
     (toDouble_congr _ _ 47500 (by norm_num) (by norm_num)
      (toDouble_of_pos _ _ (15) (6528350289920000) (by norm_num) (by norm_num) (by norm_num)
      (roundHalfEven_of_near _ _ (by norm_num) (by norm_num))
      (by norm_num) (by norm_num) (by norm_num)))⟩
  have h := increase_total_cost_when_exact
    [⟨"bitcoin", "btc", "Bitcoin", JsNum.fin 1, JsNum.fin 40000⟩]
    ⟨"bitcoin", "btc", "Bitcoin", BodyValue.num 3, BodyValue.num 50000⟩
    ⟨"bitcoin", "btc", "Bitcoin", JsNum.fin 1, JsNum.fin 40000⟩ 1 40000 3 50000
    (validAdd_of_fields _ _ _ (by decide) (by decide) (by decide) rfl rfl (by norm_num)
        (by norm_num)) (Binary64.parseFloat_num _ _ hq) (Binary64.parseFloat_num _ _ hc)
    (by simp [findCoin_cons]) rfl rfl (by simp [Binary64.storeAccepts, JsNum.isNaN]) hexact
    (by norm_num)
  refine ⟨?_, by norm_num⟩
  rw [h.2.1]
  norm_num

/-- C28, as stated, fails: a position of 0.1 units bought at 0.1 is increased by 0.1 units at
0.1, and the handler stores the buyPrice 0.10000000000000002, which is above both prices. -/
theorem increase_cost_above_both_prices :
    Binary64.postPortfolio
        [⟨"bitcoin", "btc", "Bitcoin", JsNum.fin (3602879701896397 / 36028797018963968),
        JsNum.fin (3602879701896397 / 36028797018963968)⟩]
        ⟨"bitcoin", "btc", "Bitcoin", BodyValue.num (1 / 10), BodyValue.num (1 / 10)⟩
      = ⟨200, [⟨"bitcoin", "btc", "Bitcoin", JsNum.fin (3602879701896397 / 18014398509481984),
          JsNum.fin (7205759403792795 / 72057594037927936)⟩]⟩ ∧
    Binary64.parseFloat (BodyValue.num (1 / 10)) = JsNum.fin (3602879701896397 / 36028797018963968)
        ∧
    (max (3602879701896397 / 36028797018963968) (3602879701896397 / 36028797018963968) : ℚ)
        < (7205759403792795 / 72057594037927936) := by
  have hpostq : toDouble (1 / 10) = JsNum.fin (3602879701896397 / 36028797018963968) :=
    (toDouble_of_pos _ _ (-4) (7205759403792794) (by norm_num) (by norm_num) (by norm_num)
      (roundHalfEven_of_near _ _ (by norm_num) (by norm_num))
      (by norm_num) (by norm_num) (by norm_num))
  have hpostc : toDouble (1 / 10) = JsNum.fin (3602879701896397 / 36028797018963968) :=
    (toDouble_of_pos _ _ (-4) (7205759403792794) (by norm_num) (by norm_num) (by norm_num)
      (roundHalfEven_of_near _ _ (by norm_num) (by norm_num))
      (by norm_num) (by norm_num) (by norm_num))
  have hposts1 : toDouble
      ((3602879701896397 / 36028797018963968) + (3602879701896397 / 36028797018963968))
      = JsNum.fin (3602879701896397 / 18014398509481984) :=
    (toDouble_of_pos _ _ (-3) (7205759403792794) (by norm_num) (by norm_num) (by norm_num)
      (roundHalfEven_of_near _ _ (by norm_num) (by norm_num))
      (by norm_num) (by norm_num) (by norm_num))
  have hposts2 : toDouble
      ((3602879701896397 / 18014398509481984) - (3602879701896397 / 36028797018963968))
      = JsNum.fin (3602879701896397 / 36028797018963968) :=
    (toDouble_of_pos _ _ (-4) (7205759403792794) (by norm_num) (by norm_num) (by norm_num)
      (roundHalfEven_of_near _ _ (by norm_num) (by norm_num))
      (by norm_num) (by norm_num) (by norm_num))
  have hposts3 : toDouble
      ((3602879701896397 / 36028797018963968) * (3602879701896397 / 36028797018963968))
      = JsNum.fin (1441151880758559 / 144115188075855872) :=
    (toDouble_of_pos _ _ (-7) (5764607523034236) (by norm_num) (by norm_num) (by norm_num)
      (roundHalfEven_of_near _ _ (by norm_num) (by norm_num))
      (by norm_num) (by norm_num) (by norm_num))
  have hposts4 : toDouble
      ((3602879701896397 / 36028797018963968) * (3602879701896397 / 36028797018963968))
      = JsNum.fin (1441151880758559 / 144115188075855872) :=
    (toDouble_of_pos _ _ (-7) (5764607523034236) (by norm_num) (by norm_num) (by norm_num)
      (roundHalfEven_of_near _ _ (by norm_num) (by norm_num))
      (by norm_num) (by norm_num) (by norm_num))
  have hposts5 : toDouble
      ((1441151880758559 / 144115188075855872) + (1441151880758559 / 144115188075855872))
      = JsNum.fin (1441151880758559 / 72057594037927936) :=
    (toDouble_of_pos _ _ (-6) (5764607523034236) (by norm_num) (by norm_num) (by norm_num)
      (roundHalfEven_of_near _ _ (by norm_num) (by norm_num))
      (by norm_num) (by norm_num) (by norm_num))
  have hposts6 : toDouble
      ((1441151880758559 / 72057594037927936) / (3602879701896397 / 18014398509481984))
      = JsNum.fin (7205759403792795 / 72057594037927936) :=
    (toDouble_of_pos _ _ (-4) (7205759403792795) (by norm_num) (by norm_num) (by norm_num)
      (roundHalfEven_of_near _ _ (by norm_num) (by norm_num))
      (by norm_num) (by norm_num) (by norm_num))
  have hpostinc := Binary64.increaseCoin_steps
    ⟨"bitcoin", "btc", "Bitcoin", JsNum.fin (3602879701896397 / 36028797018963968),
        JsNum.fin (3602879701896397 / 36028797018963968)⟩
    _ _ _ _ _ _ _ _ _ _ rfl rfl hposts1 hposts2 hposts3 hposts4 hposts5 (by norm_num) hposts6
  have hpost : Binary64.postPortfolio
      [⟨"bitcoin", "btc", "Bitcoin", JsNum.fin (3602879701896397 / 36028797018963968),
      JsNum.fin (3602879701896397 / 36028797018963968)⟩]
      ⟨"bitcoin", "btc", "Bitcoin", BodyValue.num (1 / 10), BodyValue.num (1 / 10)⟩
      = ⟨200, [⟨"bitcoin", "btc", "Bitcoin", JsNum.fin (3602879701896397 / 18014398509481984),
          JsNum.fin (7205759403792795 / 72057594037927936)⟩]⟩ := by
    rw [Binary64.postPortfolio_eval _ _
        ⟨"bitcoin", "btc", "Bitcoin", JsNum.fin (3602879701896397 / 36028797018963968),
        JsNum.fin (3602879701896397 / 36028797018963968)⟩ _ _ _
      (validAdd_of_fields _ _ _ (by decide) (by decide) (by decide) rfl rfl (by norm_num)
          (by norm_num)) (Binary64.parseFloat_num _ _ hpostq) (Binary64.parseFloat_num _ _ hpostc)
      (by simp [findCoin_cons]) hpostinc (by simp [Binary64.storeAccepts, JsNum.isNaN])
      (by simp [JsNum.isNaN])]
    simp [mutateCoin]
  exact ⟨hpost, Binary64.parseFloat_num _ _ hpostq, by norm_num⟩

/-- C28, amended. The averaged cost stays between the two prices when no operation of the
increase is rounded: when `find` returns a position with amount `oldQuantity ≥ 0` and buyPrice
`oldCost` in a portfolio the store accepts, the request is accepted with amount
`quantity ≥ 0` and buyPrice `unitCost` (as `parseFloat` reads them),
`oldQuantity + quantity > 0` and the sum of the amounts, the two products, their sum and the
quotient are doubles, then the request is answered with 200 and the buyPrice stored lies
between `min oldCost unitCost` and `max oldCost unitCost`. -/
theorem increase_cost_between_when_exact (pf : Portfolio) (req : AddRequest) (e : Position)
    (oldQuantity oldCost quantity unitCost : ℚ)
    (hvalid : validAdd req = true)
    (hq : Binary64.parseFloat req.amount = JsNum.fin quantity)
    (hc : Binary64.parseFloat req.buyPrice = JsNum.fin unitCost)
    (hfind : findCoin pf req.coinId = some e)
    (ha : e.amount = JsNum.fin oldQuantity) (hb : e.buyPrice = JsNum.fin oldCost)
    (hstore : Binary64.storeAccepts pf = true)
    (hexact : Binary64.exactIncrease oldQuantity oldCost quantity unitCost)
    (hold : 0 ≤ oldQuantity) (hquantity : 0 ≤ quantity) (hpos : 0 < oldQuantity + quantity) :
    (Binary64.postPortfolio pf req).status = 200 ∧
    findCoin (Binary64.postPortfolio pf req).state req.coinId
      = some { e with
          amount := JsNum.fin (oldQuantity + quantity),
          buyPrice := JsNum.fin
            ((oldCost * oldQuantity + unitCost * quantity) / (oldQuantity + quantity)) } ∧
    min oldCost unitCost
      ≤ (oldCost * oldQuantity + unitCost * quantity) / (oldQuantity + quantity) ∧
    (oldCost * oldQuantity + unitCost * quantity) / (oldQuantity + quantity)
      ≤ max oldCost unitCost := by
  have hne : oldQuantity + quantity ≠ 0 := ne_of_gt hpos
  have hpost := Binary64.postPortfolio_exact pf req e oldQuantity oldCost quantity unitCost
    hvalid hq hc hfind ha hb hstore hexact hne
  refine ⟨by rw [hpost], ?_, ?_, ?_⟩
  · rw [hpost]
    exact findCoin_mutateCoin_of_find _ hfind
      (show e.coinId = req.coinId from findCoin_coinId hfind)
  · rw [le_div_iff₀ hpos]
    have h1 : min oldCost unitCost * oldQuantity ≤ oldCost * oldQuantity :=
      mul_le_mul_of_nonneg_right (min_le_left _ _) hold
    have h2 : min oldCost unitCost * quantity ≤ unitCost * quantity :=
      mul_le_mul_of_nonneg_right (min_le_right _ _) hquantity
    nlinarith
  · rw [div_le_iff₀ hpos]
    have h1 : oldCost * oldQuantity ≤ max oldCost unitCost * oldQuantity :=
      mul_le_mul_of_nonneg_right (le_max_left _ _) hold
    have h2 : unitCost * quantity ≤ max oldCost unitCost * quantity :=
      mul_le_mul_of_nonneg_right (le_max_right _ _) hquantity
    nlinarith

/-- Witness of C28: 1 unit at 40000 increased by 3 units at 50000 is stored at 47500. -/
theorem increase_cost_between_when_exact_witness :
    findCoin (Binary64.postPortfolio [⟨"bitcoin", "btc", "Bitcoin", JsNum.fin 1, JsNum.fin 40000⟩]
        ⟨"bitcoin", "btc", "Bitcoin", BodyValue.num 3, BodyValue.num 50000⟩).state "bitcoin"
      = some ⟨"bitcoin", "btc", "Bitcoin", JsNum.fin 4, JsNum.fin 47500⟩ ∧
    min (40000 : ℚ) 50000 ≤ 47500 ∧ (47500 : ℚ) ≤ max 40000 50000 := by
  have hq : toDouble (3) = JsNum.fin 3 :=
    (toDouble_of_pos _ _ (1) (6755399441055744) (by norm_num) (by norm_num) (by norm_num)
      (roundHalfEven_of_near _ _ (by norm_num) (by norm_num))
      (by norm_num) (by norm_num) (by norm_num))
  have hc : toDouble (50000) = JsNum.fin 50000 :=
    (toDouble_of_pos _ _ (15) (6871947673600000) (by norm_num) (by norm_num) (by norm_num)
      (roundHalfEven_of_near _ _ (by norm_num) (by norm_num))
      (by norm_num) (by norm_num) (by norm_num))
  have hexact : Binary64.exactIncrease 1 40000 3 50000 :=
    ⟨(toDouble_congr _ _ 4 (by norm_num) (by norm_num)
      (toDouble_of_pos _ _ (2) (4503599627370496) (by norm_num) (by norm_num) (by norm_num)
      (roundHalfEven_of_near _ _ (by norm_num) (by norm_num))
      (by norm_num) (by norm_num) (by norm_num))),
     (toDouble_congr _ _ 1 (by norm_num) (by norm_num)
      (toDouble_of_pos _ _ (0) (4503599627370496) (by norm_num) (by norm_num) (by norm_num)
      (roundHalfEven_of_near _ _ (by norm_num) (by norm_num))
      (by norm_num) (by norm_num) (by norm_num))),
     (toDouble_congr _ _ 40000 (by norm_num) (by norm_num)
      (toDouble_of_pos _ _ (15) (5497558138880000) (by norm_num) (by norm_num) (by norm_num)
      (roundHalfEven_of_near _ _ (by norm_num) (by norm_num))
      (by norm_num) (by norm_num) (by norm_num))),
     (toDouble_congr _ _ 150000 (by norm_num) (by norm_num)
      (toDouble_of_pos _ _ (17) (5153960755200000) (by norm_num) (by norm_num) (by norm_num)
      (roundHalfEven_of_near _ _ (by norm_num) (by norm_num))
      (by norm_num) (by norm_num) (by norm_num))),
     (toDouble_congr _ _ 190000 (by norm_num) (by norm_num)
      (toDouble_of_pos _ _ (17) (6528350289920000) (by norm_num) (by norm_num) (by norm_num)
      (roundHalfEven_of_near _ _ (by norm_num) (by norm_num))
      (by norm_num) (by norm_num) (by norm_num))),
     (toDouble_congr _ _ 47500 (by norm_num) (by norm_num)
      (toDouble_of_pos _ _ (15) (6528350289920000) (by norm_num) (by norm_num) (by norm_num)
      (roundHalfEven_of_near _ _ (by norm_num) (by norm_num))
      (by norm_num) (by norm_num) (by norm_num)))⟩
  have h := increase_cost_between_when_exact
    [⟨"bitcoin", "btc", "Bitcoin", JsNum.fin 1, JsNum.fin 40000⟩]
    ⟨"bitcoin", "btc", "Bitcoin", BodyValue.num 3, BodyValue.num 50000⟩
    ⟨"bitcoin", "btc", "Bitcoin", JsNum.fin 1, JsNum.fin 40000⟩ 1 40000 3 50000
    (validAdd_of_fields _ _ _ (by decide) (by decide) (by decide) rfl rfl (by norm_num)
        (by norm_num)) (Binary64.parseFloat_num _ _ hq) (Binary64.parseFloat_num _ _ hc)
    (by simp [findCoin_cons]) rfl rfl (by simp [Binary64.storeAccepts, JsNum.isNaN]) hexact
    (by norm_num) (by norm_num) (by norm_num)
  refine ⟨?_, by norm_num, by norm_num⟩
  rw [h.2.1]
  norm_num

/-- C29, as stated, fails: for one position of 0.1 units bought at 0.1 and priced at 0.3 the
summary reports 200.00000000000006 percent and the position 199.99999999999997 percent. -/
theorem single_position_percentages_differ :
    (Binary64.getPortfolio
        [⟨"bitcoin", "btc", "Bitcoin", JsNum.fin (3602879701896397 / 36028797018963968),
        JsNum.fin (3602879701896397 / 36028797018963968)⟩]
        ⟨fun _ => some (3 / 10), fun _ => none⟩).summary.totalProfitLossPercentage
      = JsNum.fin (3518437208883201 / 17592186044416) ∧
    (Binary64.getPortfolio
        [⟨"bitcoin", "btc", "Bitcoin", JsNum.fin (3602879701896397 / 36028797018963968),
        JsNum.fin (3602879701896397 / 36028797018963968)⟩]
        ⟨fun _ => some (3 / 10), fun _ => none⟩).portfolio.map
        (fun priced => priced.profitLossPercentage)
      = [JsNum.fin (7036874417766399 / 35184372088832)] ∧
    ((3518437208883201 / 17592186044416) : ℚ) ≠ (7036874417766399 / 35184372088832) := by
  have h0 : toDouble (3 / 10) = JsNum.fin (5404319552844595 / 18014398509481984) :=
    (toDouble_of_pos _ _ (-2) (5404319552844595) (by norm_num) (by norm_num) (by norm_num)
      (roundHalfEven_of_near _ _ (by norm_num) (by norm_num))
      (by norm_num) (by norm_num) (by norm_num))
  have h1 : toDouble ((3602879701896397 / 36028797018963968)
      * (5404319552844595 / 18014398509481984)) = JsNum.fin (1080863910568919 / 36028797018963968)
      :=
    (toDouble_of_pos _ _ (-6) (8646911284551352) (by norm_num) (by norm_num) (by norm_num)
      (roundHalfEven_of_near _ _ (by norm_num) (by norm_num))
      (by norm_num) (by norm_num) (by norm_num))
  have h2 : toDouble ((5404319552844595 / 18014398509481984)
      - (3602879701896397 / 36028797018963968)) = JsNum.fin (7205759403792793 / 36028797018963968)
      :=
    (toDouble_of_pos _ _ (-3) (7205759403792793) (by norm_num) (by norm_num) (by norm_num)
      (roundHalfEven_of_near _ _ (by norm_num) (by norm_num))
      (by norm_num) (by norm_num) (by norm_num))
  have h3 : toDouble ((7205759403792793 / 36028797018963968)
      * (3602879701896397 / 36028797018963968)) = JsNum.fin (5764607523034235 / 288230376151711744)
      :=
    (toDouble_of_pos _ _ (-6) (5764607523034235) (by norm_num) (by norm_num) (by norm_num)
      (roundHalfEven_of_near _ _ (by norm_num) (by norm_num))
      (by norm_num) (by norm_num) (by norm_num))
  have h6 : toDouble (0 + (1080863910568919 / 36028797018963968))
      = JsNum.fin (1080863910568919 / 36028797018963968) :=
    (toDouble_of_pos _ _ (-6) (8646911284551352) (by norm_num) (by norm_num) (by norm_num)
      (roundHalfEven_of_near _ _ (by norm_num) (by norm_num))
      (by norm_num) (by norm_num) (by norm_num))
  have h7 : toDouble (0 + (5764607523034235 / 288230376151711744))
      = JsNum.fin (5764607523034235 / 288230376151711744) :=
    (toDouble_of_pos _ _ (-6) (5764607523034235) (by norm_num) (by norm_num) (by norm_num)
      (roundHalfEven_of_near _ _ (by norm_num) (by norm_num))
      (by norm_num) (by norm_num) (by norm_num))
  have h8 : toDouble ((1080863910568919 / 36028797018963968)
      - (5764607523034235 / 288230376151711744)) = JsNum.fin (2882303761517117 / 288230376151711744)
      :=
    (toDouble_of_pos _ _ (-7) (5764607523034234) (by norm_num) (by norm_num) (by norm_num)
      (roundHalfEven_of_near _ _ (by norm_num) (by norm_num))
      (by norm_num) (by norm_num) (by norm_num))
  have hP := Binary64.pricePosition_steps ⟨fun _ => some (3 / 10), fun _ => none⟩
    ⟨"bitcoin", "btc", "Bitcoin", JsNum.fin (3602879701896397 / 36028797018963968),
        JsNum.fin (3602879701896397 / 36028797018963968)⟩
    _ _ _ _ _ _ rfl rfl ((congrArg JsNum.rnd (orZero_some _)).trans h0) h1 h2 h3
  have hT := Binary64.summarize_single_totals _ _ _ _ _ hP.1 hP.2 h6 h7
  have hG := Binary64.getPortfolio_single ⟨fun _ => some (3 / 10), fun _ => none⟩
    ⟨"bitcoin", "btc", "Bitcoin", JsNum.fin (3602879701896397 / 36028797018963968),
        JsNum.fin (3602879701896397 / 36028797018963968)⟩ (by decide)
  have h4 : toDouble ((7205759403792793 / 36028797018963968)
      / (3602879701896397 / 36028797018963968)) = JsNum.fin (9007199254740991 / 4503599627370496) :=
    (toDouble_of_pos _ _ (0) (9007199254740991) (by norm_num) (by norm_num) (by norm_num)
      (roundHalfEven_of_near _ _ (by norm_num) (by norm_num))
      (by norm_num) (by norm_num) (by norm_num))
  have h5 : toDouble ((9007199254740991 / 4503599627370496) * 100)
      = JsNum.fin (7036874417766399 / 35184372088832) :=
    (toDouble_of_pos _ _ (7) (7036874417766399) (by norm_num) (by norm_num) (by norm_num)
      (roundHalfEven_of_near _ _ (by norm_num) (by norm_num))
      (by norm_num) (by norm_num) (by norm_num))
  have h9 : toDouble ((5764607523034235 / 288230376151711744)
      / (2882303761517117 / 288230376151711744)) = JsNum.fin (4503599627370497 / 2251799813685248)
      :=
    (toDouble_of_pos _ _ (1) (4503599627370497) (by norm_num) (by norm_num) (by norm_num)
      (roundHalfEven_of_near _ _ (by norm_num) (by norm_num))
      (by norm_num) (by norm_num) (by norm_num))
  have h10 : toDouble ((4503599627370497 / 2251799813685248) * 100)
      = JsNum.fin (3518437208883201 / 17592186044416) :=
    (toDouble_of_pos _ _ (7) (7036874417766402) (by norm_num) (by norm_num) (by norm_num)
      (roundHalfEven_of_near _ _ (by norm_num) (by norm_num))
      (by norm_num) (by norm_num) (by norm_num))
  have hQ := Binary64.pricePosition_percentage ⟨fun _ => some (3 / 10), fun _ => none⟩
    ⟨"bitcoin", "btc", "Bitcoin", JsNum.fin (3602879701896397 / 36028797018963968),
        JsNum.fin (3602879701896397 / 36028797018963968)⟩
    _ _ _ _ _ rfl ((congrArg JsNum.rnd (orZero_some _)).trans h0) h2 (by norm_num) h4 h5
  have hS := Binary64.summarize_single_percentage _ _ _ _ _ _ _ _ hP.1 hP.2 h6 h7
    (by norm_num) h8 (by norm_num) h9 h10
  refine ⟨?_, ?_, by norm_num⟩
  · rw [hG]
    exact hS
  · rw [hG]
    exact congrArg (fun x => [x]) hQ

/-- C29, amended. For a portfolio of one position with amount `a > 0` and buyPrice `b > 0` at a
current price `p > 0`, when no operation of the valuation is rounded, the
`totalProfitLossPercentage` of the summary of `GET /api/portfolio` equals the position's
`profitLossPercentage`; both are `(p - b) / b * 100`. -/
theorem single_position_percentage_when_exact (data : PriceData) (item : Position)
    (a b p : ℚ) (hid : item.coinId ≠ "")
    (hamount : item.amount = JsNum.fin a) (hcost : item.buyPrice = JsNum.fin b)
    (hprice : data.price item.coinId = some p)
    (ha : 0 < a) (hb : 0 < b) (hp : 0 < p) (hexact : Binary64.exactPercentage a b p) :
    (Binary64.getPortfolio [item] data).portfolio = [Binary64.pricePosition data item] ∧
    (Binary64.getPortfolio [item] data).summary.totalProfitLossPercentage
      = (Binary64.pricePosition data item).profitLossPercentage ∧
    (Binary64.pricePosition data item).profitLossPercentage
      = JsNum.fin ((p - b) / b * 100) := by
  obtain ⟨h0, h1, h2, h3, h4, h5, h8⟩ := hexact
  have hbne : b ≠ 0 := ne_of_gt hb
  have hane : a ≠ 0 := ne_of_gt ha
  have hrnd : JsNum.rnd (orZero (data.price item.coinId)) = JsNum.fin p := by
    rw [hprice, orZero_some, JsNum.rnd_fin, h0]
  obtain ⟨hvalue, hprofit⟩ :=
    Binary64.pricePosition_steps data item a b p _ _ _ hamount hcost hrnd h1 h2 h3
  have hpct := Binary64.pricePosition_percentage data item b p _ _ _ hcost hrnd h2 hbne h4 h5
  have hden : a * p - (p - b) * a = a * b := by ring
  have hdne : a * p - (p - b) * a ≠ 0 := by
    rw [hden]
    exact mul_ne_zero hane hbne
  have hquot : (p - b) * a / (a * p - (p - b) * a) = (p - b) / b := by
    rw [hden]
    field_simp
    ring
  have hsum := Binary64.summarize_single_percentage (Binary64.pricePosition data item)
    (a * p) ((p - b) * a) (a * p) ((p - b) * a) (a * p - (p - b) * a) ((p - b) / b)
    ((p - b) / b * 100) hvalue hprofit (by rw [zero_add]; exact h1)
    (by rw [zero_add]; exact h3) (mul_pos ha hp) h8 hdne (by rw [hquot]; exact h4) h5
  rw [Binary64.getPortfolio_single data item hid]
  exact ⟨rfl, hsum.trans hpct.symm, hpct⟩

/-- Witness of C29: 2 units bought at 100 and priced at 150 gain 50 percent in both places. -/
theorem single_position_percentage_when_exact_witness :
    (Binary64.getPortfolio [⟨"bitcoin", "btc", "Bitcoin", JsNum.fin 2, JsNum.fin 100⟩]
        ⟨fun _ => some 150, fun _ => none⟩).summary.totalProfitLossPercentage
      = JsNum.fin 50 := by
  have hexact : Binary64.exactPercentage 2 100 150 :=
    ⟨(toDouble_congr _ _ 150 (by norm_num) (by norm_num)
      (toDouble_of_pos _ _ (7) (5277655813324800) (by norm_num) (by norm_num) (by norm_num)
      (roundHalfEven_of_near _ _ (by norm_num) (by norm_num))
      (by norm_num) (by norm_num) (by norm_num))),
     (toDouble_congr _ _ 300 (by norm_num) (by norm_num)
      (toDouble_of_pos _ _ (8) (5277655813324800) (by norm_num) (by norm_num) (by norm_num)
      (roundHalfEven_of_near _ _ (by norm_num) (by norm_num))
      (by norm_num) (by norm_num) (by norm_num))),
     (toDouble_congr _ _ 50 (by norm_num) (by norm_num)
      (toDouble_of_pos _ _ (5) (7036874417766400) (by norm_num) (by norm_num) (by norm_num)
      (roundHalfEven_of_near _ _ (by norm_num) (by norm_num))
      (by norm_num) (by norm_num) (by norm_num))),
     (toDouble_congr _ _ 100 (by norm_num) (by norm_num)
      (toDouble_of_pos _ _ (6) (7036874417766400) (by norm_num) (by norm_num) (by norm_num)
      (roundHalfEven_of_near _ _ (by norm_num) (by norm_num))
      (by norm_num) (by norm_num) (by norm_num))),
     (toDouble_congr _ _ (1 / 2) (by norm_num) (by norm_num)
      (toDouble_of_pos _ _ (-1) (4503599627370496) (by norm_num) (by norm_num) (by norm_num)
      (roundHalfEven_of_near _ _ (by norm_num) (by norm_num))
      (by norm_num) (by norm_num) (by norm_num))),
     (toDouble_congr _ _ 50 (by norm_num) (by norm_num)
      (toDouble_of_pos _ _ (5) (7036874417766400) (by norm_num) (by norm_num) (by norm_num)
      (roundHalfEven_of_near _ _ (by norm_num) (by norm_num))
      (by norm_num) (by norm_num) (by norm_num))),
     (toDouble_congr _ _ 200 (by norm_num) (by norm_num)
      (toDouble_of_pos _ _ (7) (7036874417766400) (by norm_num) (by norm_num) (by norm_num)
      (roundHalfEven_of_near _ _ (by norm_num) (by norm_num))
      (by norm_num) (by norm_num) (by norm_num)))⟩
  have h := single_position_percentage_when_exact ⟨fun _ => some 150, fun _ => none⟩
    ⟨"bitcoin", "btc", "Bitcoin", JsNum.fin 2, JsNum.fin 100⟩ 2 100 150
    (by decide) rfl rfl rfl (by norm_num) (by norm_num) (by norm_num) hexact
  rw [h.2.1, h.2.2]
  norm_num

/-- C25. The credited amount is not bound to the verified payment: for one `orderId`,
`paymentId` and `signature` and two amounts `a1, a2 ≥ 1`, `POST /api/payments/verify` answers
both requests with the same status, which is 200 exactly when the three strings are not empty
and the signature is the HMAC of `orderId + '|' + paymentId`; when accepted, each request
credits its own amount, so for `a1 ≠ a2` the two resulting balances differ. -/
theorem postVerify_amount_unbound (hmacSha256Hex : String → String → String) (secret : String)
    (w : Wallet) (orderId paymentId signature : String) (a1 a2 : ℚ)
    (h1 : 1 ≤ a1) (h2 : 1 ≤ a2) :
    (postVerify hmacSha256Hex secret w ⟨orderId, paymentId, signature, BodyValue.num a1⟩).status
      = (postVerify hmacSha256Hex secret w
          ⟨orderId, paymentId, signature, BodyValue.num a2⟩).status ∧
    ((postVerify hmacSha256Hex secret w
          ⟨orderId, paymentId, signature, BodyValue.num a1⟩).status = 200 ↔
      orderId ≠ "" ∧ paymentId ≠ "" ∧ signature ≠ "" ∧
        signature = hmacSha256Hex secret (orderId ++ "|" ++ paymentId)) ∧
    ((postVerify hmacSha256Hex secret w
          ⟨orderId, paymentId, signature, BodyValue.num a1⟩).status = 200 →
      (postVerify hmacSha256Hex secret w
          ⟨orderId, paymentId, signature, BodyValue.num a1⟩).state.balance
        = w.balance + JsNum.fin a1 ∧
      (postVerify hmacSha256Hex secret w
          ⟨orderId, paymentId, signature, BodyValue.num a2⟩).state.balance
        = w.balance + JsNum.fin a2) ∧
    (∀ balance : ℚ, w.balance = JsNum.fin balance → a1 ≠ a2 →
      (postVerify hmacSha256Hex secret w
          ⟨orderId, paymentId, signature, BodyValue.num a1⟩).status = 200 →
      (postVerify hmacSha256Hex secret w
          ⟨orderId, paymentId, signature, BodyValue.num a1⟩).state.balance
        ≠ (postVerify hmacSha256Hex secret w
          ⟨orderId, paymentId, signature, BodyValue.num a2⟩).state.balance) := by
  have hstatus : ∀ a : ℚ, 1 ≤ a →
      ((postVerify hmacSha256Hex secret w
          ⟨orderId, paymentId, signature, BodyValue.num a⟩).status = 200 ↔
        orderId ≠ "" ∧ paymentId ≠ "" ∧ signature ≠ "" ∧
          signature = hmacSha256Hex secret (orderId ++ "|" ++ paymentId)) := by
    intro a ha
    rw [postVerify_status]
    simp only [validVerify, notEmpty, isFloatMin, ha, decide_True, Bool.and_true,
      Bool.and_eq_true, decide_eq_true_eq]
    constructor
    · intro h
      by_contra hn
      rw [if_neg (fun hc => hn ⟨hc.1.1.1, hc.1.1.2, hc.1.2, hc.2⟩)] at h
      simp at h
    · intro h
      rw [if_pos ⟨⟨⟨h.1, h.2.1⟩, h.2.2.1⟩, h.2.2.2⟩]
  have hsame : (postVerify hmacSha256Hex secret w
        ⟨orderId, paymentId, signature, BodyValue.num a1⟩).status
      = (postVerify hmacSha256Hex secret w
          ⟨orderId, paymentId, signature, BodyValue.num a2⟩).status := by
    rw [postVerify_status, postVerify_status]
    simp [validVerify, isFloatMin, h1, h2]
  have hcredit : (postVerify hmacSha256Hex secret w
        ⟨orderId, paymentId, signature, BodyValue.num a1⟩).status = 200 →
      (postVerify hmacSha256Hex secret w
          ⟨orderId, paymentId, signature, BodyValue.num a1⟩).state.balance
        = w.balance + JsNum.fin a1 ∧
      (postVerify hmacSha256Hex secret w
          ⟨orderId, paymentId, signature, BodyValue.num a2⟩).state.balance
        = w.balance + JsNum.fin a2 := by
    intro h
    have h' := h
    rw [hsame] at h'
    rw [postVerify_accepted _ _ _ _ h, postVerify_accepted _ _ _ _ h']
    exact ⟨rfl, rfl⟩
  refine ⟨hsame, hstatus a1 h1, hcredit, ?_⟩
  intro balance hbalance hne h
  obtain ⟨hb1, hb2⟩ := hcredit h
  rw [hb1, hb2, hbalance]
  simp only [JsNum.fin_add_fin, ne_eq, JsNum.fin.injEq, add_right_inj]
  exact hne

/-- Witness of C25: one signature, accepted with the amount 100 and with the amount 5000. -/
theorem postVerify_amount_unbound_witness :
    (postVerify (fun key message => key ++ message) "k" ⟨JsNum.fin 0, "INR"⟩
        ⟨"o1", "p1", "ko1|p1", BodyValue.num 100⟩).state.balance = JsNum.fin 100 ∧
    (postVerify (fun key message => key ++ message) "k" ⟨JsNum.fin 0, "INR"⟩
        ⟨"o1", "p1", "ko1|p1", BodyValue.num 5000⟩).state.balance = JsNum.fin 5000 := by
  have h := postVerify_amount_unbound (fun key message => key ++ message) "k"
    ⟨JsNum.fin 0, "INR"⟩ "o1" "p1" "ko1|p1" 100 5000 (by norm_num) (by norm_num)
  have haccepted := h.2.1.mpr ⟨by decide, by decide, by decide, by decide⟩
  obtain ⟨hb1, hb2⟩ := h.2.2.1 haccepted
  rw [hb1, hb2]
  norm_num

/-- C26, as stated, fails in its second half: on a balance of 10 ^ 16 the accepted top-up of 1,
handled three times, credits nothing, and ten accepted top-ups of 1.1 on an empty wallet leave
10.999999999999998; in neither case is the increase `n * amount`. -/
theorem verify_replay_increase_differs :
    (Binary64.postVerify (fun key message => key ++ message) "k"
        ⟨JsNum.fin 10000000000000000, "INR"⟩
        ⟨"o1", "p1", "ko1|p1", BodyValue.num 1⟩).status = 200 ∧
    (Binary64.replayVerify (fun key message => key ++ message) "k"
        ⟨"o1", "p1", "ko1|p1", BodyValue.num 1⟩ 3 ⟨JsNum.fin 10000000000000000, "INR"⟩).balance
      = JsNum.fin 10000000000000000 ∧
    (10000000000000000 : ℚ) ≠ 10000000000000000 + 3 * 1 ∧
    (Binary64.postVerify (fun key message => key ++ message) "k" ⟨JsNum.fin 0, "INR"⟩
        ⟨"o1", "p1", "ko1|p1", BodyValue.num (11 / 10)⟩).status = 200 ∧
    (Binary64.replayVerify (fun key message => key ++ message) "k"
        ⟨"o1", "p1", "ko1|p1", BodyValue.num (11 / 10)⟩ 10 ⟨JsNum.fin 0, "INR"⟩).balance
      = JsNum.fin (6192449487634431 / 562949953421312) ∧
    ((6192449487634431 / 562949953421312) : ℚ) ≠ 0 + 10 * (11 / 10) := by
  have hlargeq : toDouble (1) = JsNum.fin 1 :=
    (toDouble_of_pos _ _ (0) (4503599627370496) (by norm_num) (by norm_num) (by norm_num)
      (roundHalfEven_of_near _ _ (by norm_num) (by norm_num))
      (by norm_num) (by norm_num) (by norm_num))
  have hlarges0 : toDouble (10000000000000000 + 1) = JsNum.fin 10000000000000000 :=
    (toDouble_of_pos _ _ (53) (5000000000000000) (by norm_num) (by norm_num) (by norm_num)
      (by rw [roundHalfEven_of_tie _ (5000000000000000) (by norm_num)]; norm_num)
      (by norm_num) (by norm_num) (by norm_num))
  have hlargep0 : Binary64.postVerify (fun key message => key ++ message) "k"
      ⟨JsNum.fin 10000000000000000, "INR"⟩
      ⟨"o1", "p1", "ko1|p1", BodyValue.num 1⟩
      = ⟨200, ⟨JsNum.fin 10000000000000000, "INR"⟩⟩ :=
    Binary64.postVerify_steps _ _ _ _ _ _ _ _
      (by simp [validVerify, notEmpty, isFloatMin]) (by decide) rfl hlargeq rfl hlarges0
  have hlarge : Binary64.replayVerify (fun key message => key ++ message) "k"
      ⟨"o1", "p1", "ko1|p1", BodyValue.num 1⟩ 3
      ⟨JsNum.fin 10000000000000000, "INR"⟩ = ⟨JsNum.fin 10000000000000000, "INR"⟩ :=
    ((Binary64.replayVerify_step _ _ _ 2 _ _ hlargep0).trans
      ((Binary64.replayVerify_step _ _ _ 1 _ _ hlargep0).trans
      ((Binary64.replayVerify_step _ _ _ 0 _ _ hlargep0).trans
      rfl)))
  have hsmallq : toDouble (11 / 10) = JsNum.fin (2476979795053773 / 2251799813685248) :=
    (toDouble_of_pos _ _ (0) (4953959590107546) (by norm_num) (by norm_num) (by norm_num)
      (roundHalfEven_of_near _ _ (by norm_num) (by norm_num))
      (by norm_num) (by norm_num) (by norm_num))
  have hsmalls0 : toDouble (0 + (2476979795053773 / 2251799813685248))
      = JsNum.fin (2476979795053773 / 2251799813685248) :=
    (toDouble_of_pos _ _ (0) (4953959590107546) (by norm_num) (by norm_num) (by norm_num)
      (roundHalfEven_of_near _ _ (by norm_num) (by norm_num))
      (by norm_num) (by norm_num) (by norm_num))
  have hsmallp0 : Binary64.postVerify (fun key message => key ++ message) "k" ⟨JsNum.fin 0, "INR"⟩
      ⟨"o1", "p1", "ko1|p1", BodyValue.num (11 / 10)⟩
      = ⟨200, ⟨JsNum.fin (2476979795053773 / 2251799813685248), "INR"⟩⟩ :=
    Binary64.postVerify_steps _ _ _ _ _ _ _ _
      (by simp [validVerify, notEmpty, isFloatMin]; norm_num) (by decide) rfl hsmallq rfl hsmalls0
  have hsmalls1 : toDouble
      ((2476979795053773 / 2251799813685248) + (2476979795053773 / 2251799813685248))
      = JsNum.fin (2476979795053773 / 1125899906842624) :=
    (toDouble_of_pos _ _ (1) (4953959590107546) (by norm_num) (by norm_num) (by norm_num)
      (roundHalfEven_of_near _ _ (by norm_num) (by norm_num))
      (by norm_num) (by norm_num) (by norm_num))
  have hsmallp1 : Binary64.postVerify (fun key message => key ++ message) "k"
      ⟨JsNum.fin (2476979795053773 / 2251799813685248), "INR"⟩
      ⟨"o1", "p1", "ko1|p1", BodyValue.num (11 / 10)⟩
      = ⟨200, ⟨JsNum.fin (2476979795053773 / 1125899906842624), "INR"⟩⟩ :=
    Binary64.postVerify_steps _ _ _ _ _ _ _ _
      (by simp [validVerify, notEmpty, isFloatMin]; norm_num) (by decide) rfl hsmallq rfl hsmalls1
  have hsmalls2 : toDouble
      ((2476979795053773 / 1125899906842624) + (2476979795053773 / 2251799813685248))
      = JsNum.fin (7430939385161319 / 2251799813685248) :=
    (toDouble_of_pos _ _ (1) (7430939385161319) (by norm_num) (by norm_num) (by norm_num)
      (roundHalfEven_of_near _ _ (by norm_num) (by norm_num))
      (by norm_num) (by norm_num) (by norm_num))
  have hsmallp2 : Binary64.postVerify (fun key message => key ++ message) "k"
      ⟨JsNum.fin (2476979795053773 / 1125899906842624), "INR"⟩
      ⟨"o1", "p1", "ko1|p1", BodyValue.num (11 / 10)⟩
      = ⟨200, ⟨JsNum.fin (7430939385161319 / 2251799813685248), "INR"⟩⟩ :=
    Binary64.postVerify_steps _ _ _ _ _ _ _ _
      (by simp [validVerify, notEmpty, isFloatMin]; norm_num) (by decide) rfl hsmallq rfl hsmalls2
  have hsmalls3 : toDouble
      ((7430939385161319 / 2251799813685248) + (2476979795053773 / 2251799813685248))
      = JsNum.fin (2476979795053773 / 562949953421312) :=
    (toDouble_of_pos _ _ (2) (4953959590107546) (by norm_num) (by norm_num) (by norm_num)
      (roundHalfEven_of_near _ _ (by norm_num) (by norm_num))
      (by norm_num) (by norm_num) (by norm_num))
  have hsmallp3 : Binary64.postVerify (fun key message => key ++ message) "k"
      ⟨JsNum.fin (7430939385161319 / 2251799813685248), "INR"⟩
      ⟨"o1", "p1", "ko1|p1", BodyValue.num (11 / 10)⟩
      = ⟨200, ⟨JsNum.fin (2476979795053773 / 562949953421312), "INR"⟩⟩ :=
    Binary64.postVerify_steps _ _ _ _ _ _ _ _
      (by simp [validVerify, notEmpty, isFloatMin]; norm_num) (by decide) rfl hsmallq rfl hsmalls3
  have hsmalls4 : toDouble
      ((2476979795053773 / 562949953421312) + (2476979795053773 / 2251799813685248))
      = JsNum.fin (11 / 2) :=
    (toDouble_of_pos _ _ (2) (6192449487634432) (by norm_num) (by norm_num) (by norm_num)
      (by rw [roundHalfEven_of_tie _ (6192449487634432) (by norm_num)]; norm_num)
      (by norm_num) (by norm_num) (by norm_num))
  have hsmallp4 : Binary64.postVerify (fun key message => key ++ message) "k"
      ⟨JsNum.fin (2476979795053773 / 562949953421312), "INR"⟩
      ⟨"o1", "p1", "ko1|p1", BodyValue.num (11 / 10)⟩
      = ⟨200, ⟨JsNum.fin (11 / 2), "INR"⟩⟩ :=
    Binary64.postVerify_steps _ _ _ _ _ _ _ _
      (by simp [validVerify, notEmpty, isFloatMin]; norm_num) (by decide) rfl hsmallq rfl hsmalls4
  have hsmalls5 : toDouble ((11 / 2) + (2476979795053773 / 2251799813685248))
      = JsNum.fin (3715469692580659 / 562949953421312) :=
    (toDouble_of_pos _ _ (2) (7430939385161318) (by norm_num) (by norm_num) (by norm_num)
      (by rw [roundHalfEven_of_tie _ (7430939385161318) (by norm_num)]; norm_num)
      (by norm_num) (by norm_num) (by norm_num))
  have hsmallp5 : Binary64.postVerify (fun key message => key ++ message) "k"
      ⟨JsNum.fin (11 / 2), "INR"⟩
      ⟨"o1", "p1", "ko1|p1", BodyValue.num (11 / 10)⟩
      = ⟨200, ⟨JsNum.fin (3715469692580659 / 562949953421312), "INR"⟩⟩ :=
    Binary64.postVerify_steps _ _ _ _ _ _ _ _
      (by simp [validVerify, notEmpty, isFloatMin]; norm_num) (by decide) rfl hsmallq rfl hsmalls5
  have hsmalls6 : toDouble
      ((3715469692580659 / 562949953421312) + (2476979795053773 / 2251799813685248))
      = JsNum.fin (2167357320672051 / 281474976710656) :=
    (toDouble_of_pos _ _ (2) (8669429282688204) (by norm_num) (by norm_num) (by norm_num)
      (by rw [roundHalfEven_of_tie _ (8669429282688204) (by norm_num)]; norm_num)
      (by norm_num) (by norm_num) (by norm_num))
  have hsmallp6 : Binary64.postVerify (fun key message => key ++ message) "k"
      ⟨JsNum.fin (3715469692580659 / 562949953421312), "INR"⟩
      ⟨"o1", "p1", "ko1|p1", BodyValue.num (11 / 10)⟩
      = ⟨200, ⟨JsNum.fin (2167357320672051 / 281474976710656), "INR"⟩⟩ :=
    Binary64.postVerify_steps _ _ _ _ _ _ _ _
      (by simp [validVerify, notEmpty, isFloatMin]; norm_num) (by decide) rfl hsmallq rfl hsmalls6
  have hsmalls7 : toDouble
      ((2167357320672051 / 281474976710656) + (2476979795053773 / 2251799813685248))
      = JsNum.fin (4953959590107545 / 562949953421312) :=
    (toDouble_of_pos _ _ (3) (4953959590107545) (by norm_num) (by norm_num) (by norm_num)
      (roundHalfEven_of_near _ _ (by norm_num) (by norm_num))
      (by norm_num) (by norm_num) (by norm_num))
  have hsmallp7 : Binary64.postVerify (fun key message => key ++ message) "k"
      ⟨JsNum.fin (2167357320672051 / 281474976710656), "INR"⟩
      ⟨"o1", "p1", "ko1|p1", BodyValue.num (11 / 10)⟩
      = ⟨200, ⟨JsNum.fin (4953959590107545 / 562949953421312), "INR"⟩⟩ :=
    Binary64.postVerify_steps _ _ _ _ _ _ _ _
      (by simp [validVerify, notEmpty, isFloatMin]; norm_num) (by decide) rfl hsmallq rfl hsmalls7
  have hsmalls8 : toDouble
      ((4953959590107545 / 562949953421312) + (2476979795053773 / 2251799813685248))
      = JsNum.fin (1393301134717747 / 140737488355328) :=
    (toDouble_of_pos _ _ (3) (5573204538870988) (by norm_num) (by norm_num) (by norm_num)
      (roundHalfEven_of_near _ _ (by norm_num) (by norm_num))
      (by norm_num) (by norm_num) (by norm_num))
  have hsmallp8 : Binary64.postVerify (fun key message => key ++ message) "k"
      ⟨JsNum.fin (4953959590107545 / 562949953421312), "INR"⟩
      ⟨"o1", "p1", "ko1|p1", BodyValue.num (11 / 10)⟩
      = ⟨200, ⟨JsNum.fin (1393301134717747 / 140737488355328), "INR"⟩⟩ :=
    Binary64.postVerify_steps _ _ _ _ _ _ _ _
      (by simp [validVerify, notEmpty, isFloatMin]; norm_num) (by decide) rfl hsmallq rfl hsmalls8
  have hsmalls9 : toDouble
      ((1393301134717747 / 140737488355328) + (2476979795053773 / 2251799813685248))
      = JsNum.fin (6192449487634431 / 562949953421312) :=
    (toDouble_of_pos _ _ (3) (6192449487634431) (by norm_num) (by norm_num) (by norm_num)
      (roundHalfEven_of_near _ _ (by norm_num) (by norm_num))
      (by norm_num) (by norm_num) (by norm_num))
  have hsmallp9 : Binary64.postVerify (fun key message => key ++ message) "k"
      ⟨JsNum.fin (1393301134717747 / 140737488355328), "INR"⟩
      ⟨"o1", "p1", "ko1|p1", BodyValue.num (11 / 10)⟩
      = ⟨200, ⟨JsNum.fin (6192449487634431 / 562949953421312), "INR"⟩⟩ :=
    Binary64.postVerify_steps _ _ _ _ _ _ _ _
      (by simp [validVerify, notEmpty, isFloatMin]; norm_num) (by decide) rfl hsmallq rfl hsmalls9
  have hsmall : Binary64.replayVerify (fun key message => key ++ message) "k"
      ⟨"o1", "p1", "ko1|p1", BodyValue.num (11 / 10)⟩ 10
      ⟨JsNum.fin 0, "INR"⟩ = ⟨JsNum.fin (6192449487634431 / 562949953421312), "INR"⟩ :=
    ((Binary64.replayVerify_step _ _ _ 9 _ _ hsmallp0).trans
      ((Binary64.replayVerify_step _ _ _ 8 _ _ hsmallp1).trans
      ((Binary64.replayVerify_step _ _ _ 7 _ _ hsmallp2).trans
      ((Binary64.replayVerify_step _ _ _ 6 _ _ hsmallp3).trans
      ((Binary64.replayVerify_step _ _ _ 5 _ _ hsmallp4).trans
      ((Binary64.replayVerify_step _ _ _ 4 _ _ hsmallp5).trans
      ((Binary64.replayVerify_step _ _ _ 3 _ _ hsmallp6).trans
      ((Binary64.replayVerify_step _ _ _ 2 _ _ hsmallp7).trans
      ((Binary64.replayVerify_step _ _ _ 1 _ _ hsmallp8).trans
      ((Binary64.replayVerify_step _ _ _ 0 _ _ hsmallp9).trans
      rfl))))))))))
  refine ⟨?_, ?_, by norm_num, ?_, ?_, by norm_num⟩
  · rw [hlargep0]
  · rw [hlarge]
  · rw [hsmallp0]
  · rw [hsmall]

/-- C26, amended. A `POST /api/payments/verify` request that is accepted in some wallet state is
accepted again in the state that results, however often it is repeated; and where the amount
`q` is a double and none of the `n` additions to the balance `b` is rounded, handling it `n`
times leaves the balance `b + n * q`. -/
theorem verify_replay_in_doubles (hmacSha256Hex : String → String → String) (secret : String)
    (w : Wallet) (req : VerifyRequest)
    (haccepted : (Binary64.postVerify hmacSha256Hex secret w req).status = 200) (n : Nat) :
    (Binary64.postVerify hmacSha256Hex secret
        (Binary64.replayVerify hmacSha256Hex secret req n w) req).status = 200 ∧
    ∀ q b : ℚ, req.amount = BodyValue.num q → w.balance = JsNum.fin b →
      toDouble q = JsNum.fin q →
      (∀ k : Nat, k < n → toDouble (b + k * q + q) = JsNum.fin (b + k * q + q)) →
      (Binary64.replayVerify hmacSha256Hex secret req n w).balance = JsNum.fin (b + n * q) := by
  induction n generalizing w with
  | zero =>
      refine ⟨haccepted, ?_⟩
      intro q b _ hb _ _
      rw [Binary64.replayVerify, hb]
      simp
  | succ m ih =>
      obtain ⟨hvalid, hsig, hnan, hstep⟩ :=
        Binary64.postVerify_of_status hmacSha256Hex secret w req haccepted
      have hnext : (Binary64.postVerify hmacSha256Hex secret
          ⟨JsNum.rnd (w.balance + Binary64.parseFloat req.amount), w.currency⟩ req).status
          = 200 :=
        Binary64.postVerify_of_number hmacSha256Hex secret _ req hvalid hsig
          (JsNum.rnd_add_again _ _ hnan)
      obtain ⟨hagain, hbalance⟩ := ih _ hnext
      have hunfold : Binary64.replayVerify hmacSha256Hex secret req (m + 1) w
          = Binary64.replayVerify hmacSha256Hex secret req m
              ⟨JsNum.rnd (w.balance + Binary64.parseFloat req.amount), w.currency⟩ := by
        exact Binary64.replayVerify_step _ _ _ _ _ _ hstep
      rw [hunfold]
      refine ⟨hagain, ?_⟩
      intro q b hq hb hexact hsums
      have hfirst := hsums 0 (Nat.succ_pos m)
      simp only [Nat.cast_zero, zero_mul, add_zero] at hfirst
      have hstate : JsNum.rnd (w.balance + Binary64.parseFloat req.amount)
          = JsNum.fin (b + q) := by
        rw [hb, hq, Binary64.parseFloat_num q q hexact, JsNum.fin_add_fin, JsNum.rnd_fin,
          hfirst]
      have hrec := hbalance q (b + q) hq hstate hexact (by
        intro k hk
        have hnext := hsums (k + 1) (Nat.succ_lt_succ hk)
        have heq : b + q + (k : ℚ) * q + q = b + ((k + 1 : ℕ) : ℚ) * q + q := by
          push_cast
          ring
        rw [heq]
        exact hnext)
      rw [hrec]
      congr 1
      push_cast
      ring

/-- Witness of C26: a top-up of 100, handled three times, leaves 300 on an empty wallet. -/
theorem verify_replay_in_doubles_witness :
    (Binary64.replayVerify (fun key message => key ++ message) "k"
        ⟨"o1", "p1", "ko1|p1", BodyValue.num 100⟩ 3 ⟨JsNum.fin 0, "INR"⟩).balance
      = JsNum.fin 300 := by
  have haccepted : (Binary64.postVerify (fun key message => key ++ message) "k" ⟨JsNum.fin 0, "INR"⟩
      ⟨"o1", "p1", "ko1|p1", BodyValue.num 100⟩).status = 200 := by
    rw [Binary64.postVerify_steps _ _ _ _ 100 100 0 100
      (by simp [validVerify, notEmpty, isFloatMin]) (by decide) rfl
      (toDouble_of_pos _ _ (6) (7036874417766400) (by norm_num) (by norm_num) (by norm_num)
      (roundHalfEven_of_near _ _ (by norm_num) (by norm_num))
      (by norm_num) (by norm_num) (by norm_num)) rfl
      (toDouble_congr _ _ 100 (by norm_num) (by norm_num)
      (toDouble_of_pos _ _ (6) (7036874417766400) (by norm_num) (by norm_num) (by norm_num)
      (roundHalfEven_of_near _ _ (by norm_num) (by norm_num))
      (by norm_num) (by norm_num) (by norm_num)))]
  have h := (verify_replay_in_doubles (fun key message => key ++ message) "k" ⟨JsNum.fin 0, "INR"⟩
    ⟨"o1", "p1", "ko1|p1", BodyValue.num 100⟩ haccepted 3).2 100 0 rfl rfl
    (toDouble_of_pos _ _ (6) (7036874417766400) (by norm_num) (by norm_num) (by norm_num)
      (roundHalfEven_of_near _ _ (by norm_num) (by norm_num))
      (by norm_num) (by norm_num) (by norm_num))
    (by
      intro k hk
      have hcases : k = 0 ∨ k = 1 ∨ k = 2 := by omega
      rcases hcases with rfl | rfl | rfl
      · exact (toDouble_congr _ _ 100 (by norm_num) (by norm_num)
      (toDouble_of_pos _ _ (6) (7036874417766400) (by norm_num) (by norm_num) (by norm_num)
      (roundHalfEven_of_near _ _ (by norm_num) (by norm_num))
      (by norm_num) (by norm_num) (by norm_num)))
      · exact (toDouble_congr _ _ 200 (by norm_num) (by norm_num)
      (toDouble_of_pos _ _ (7) (7036874417766400) (by norm_num) (by norm_num) (by norm_num)
      (roundHalfEven_of_near _ _ (by norm_num) (by norm_num))
      (by norm_num) (by norm_num) (by norm_num)))
      · exact (toDouble_congr _ _ 300 (by norm_num) (by norm_num)
      (toDouble_of_pos _ _ (8) (5277655813324800) (by norm_num) (by norm_num) (by norm_num)
      (roundHalfEven_of_near _ _ (by norm_num) (by norm_num))
      (by norm_num) (by norm_num) (by norm_num))))
  rw [h]
  norm_num

/-- C27. Active-alert uniqueness is not preserved by updates: `POST /api/alerts` keeps every list
in which no two active alerts share coin, target price and condition that way, whatever the
request; but there is such a list and an accepted `PUT /api/alerts/:alertId` request (one that
changes the target price) after which two active alerts do share them. -/
theorem putAlert_breaks_activeUnique :
    (∀ (newId : String) (now : Nat) (alerts : List Alert) (req : AlertRequest),
      activeUnique alerts → activeUnique (postAlert newId now alerts req).state) ∧
    (∃ (alerts : List Alert) (req : AlertEdit),
      activeUnique alerts ∧ (putAlert alerts req).status = 200 ∧
        ¬ activeUnique (putAlert alerts req).state) := by
  refine ⟨?_, ?_⟩
  · intro newId now alerts req hunique
    by_cases hv : validAlert req = true
    · have hprice : isFloatMin 0 req.targetPrice = true := by
        simp only [validAlert, Bool.and_eq_true] at hv
        exact hv.1.2
      obtain ⟨q, hq, _⟩ := isFloatMin_eq_true hprice
      cases hfind : alerts.find? (sameActiveAlert req.coinId (JsNum.fin q) req.condition) with
      | some found =>
          simp only [postAlert, hv, if_true, hq, parseFloat, hfind]
          exact hunique
      | none =>
          simp only [postAlert, hv, if_true, hq, parseFloat, hfind]
          apply activeUnique_append alerts _ hunique
          intro alert hmem hsame
          have hno := List.find?_eq_none.mp hfind alert hmem
          apply hno
          rw [sameActiveAlert_iff]
          obtain ⟨hactive, _, hcoin, htarget, hcondition⟩ := hsame
          exact ⟨hcoin, htarget, hcondition, hactive⟩
    · simp only [postAlert, hv]
      exact hunique
  · refine ⟨[⟨"a1", "bitcoin", "btc", JsNum.fin 50000, "above", true, 7⟩,
             ⟨"a2", "bitcoin", "btc", JsNum.fin 60000, "above", true, 8⟩],
            ⟨"a2", BodyValue.num 50000, none, BodyBool.missing⟩, ?_, ?_, ?_⟩
    · simp [activeUnique, sameTarget]
    · simp [putAlert, validAlertEdit, optionalFloatMin, isFloatMin, optionalCondition,
        optionalBoolean, findAlert_cons]
    · simp [putAlert, validAlertEdit, optionalFloatMin, isFloatMin, optionalCondition,
        optionalBoolean, findAlert_cons, mutateAlert, overwriteAlert, parseFloat,
        activeUnique, sameTarget]

/-- C30, as stated, fails: for the amount 1.005 the product in doubles is 100.49999999999999
and the order amount is 100, where 1.005 * 100 = 100.5 is rounded to 101 by `Math.round`; and
for the amount 1.005000000000000001, whose hundredfold lies above 100.5 and within 1/2 of 101
only, the order amount is 100 as well. -/
theorem createOrder_rounds_the_double :
    (Binary64.createOrder 7 "u1" ⟨BodyValue.num (201 / 200), none⟩).2.map
        (fun order => order.amount) = some (JsNum.fin 100) ∧
    JsNum.round (JsNum.fin (201 / 200) * JsNum.fin 100) = JsNum.fin 101 ∧
    (Binary64.createOrder 7 "u1"
        ⟨BodyValue.num (1005000000000000001 / 1000000000000000000), none⟩).2.map
        (fun order => order.amount) = some (JsNum.fin 100) ∧
    (1 : ℚ) / 2 < |100 - 1005000000000000001 / 1000000000000000000 * 100| ∧
    |(101 : ℚ) - 1005000000000000001 / 1000000000000000000 * 100| < 1 / 2 := by
  have hfirst1 : toDouble (201 / 200) = JsNum.fin (1131529406376837 / 1125899906842624) :=
    (toDouble_of_pos _ _ (0) (4526117625507348) (by norm_num) (by norm_num) (by norm_num)
      (roundHalfEven_of_near _ _ (by norm_num) (by norm_num))
      (by norm_num) (by norm_num) (by norm_num))
  have hfirst2 : toDouble ((1131529406376837 / 1125899906842624) * 100)
      = JsNum.fin (7072058789855231 / 70368744177664) :=
    (toDouble_of_pos _ _ (6) (7072058789855231) (by norm_num) (by norm_num) (by norm_num)
      (roundHalfEven_of_near _ _ (by norm_num) (by norm_num))
      (by norm_num) (by norm_num) (by norm_num))
  have hfirst : (Binary64.createOrder 7 "u1" ⟨BodyValue.num (201 / 200), none⟩).2.map
      (fun order => order.amount) = some (JsNum.fin ((100 : ℤ) : ℚ)) :=
    Binary64.createOrder_steps 7 "u1" _ _ _ _ (100)
      (by simp [validOrder, isFloatMin, optionalCurrency]; norm_num) rfl hfirst1 hfirst2
      (by norm_num) (by norm_num)
  have hsecond1 : toDouble (1005000000000000001 / 1000000000000000000)
      = JsNum.fin (1131529406376837 / 1125899906842624) :=
    (toDouble_of_pos _ _ (0) (4526117625507348) (by norm_num) (by norm_num) (by norm_num)
      (roundHalfEven_of_near _ _ (by norm_num) (by norm_num))
      (by norm_num) (by norm_num) (by norm_num))
  have hsecond2 : toDouble ((1131529406376837 / 1125899906842624) * 100)
      = JsNum.fin (7072058789855231 / 70368744177664) :=
    (toDouble_of_pos _ _ (6) (7072058789855231) (by norm_num) (by norm_num) (by norm_num)
      (roundHalfEven_of_near _ _ (by norm_num) (by norm_num))
      (by norm_num) (by norm_num) (by norm_num))
  have hsecond : (Binary64.createOrder 7 "u1"
      ⟨BodyValue.num (1005000000000000001 / 1000000000000000000), none⟩).2.map
      (fun order => order.amount) = some (JsNum.fin ((100 : ℤ) : ℚ)) :=
    Binary64.createOrder_steps 7 "u1" _ _ _ _ (100)
      (by simp [validOrder, isFloatMin, optionalCurrency]; norm_num) rfl hsecond1 hsecond2
      (by norm_num) (by norm_num)
  refine ⟨?_, ?_, ?_, ?_, ?_⟩
  · rw [hfirst]
    norm_num
  · have hfloor : ⌊((201 / 200) * 100 + 1 / 2 : ℚ)⌋ = 101 := by
      rw [Int.floor_eq_iff]
      constructor <;> norm_num
    simp only [JsNum.fin_mul_fin, JsNum.round, hfloor]
    norm_num
  · rw [hsecond]
    norm_num
  · rw [lt_abs]
    right
    norm_num
  · rw [abs_lt]
    constructor <;> norm_num

/-- C30, amended. An accepted `POST /api/payments/create-order` request with the amount `q`
(so `q ≥ 1`) is answered with 200 and an order whose amount is `Math.round` of the double
product of the amount read as a double and 100; when `q * 100` is an integer of at most
`2 ^ 50`, as for every amount below ten million millions with at most two decimal places, the
order amount is `q * 100` exactly; and the order amount is at least 100. -/
theorem createOrder_minor_units_in_doubles (now : Nat) (userId : String) (req : OrderRequest)
    (q : ℚ) (hvalid : validOrder req = true) (hq : req.amount = BodyValue.num q) :
    (Binary64.createOrder now userId req).1 = 200 ∧
    (Binary64.createOrder now userId req).2.map (fun order => order.amount)
      = some (JsNum.round (JsNum.rnd (JsNum.rnd (JsNum.fin q) * JsNum.fin 100))) ∧
    (∀ k : ℤ, q * 100 = k → (k : ℚ) ≤ 2 ^ (50 : ℤ) →
      (Binary64.createOrder now userId req).2.map (fun order => order.amount)
        = some (JsNum.fin (k : ℚ))) ∧
    JsNum.le (JsNum.fin 100)
      (JsNum.round (JsNum.rnd (JsNum.rnd (JsNum.fin q) * JsNum.fin 100))) = true := by
  have hq1 : 1 ≤ q := by
    have h : isFloatMin 1 req.amount = true := by
      have hv := hvalid
      simp only [validOrder, Bool.and_eq_true] at hv
      exact hv.1
    rw [hq] at h
    simpa [isFloatMin] using h
  refine ⟨by simp [Binary64.createOrder, hvalid], ?_, ?_, ?_⟩
  · simp [Binary64.createOrder, hvalid, hq, Binary64.parseFloat, CryptoTracker.parseFloat]
  · intro k hk hbound
    have hq2 : q ≤ 2 ^ (1000 : ℤ) := by
      have h50 : (2 : ℚ) ^ (50 : ℤ) ≤ 2 ^ (1000 : ℤ) := by norm_num
      linarith
    obtain ⟨v, hv, hvq⟩ := toDouble_near q hq1 hq2
    rw [abs_le] at hvq
    have h53 : (2 : ℚ) ^ (53 : ℤ) = 8 * 2 ^ (50 : ℤ) := by norm_num
    have hpos50 : (0 : ℚ) < 2 ^ (50 : ℤ) := by positivity
    have herr : q / 2 ^ (53 : ℤ) ≤ 1 / 800 := by
      rw [div_le_iff₀ (by positivity), h53]
      linarith
    have hy1 : 1 ≤ v * 100 := by linarith
    have hy2 : v * 100 ≤ 2 ^ (1000 : ℤ) := by
      have h51 : (2 : ℚ) ^ (50 : ℤ) + 1 ≤ 2 ^ (1000 : ℤ) := by norm_num
      linarith
    obtain ⟨y, hy, hyv⟩ := toDouble_near (v * 100) hy1 hy2
    rw [abs_le] at hyv
    have herr2 : v * 100 / 2 ^ (53 : ℤ) ≤ 1 / 4 := by
      rw [div_le_iff₀ (by positivity), h53]
      linarith
    exact Binary64.createOrder_steps now userId req q v y k hvalid hq hv hy
      (by linarith) (by linarith)
  · rcases toDouble_ge_nat 1 q (le_refl 1) (by norm_num) (by simpa using hq1) with hv | ⟨v, hv, hv1⟩
    · simp [JsNum.rnd_fin, hv, JsNum.mul_def, JsNum.mul, JsNum.infTimes, JsNum.rnd,
        JsNum.round, JsNum.le]
    · have h100 : ((100 : ℕ) : ℚ) ≤ v * 100 := by
        push_cast at hv1 ⊢
        linarith
      rcases toDouble_ge_nat 100 (v * 100) (by norm_num) (by norm_num) h100 with hy | ⟨y, hy, hy1⟩
      · simp [JsNum.rnd_fin, hv, hy, JsNum.round, JsNum.le]
      · have hfloor : (100 : ℤ) ≤ ⌊y + 1 / 2⌋ := by
          rw [Int.le_floor]
          push_cast at hy1 ⊢
          linarith
        have hcast : (100 : ℚ) ≤ ((⌊y + 1 / 2⌋ : ℤ) : ℚ) := by exact_mod_cast hfloor
        simp only [JsNum.rnd_fin, hv, JsNum.fin_mul_fin, hy, JsNum.round, JsNum.le,
          decide_eq_true_eq]
        exact hcast

/-- Witness of C30: the amount 12.34 gives the order amount 1234. -/
theorem createOrder_minor_units_in_doubles_witness :
    (Binary64.createOrder 7 "u1" ⟨BodyValue.num (1234 / 100), none⟩).2.map
        (fun order => order.amount)
      = some (JsNum.fin 1234) := by
  have h := (createOrder_minor_units_in_doubles 7 "u1" ⟨BodyValue.num (1234 / 100), none⟩
    (1234 / 100) (by simp [validOrder, isFloatMin, optionalCurrency]; norm_num) rfl).2.2.1
    1234 (by norm_num) (by norm_num)
  rw [h]
  norm_num

end CryptoTracker
